import Mathlib

/-!
# net-lab: ARP / IP / checksum core

A shallow embedding of the C sources `utils.c`, `ethernet.c`, `arp.c`, `ip.c`,
`icmp.c` and `udp.c`, and theorems about it.

Conventions of the embedding.

* A byte is a `Nat`; every `uint8_t` read is reduced `% 256`, every `uint16_t`
  value `% 65536`, every `uint32_t` value `% 2^32`.  `memcpy` and `memcmp` move and
  compare memory cells as they are.
* Memory is a `List Nat` of bytes.  A pointer into a region is an offset.
* The host is little-endian: a `uint16_t` at byte offset `o` has its low byte at
  `o` and its high byte at `o + 1`.
* The global variables form a `State`; a `buf_t *` argument is a `buf_ref`, so that a
  call on the shared transmit buffer sees what other functions do to that buffer.
  Addresses (`uint8_t *ip`, `uint8_t *mac`) are passed by value.
* The `trace` of the state records, in program order, the frames given to the driver and
  the calls between the layers.
* `buf.c`, `map.c`, `net.c`, the driver and the headers are not among the sources; what
  the functions above need of them is modelled from the specification and marked so.
-/

namespace NetLab

set_option linter.unusedVariables false

/-! ## Bytes and memory -/

/-- Read of one `uint8_t` at byte offset `i` (an out-of-range read yields 0). -/
def byte_at (mem : List Nat) (i : Nat) : Nat := mem.getD i 0 % 256

/-- Read of `((uint16_t *)mem)[i]` on the little-endian host. -/
def read16 (mem : List Nat) (i : Nat) : Nat :=
  byte_at mem (2 * i) + 256 * byte_at mem (2 * i + 1)

/-- Read of a native `uint16_t` field at byte offset `o` (little-endian host). -/
def load16 (mem : List Nat) (o : Nat) : Nat :=
  byte_at mem o + 256 * byte_at mem (o + 1)

/-- Store of a native `uint16_t` value `v` at byte offset `o` (little-endian host). -/
def store16 (mem : List Nat) (o : Nat) (v : Nat) : List Nat :=
  (mem.set o (v % 256)).set (o + 1) (v / 256 % 256)

/-- Store of one `uint8_t`. -/
def store8 (mem : List Nat) (o : Nat) (v : Nat) : List Nat :=
  mem.set o (v % 256)

/-- The call `memcpy(mem + dst, src, n)`: byte `i` of `src` goes to offset `dst + i`. -/
def memcpy (mem : List Nat) (dst : Nat) (src : List Nat) (n : Nat) : List Nat :=
  (List.range n).foldl (fun m i => m.set (dst + i) (src.getD i 0)) mem

/-- The call `memset(mem + dst, 0, n)`. -/
def memset0 (mem : List Nat) (dst : Nat) (n : Nat) : List Nat :=
  (List.range n).foldl (fun m i => m.set (dst + i) 0) mem

/-- The `n` bytes of `mem` starting at offset `o`. -/
def bytes_from (mem : List Nat) (o n : Nat) : List Nat :=
  (List.range n).map (fun i => mem.getD (o + i) 0)

/-- Modelled from the spec: the macro `swap16` of the missing header `utils.h`,
which exchanges the two bytes of a 16-bit value (host order to wire order). -/
def swap16 (x : Nat) : Nat := (x % 256) * 256 + x / 256 % 256

/-! ## utils.c : checksum16 -/

/-- The loop `while (sum > 0xFFFF) sum = (sum & 0xFFFF) + (sum >> 16);` on a
`uint32_t`. -/
def checksum16_fold (sum : Nat) : Nat :=
  if 0xFFFF < sum then checksum16_fold (((sum &&& 0xFFFF) + (sum >>> 16)) % 2 ^ 32) else sum
termination_by sum
decreasing_by
  have h1 : sum &&& 0xFFFF = sum % 65536 := Nat.and_pow_two_sub_one_eq_mod sum 16
  have h2 : sum >>> 16 = sum / 65536 := Nat.shiftRight_eq_div_pow sum 16
  rw [h1, h2]
  have h3 := Nat.mod_le (sum % 65536 + sum / 65536) (2 ^ 32)
  have h4 : sum % 65536 + sum / 65536 < sum := by omega
  exact Nat.lt_of_le_of_lt h3 h4

/-- The function `checksum16(uint16_t *data, size_t len)` of `utils.c`. -/
def checksum16 (data : List Nat) (len : Nat) : Nat :=
  let word_count := len / 2
  let sum := (List.range word_count).foldl (fun sum i => (sum + read16 data i) % 2 ^ 32) 0
  let sum :=
    if len % 2 = 1 then (sum + (byte_at data (len - 1) <<< 8) % 65536) % 2 ^ 32 else sum
  let sum := checksum16_fold sum
  (2 ^ 32 - 1 - sum) % 65536

/-! ## buf.c (missing from the sources): the packet buffer -/

/-- The type `buf_t`: `payload` is the backing storage (its length is the capacity
`BUF_MAX_LEN` of the missing header `buf.h`), `data` is the offset of the `data`
pointer inside `payload`, `len` is the number of valid bytes from `data` on. -/
structure buf_t where
  len : Nat
  data : Nat
  payload : List Nat
deriving DecidableEq, Repr

/-- The valid bytes of a buffer: `buf->data[0 .. buf->len)`. -/
def buf_t.bytes (buf : buf_t) : List Nat := bytes_from buf.payload buf.data buf.len

/-- Modelled from the spec: `buf_init` of the missing `buf.c`, the buffer allocation:
the buffer gets length `len`, placed so that it ends in the middle of the storage, which
leaves room to grow at the front and at the back.  The storage is not cleared.  A length
of half the capacity or more is refused. -/
def buf_init (buf : buf_t) (len : Nat) : buf_t :=
  if buf.payload.length / 2 ≤ len then buf
  else { buf with len := len, data := buf.payload.length / 2 - len }

/-- Modelled from the spec: `buf_add_header` of the missing `buf.c`, grow-at-front by
`len` bytes; refused (buffer unchanged) when there is not enough room at the front. -/
def buf_add_header (buf : buf_t) (len : Nat) : buf_t :=
  if buf.data < len then buf
  else { buf with len := buf.len + len, data := buf.data - len }

/-- Modelled from the spec: `buf_remove_header` of the missing `buf.c`, truncate `len`
bytes at the front; refused when the buffer is shorter than `len`. -/
def buf_remove_header (buf : buf_t) (len : Nat) : buf_t :=
  if buf.len < len then buf
  else { buf with len := buf.len - len, data := buf.data + len }

/-- Modelled from the spec: `buf_add_padding` of the missing `buf.c`, grow-at-back by
`len` zero bytes; refused when the capacity would be exceeded. -/
def buf_add_padding (buf : buf_t) (len : Nat) : buf_t :=
  if buf.payload.length < buf.data + buf.len + len then buf
  else { buf with len := buf.len + len,
                  payload := memset0 buf.payload (buf.data + buf.len) len }

/-- Modelled from the spec: `buf_remove_padding` of the missing `buf.c`, truncate `len`
bytes at the back; refused when the buffer is shorter than `len`. -/
def buf_remove_padding (buf : buf_t) (len : Nat) : buf_t :=
  if buf.len < len then buf
  else { buf with len := buf.len - len }

/-! ## utils.c : transport_checksum -/

/-- The function `transport_checksum(protocol, buf, src_ip, dst_ip)` of `utils.c`.
It returns the checksum together with the buffer as the call leaves it.  The two
addresses are passed by value: every caller in the sources passes addresses whose bytes
are read before the call overwrites them. -/
def transport_checksum (protocol : Nat) (buf : buf_t) (src_ip dst_ip : List Nat) :
    Nat × buf_t :=
  -- Step1: buf_add_header(buf, sizeof(peso_hdr_t))
  let buf := buf_add_header buf 12
  -- Step2: memcpy(&temp_ip_hdr, buf->data - (20 - 12), 20)
  let temp_ip_hdr := bytes_from buf.payload (buf.data - 8) 20
  -- Step3: the pseudo header
  let p := memcpy buf.payload buf.data src_ip 4
  let p := memcpy p (buf.data + 4) dst_ip 4
  let p := store8 p (buf.data + 9) protocol
  let p := store8 p (buf.data + 8) 0
  let udp_len := (buf.len + 2 ^ 64 - 12) % 2 ^ 64 % 65536
  let p := store16 p (buf.data + 10) (swap16 udp_len)
  let buf := { buf with payload := p }
  -- Step4: the checksum, over an even number of bytes
  let r : Nat × buf_t :=
    if buf.len % 2 = 0 then
      (checksum16 (buf.payload.drop buf.data) buf.len, buf)
    else
      let padded := buf_add_padding buf 1
      (checksum16 (padded.payload.drop padded.data) padded.len, buf_remove_padding padded 1)
  let checksum := r.1
  let buf := r.2
  -- Step5: memcpy(buf->data - (20 - 12), &temp_ip_hdr, 20)
  let buf := { buf with payload := memcpy buf.payload (buf.data - 8) temp_ip_hdr 20 }
  -- Step6: buf_remove_header(buf, sizeof(peso_hdr_t))
  let buf := buf_remove_header buf 12
  (checksum, buf)

/-! ## Constants of the missing headers -/

/-- Modelled from the spec: `NET_MAC_LEN` of the missing `net.h` (a MAC address has 6
bytes). -/
def NET_MAC_LEN : Nat := 6

/-- Modelled from the spec: `NET_IP_LEN` of the missing `net.h` (an IPv4 address has 4
bytes). -/
def NET_IP_LEN : Nat := 4

/-- Modelled from the spec: link-level protocol code of ARP (`net.h` is missing). -/
def NET_PROTOCOL_ARP : Nat := 0x0806

/-- Modelled from the spec: link-level protocol code of IPv4, also the ARP protocol type
`0x0800` (`net.h` is missing). -/
def NET_PROTOCOL_IP : Nat := 0x0800

/-- Modelled from the spec: IP protocol number of ICMP (`net.h` is missing). -/
def NET_PROTOCOL_ICMP : Nat := 1

/-- Modelled from the spec: IP protocol number of UDP (`net.h` is missing). -/
def NET_PROTOCOL_UDP : Nat := 17

/-- Modelled from the spec: the 46-byte minimum payload of an Ethernet frame
(`ethernet.h` is missing). -/
def ETHERNET_MIN_TRANSPORT_UNIT : Nat := 46

/-- Modelled from the spec: ARP hardware type Ethernet, `hw_type = 1` (`arp.h` is
missing). -/
def ARP_HW_ETHER : Nat := 1

/-- Modelled from the spec: ARP opcode 1, request (`arp.h` is missing). -/
def ARP_REQUEST : Nat := 1

/-- Modelled from the spec: ARP opcode 2, reply (`arp.h` is missing). -/
def ARP_REPLY : Nat := 2

/-- Modelled from the spec: IP version 4 (`ip.h` is missing). -/
def IP_VERSION_4 : Nat := 4

/-- Modelled from the spec: the more-fragments bit, above the 13-bit fragment offset
(`ip.h` is missing). -/
def IP_MORE_FRAGMENT : Nat := 0x2000

/-- Modelled from the spec: the fixed default TTL (`ip.h` is missing; the spec gives no
value, 64 is taken). -/
def IP_DEFALUT_TTL : Nat := 64

/-- Modelled from the spec: ICMP type echo request (`icmp.h` is missing). -/
def ICMP_TYPE_ECHO_REQUEST : Nat := 8

/-- Modelled from the spec: ICMP type echo reply (`icmp.h` is missing). -/
def ICMP_TYPE_ECHO_REPLY : Nat := 0

/-- Modelled from the spec: ICMP type destination unreachable (`icmp.h` is missing). -/
def ICMP_TYPE_UNREACH : Nat := 3

/-- Modelled from the spec: ICMP code protocol unreachable (`icmp.h` is missing). -/
def ICMP_CODE_PROTOCOL_UNREACH : Nat := 2

/-- Modelled from the spec: ICMP code port unreachable (`icmp.h` is missing). -/
def ICMP_CODE_PORT_UNREACH : Nat := 3

/-- Modelled from the spec: the link-layer broadcast address (`ethernet.h` is
missing). -/
def ether_broadcast_mac : List Nat := [0xFF, 0xFF, 0xFF, 0xFF, 0xFF, 0xFF]

/-! ## map.c (missing from the sources): keyed tables with expiry -/

/-- One entry of a `map_t`: key bytes, value, last-update timestamp. -/
structure map_entry (V : Type) where
  key : List Nat
  value : V
  timestamp : Nat
deriving DecidableEq, Repr

/-- The type `map_t`: key length in bytes, timeout in seconds, entries (at most one per
key). -/
structure map_t (V : Type) where
  key_len : Nat
  timeout : Nat
  entries : List (map_entry V)
deriving DecidableEq, Repr

/-- Modelled from the spec: an entry older than the configured timeout is treated as
absent on lookup. -/
def map_expired {V : Type} (m : map_t V) (now : Nat) (e : map_entry V) : Bool :=
  decide (e.timestamp + m.timeout < now)

/-- Modelled from the spec: `map_get` of the missing `map.c`: the value stored under the
`key_len` bytes at `key`, absent when there is no entry or the entry has expired.  The
lookup does not change the table. -/
def map_get {V : Type} (m : map_t V) (now : Nat) (key : List Nat) : Option V :=
  match m.entries.find? (fun e => decide (e.key = bytes_from key 0 m.key_len)) with
  | some e => if map_expired m now e then none else some e.value
  | none => none

/-- Modelled from the spec: `map_set` of the missing `map.c`: stores a copy of `value`
under `key` with the current time, replacing the entry of that key if there is one. -/
def map_set {V : Type} (m : map_t V) (now : Nat) (key : List Nat) (value : V) : map_t V :=
  { m with entries :=
      ⟨bytes_from key 0 m.key_len, value, now⟩ ::
        m.entries.filter (fun e => decide (e.key ≠ bytes_from key 0 m.key_len)) }

/-- Modelled from the spec: `map_delete` of the missing `map.c`: removes the entry of
`key`, other entries untouched. -/
def map_delete {V : Type} (m : map_t V) (key : List Nat) : map_t V :=
  { m with entries :=
      m.entries.filter (fun e => decide (e.key ≠ bytes_from key 0 m.key_len)) }

/-! ## Global state and trace -/

/-- The buffers a `buf_t *` argument can point to: the shared transmit scratch buffer
`txbuf`, the shared receive scratch buffer `rxbuf`, the local `ip_buf` of `ip_out`, and a
buffer owned by the caller. -/
inductive buf_ref where
  | txbuf
  | rxbuf
  | ip_buf
  | user
deriving DecidableEq, Repr

/-- Observable and call events, in program order.  `driver_send` is the frame given to
the driver; the other events record a call with the buffer bytes at the time of the
call. -/
inductive Event where
  | driver_send (frame : List Nat)
  | ethernet_out (buf : List Nat) (mac : List Nat) (protocol : Nat)
  | arp_out (buf : List Nat) (ip : List Nat)
  | ip_fragment_out (buf : List Nat) (ip : List Nat) (protocol id offset mf : Nat)
  | ip_out (buf : List Nat) (ip : List Nat) (protocol : Nat)
  | icmp_unreachable (recv_buf : List Nat) (src_ip : List Nat) (code : Nat)
  | handler (protocol : Nat) (buf : List Nat) (src : List Nat)
  | udp_handler (port : Nat) (data : List Nat) (len : Nat) (src_ip : List Nat)
      (src_port : Nat)
deriving DecidableEq, Repr

/-- The global variables of the stack.  `now` is the value `time(NULL)` returns during
the operation.  `net_table` lists the protocol numbers with a registered handler,
`udp_table` the open UDP ports. -/
structure State where
  net_if_ip : List Nat
  net_if_mac : List Nat
  now : Nat
  arp_table : map_t (List Nat)
  arp_buf : map_t buf_t
  txbuf : buf_t
  rxbuf : buf_t
  ip_buf : buf_t
  user_buf : buf_t
  packet_id : Nat
  net_table : List Nat
  udp_table : List Nat
  trace : List Event
deriving DecidableEq, Repr

/-- Dereference of a `buf_t *`. -/
def State.get (s : State) : buf_ref → buf_t
  | .txbuf => s.txbuf
  | .rxbuf => s.rxbuf
  | .ip_buf => s.ip_buf
  | .user => s.user_buf

/-- Write through a `buf_t *`. -/
def State.set (s : State) (r : buf_ref) (b : buf_t) : State :=
  match r with
  | .txbuf => { s with txbuf := b }
  | .rxbuf => { s with rxbuf := b }
  | .ip_buf => { s with ip_buf := b }
  | .user => { s with user_buf := b }

/-- Append one event to the trace. -/
def State.log (s : State) (e : Event) : State := { s with trace := s.trace ++ [e] }

/-- The frames given to the driver, in order. -/
def frames : List Event → List (List Nat)
  | [] => []
  | Event.driver_send f :: t => f :: frames t
  | _ :: t => frames t

/-- The upper-layer dispatches (protocol handlers and UDP port handlers), in order. -/
def dispatches : List Event → List Event
  | [] => []
  | Event.handler p b s :: t => Event.handler p b s :: dispatches t
  | Event.udp_handler p d l s q :: t => Event.udp_handler p d l s q :: dispatches t
  | _ :: t => dispatches t

/-- Modelled from the spec: `driver_send` of the missing driver, the link-level send: the
bytes of the buffer leave as one frame. -/
def driver_send (s : State) (b : buf_t) : State := s.log (Event.driver_send b.bytes)

/-! ## ethernet.c : ethernet_out -/

/-- The function `ethernet_out(buf, mac, protocol)` of `ethernet.c` on the buffer value:
the state after the call and the buffer as the call leaves it. -/
def ethernet_out_buf (s : State) (b : buf_t) (mac : List Nat) (protocol : Nat) :
    State × buf_t :=
  let s := s.log (Event.ethernet_out b.bytes mac protocol)
  -- Step1: padding up to the minimum transport unit
  let b :=
    if b.len < ETHERNET_MIN_TRANSPORT_UNIT then
      buf_add_padding b (ETHERNET_MIN_TRANSPORT_UNIT - b.len)
    else b
  -- Step2: buf_add_header(buf, sizeof(ether_hdr_t))
  let b := buf_add_header b 14
  -- Step3..5: dst, src, protocol16
  let p := memcpy b.payload b.data mac NET_MAC_LEN
  let p := memcpy p (b.data + 6) s.net_if_mac NET_MAC_LEN
  let p := store16 p (b.data + 12) (swap16 protocol)
  let b := { b with payload := p }
  -- Step6: driver_send(buf)
  (driver_send s b, b)

/-- The function `ethernet_out` called on one of the named buffers. -/
def ethernet_out (s : State) (buf : buf_ref) (mac : List Nat) (protocol : Nat) : State :=
  let r := ethernet_out_buf s (s.get buf) mac protocol
  r.1.set buf r.2

/-! ## arp.c -/

/-- The constant `arp_init_pkt` of `arp.c` as 28 bytes of memory (fields that the
initialiser does not name are zero). -/
def arp_init_pkt (s : State) : List Nat :=
  let p := List.replicate 28 0
  let p := store16 p 0 (swap16 ARP_HW_ETHER)
  let p := store16 p 2 (swap16 NET_PROTOCOL_IP)
  let p := store8 p 4 NET_MAC_LEN
  let p := store8 p 5 NET_IP_LEN
  let p := memcpy p 14 s.net_if_ip NET_IP_LEN
  let p := memcpy p 8 s.net_if_mac NET_MAC_LEN
  p

/-- The function `arp_req(target_ip)` of `arp.c`. -/
def arp_req (s : State) (target_ip : List Nat) : State :=
  -- Step1: buf_init(&txbuf, sizeof(arp_pkt_t))
  let tx := buf_init s.txbuf 28
  -- Step2: template and target ip
  let p := memcpy tx.payload tx.data (arp_init_pkt s) 28
  let p := memcpy p (tx.data + 24) target_ip NET_IP_LEN
  -- Step3: opcode
  let p := store16 p (tx.data + 6) (swap16 ARP_REQUEST)
  let s := { s with txbuf := { tx with payload := p } }
  -- Step4: broadcast
  ethernet_out s buf_ref.txbuf ether_broadcast_mac NET_PROTOCOL_ARP

/-- The function `arp_resp(target_ip, target_mac)` of `arp.c`. -/
def arp_resp (s : State) (target_ip target_mac : List Nat) : State :=
  let tx := buf_init s.txbuf 28
  let p := memcpy tx.payload tx.data (arp_init_pkt s) 28
  let p := store16 p (tx.data + 6) (swap16 ARP_REPLY)
  let p := memcpy p (tx.data + 24) target_ip NET_IP_LEN
  let p := memcpy p (tx.data + 18) target_mac NET_MAC_LEN
  let s := { s with txbuf := { tx with payload := p } }
  ethernet_out s buf_ref.txbuf target_mac NET_PROTOCOL_ARP

/-- The function `arp_in(buf, src_mac)` of `arp.c`.  The cached buffer that
`ethernet_out` frames lives in the pending table; the entry is deleted right after, so
the framed copy is not written back. -/
def arp_in (s : State) (buf : buf_ref) (src_mac : List Nat) : State :=
  let b := s.get buf
  -- Step1: length
  if b.len < 28 then s else
  let pkt := b.data
  -- Step2: header checks
  if swap16 (load16 b.payload pkt) ≠ ARP_HW_ETHER then s else
  if swap16 (load16 b.payload (pkt + 2)) ≠ NET_PROTOCOL_IP then s else
  if byte_at b.payload (pkt + 4) ≠ NET_MAC_LEN then s else
  if byte_at b.payload (pkt + 5) ≠ NET_IP_LEN then s else
  let opcode := swap16 (load16 b.payload (pkt + 6))
  if opcode ≠ ARP_REQUEST ∧ opcode ≠ ARP_REPLY then s else
  let sender_mac := bytes_from b.payload (pkt + 8) NET_MAC_LEN
  let sender_ip := bytes_from b.payload (pkt + 14) NET_IP_LEN
  let target_ip := bytes_from b.payload (pkt + 24) NET_IP_LEN
  -- Step3: map_set(&arp_table, sender_ip, sender_mac)
  let s := { s with arp_table := map_set s.arp_table s.now sender_ip sender_mac }
  -- Step4: pending buffer
  match map_get s.arp_buf s.now sender_ip with
  | some cached_buf =>
    let s := (ethernet_out_buf s cached_buf sender_mac NET_PROTOCOL_IP).1
    { s with arp_buf := map_delete s.arp_buf sender_ip }
  | none =>
    if opcode = ARP_REQUEST then
      if target_ip = bytes_from s.net_if_ip 0 NET_IP_LEN then
        arp_resp s sender_ip sender_mac
      else s
    else s

/-- The function `arp_out(buf, ip)` of `arp.c`. -/
def arp_out (s : State) (buf : buf_ref) (ip : List Nat) : State :=
  let s := s.log (Event.arp_out (s.get buf).bytes ip)
  -- Step1: map_get(&arp_table, ip)
  match map_get s.arp_table s.now ip with
  | some mac =>
    -- Step2: hit
    ethernet_out s buf mac NET_PROTOCOL_IP
  | none =>
    -- Step3: pending?
    match map_get s.arp_buf s.now ip with
    | some _ => s
    | none =>
      let s := { s with arp_buf := map_set s.arp_buf s.now ip (s.get buf) }
      arp_req s ip

/-! ## ip.c : transmission -/

/-- The function `ip_fragment_out(buf, ip, protocol, id, offset, mf)` of `ip.c`.  The
header is `ip_hdr_t`: version and header length share byte 0 (version in the high
nibble), then tos, total_len16, id16, flags_fragment16, ttl, protocol, hdr_checksum16,
src_ip, dst_ip. -/
def ip_fragment_out (s : State) (buf : buf_ref) (ip : List Nat)
    (protocol id offset mf : Nat) : State :=
  let s := s.log (Event.ip_fragment_out (s.get buf).bytes ip protocol id offset mf)
  -- Step1: buf_add_header(buf, sizeof(ip_hdr_t))
  let b := buf_add_header (s.get buf) 20
  let h := b.data
  -- Step2: header fields
  let p := store8 b.payload h (byte_at b.payload h % 16 + 16 * (IP_VERSION_4 % 16))
  let p := store8 p h (byte_at p h / 16 * 16 + (20 / 4) % 16)
  let p := store8 p (h + 1) 0
  let p := store16 p (h + 2) (swap16 b.len)
  let p := store16 p (h + 4) (swap16 id)
  let flags_and_offset := if mf ≠ 0 then (offset % 65536) ||| IP_MORE_FRAGMENT
    else offset % 65536
  let p := store16 p (h + 6) (swap16 flags_and_offset)
  let p := store8 p (h + 8) IP_DEFALUT_TTL
  let p := store8 p (h + 9) protocol
  let p := memcpy p (h + 12) s.net_if_ip NET_IP_LEN
  let p := memcpy p (h + 16) ip NET_IP_LEN
  -- Step3: checksum
  let p := store16 p (h + 10) 0
  let p := store16 p (h + 10) (checksum16 (p.drop h) 20)
  let s := s.set buf { b with payload := p }
  -- Step4: arp_out(buf, ip)
  arp_out s buf ip

/-- The `while (remaining_len > 0)` loop of `ip_out`; the three counters are
`uint16_t`. -/
def ip_out_loop (buf : buf_ref) (ip : List Nat) (protocol current_id : Nat)
    (s : State) (remaining_len data_offset fragment_offset : Nat) : State :=
  if 0 < remaining_len then
    let max_payload := 1500 - 20
    let fragment_size := if remaining_len > max_payload then max_payload else remaining_len
    let mf := if remaining_len > max_payload then 1 else 0
    -- buf_init(&ip_buf, fragment_size)
    let s := { s with ip_buf := buf_init s.ip_buf fragment_size }
    -- memcpy(ip_buf.data, buf->data + data_offset, fragment_size)
    let src := s.get buf
    let chunk := bytes_from src.payload (src.data + data_offset) fragment_size
    let s := { s with ip_buf :=
      { s.ip_buf with payload := memcpy s.ip_buf.payload s.ip_buf.data chunk fragment_size } }
    let s := ip_fragment_out s buf_ref.ip_buf ip protocol current_id fragment_offset mf
    ip_out_loop buf ip protocol current_id s
      ((remaining_len + 65536 - fragment_size) % 65536)
      ((data_offset + fragment_size) % 65536)
      ((fragment_offset + fragment_size / 8) % 65536)
  else s
termination_by remaining_len
decreasing_by
  have h1 := Nat.mod_le (remaining_len + 65536 - (if remaining_len > 1500 - 20
    then 1500 - 20 else remaining_len)) 65536
  split at h1 <;> split <;> omega

/-- The function `ip_out(buf, ip, protocol)` of `ip.c`; `packet_id` is its static
counter. -/
def ip_out (s : State) (buf : buf_ref) (ip : List Nat) (protocol : Nat) : State :=
  let s := s.log (Event.ip_out (s.get buf).bytes ip protocol)
  let max_payload := 1500 - 20
  -- Step1
  let current_id := s.packet_id
  let s := { s with packet_id := s.packet_id + 1 }
  if (s.get buf).len ≤ max_payload then
    ip_fragment_out s buf ip protocol current_id 0 0
  else
    -- Step2
    ip_out_loop buf ip protocol current_id s ((s.get buf).len % 65536) 0 0

/-! ## icmp.c -/

/-- The function `icmp_resp(req_buf, src_ip)` of `icmp.c`.  The header is `icmp_hdr_t`:
type, code, checksum16, id16, seq16. -/
def icmp_resp (s : State) (req_buf : buf_ref) (src_ip : List Nat) : State :=
  -- Step1
  let s := { s with txbuf := buf_init s.txbuf (s.get req_buf).len }
  let req := s.get req_buf
  let tx := s.txbuf
  let p := store8 tx.payload tx.data ICMP_TYPE_ECHO_REPLY
  let p := store8 p (tx.data + 1) 0
  let p := store16 p (tx.data + 2) 0
  let p := store16 p (tx.data + 4) (load16 req.payload (req.data + 4))
  let p := store16 p (tx.data + 6) (load16 req.payload (req.data + 6))
  let data_len := (req.len + 2 ^ 64 - 8) % 2 ^ 64
  let p :=
    if 0 < data_len then
      memcpy p (tx.data + 8) (bytes_from req.payload (req.data + 8) data_len) data_len
    else p
  -- Step2
  let p := store16 p (tx.data + 2) (checksum16 (p.drop tx.data) tx.len)
  let s := { s with txbuf := { tx with payload := p } }
  -- Step3
  ip_out s buf_ref.txbuf src_ip NET_PROTOCOL_ICMP

/-- The function `icmp_in(buf, src_ip)` of `icmp.c`. -/
def icmp_in (s : State) (buf : buf_ref) (src_ip : List Nat) : State :=
  let b := s.get buf
  if b.len < 8 then s else
  if byte_at b.payload b.data = ICMP_TYPE_ECHO_REQUEST then icmp_resp s buf src_ip
  else s

/-- The function `icmp_unreachable(recv_buf, src_ip, code)` of `icmp.c`.  The message
has `sizeof(icmp_hdr_t) + sizeof(ip_hdr_t) + 8 = 36` bytes. -/
def icmp_unreachable (s : State) (recv_buf : buf_ref) (src_ip : List Nat) (code : Nat) :
    State :=
  let s := s.log (Event.icmp_unreachable (s.get recv_buf).bytes src_ip code)
  -- Step1: buf_init(&txbuf, total_len) and the header
  let s := { s with txbuf := buf_init s.txbuf 36 }
  let tx := s.txbuf
  let p := store8 tx.payload tx.data ICMP_TYPE_UNREACH
  let p := store8 p (tx.data + 1) code
  let p := store16 p (tx.data + 2) 0
  let p := store16 p (tx.data + 4) 0
  let p := store16 p (tx.data + 6) 0
  let s := { s with txbuf := { tx with payload := p } }
  -- Step2: memcpy(icmp_data, recv_buf->data, ip_hdr_len)
  let recv := s.get recv_buf
  let p := memcpy p (tx.data + 8) (bytes_from recv.payload recv.data 20) 20
  let s := { s with txbuf := { tx with payload := p } }
  -- memcpy(icmp_data + ip_hdr_len, recv_buf->data + ip_hdr_len, 8)
  let recv := s.get recv_buf
  let p := memcpy p (tx.data + 8 + 20) (bytes_from recv.payload (recv.data + 20) 8) 8
  let p := store16 p (tx.data + 2) (checksum16 (p.drop tx.data) tx.len)
  let s := { s with txbuf := { tx with payload := p } }
  -- Step3
  ip_out s buf_ref.txbuf src_ip NET_PROTOCOL_ICMP

/-! ## udp.c -/

/-- The function `udp_in(buf, src_ip)` of `udp.c`.  The header is `udp_hdr_t`: src_port16,
dst_port16, total_len16, checksum16.  A registered port handler is a callback of the
application; its call is recorded in the trace. -/
def udp_in (s : State) (buf : buf_ref) (src_ip : List Nat) : State :=
  let b := s.get buf
  -- Step1
  if b.len < 8 then s else
  let udp_hdr := b.data
  let udp_total_len := swap16 (load16 b.payload (udp_hdr + 4))
  if b.len < udp_total_len then s else
  -- Step2
  let received_checksum := load16 b.payload (udp_hdr + 6)
  let b := { b with payload := store16 b.payload (udp_hdr + 6) 0 }
  let r := transport_checksum NET_PROTOCOL_UDP b src_ip s.net_if_ip
  let calculated_checksum := r.1
  let b := r.2
  let s := s.set buf b
  if received_checksum ≠ calculated_checksum then s else
  -- Step3
  let dst_port := swap16 (load16 b.payload (udp_hdr + 2))
  -- Step4
  if dst_port ∉ s.udp_table then
    let s := s.set buf (buf_add_header b 20)
    icmp_unreachable s buf src_ip ICMP_CODE_PORT_UNREACH
  else
    -- Step5
    let b := buf_remove_header b 8
    let s := s.set buf b
    let src_port := swap16 (load16 b.payload udp_hdr)
    s.log (Event.udp_handler dst_port b.bytes b.len src_ip src_port)

/-- The function `udp_out(buf, src_port, dst_ip, dst_port)` of `udp.c`. -/
def udp_out (s : State) (buf : buf_ref) (src_port : Nat) (dst_ip : List Nat)
    (dst_port : Nat) : State :=
  -- Step1
  let b := buf_add_header (s.get buf) 8
  -- Step2
  let p := store16 b.payload b.data (swap16 src_port)
  let p := store16 p (b.data + 2) (swap16 dst_port)
  let p := store16 p (b.data + 4) (swap16 b.len)
  -- Step3
  let p := store16 p (b.data + 6) 0
  let r := transport_checksum NET_PROTOCOL_UDP { b with payload := p } s.net_if_ip dst_ip
  let b := r.2
  let b := { b with payload := store16 b.payload (b.data + 6) r.1 }
  let s := s.set buf b
  -- Step4
  ip_out s buf dst_ip NET_PROTOCOL_UDP

/-- The function `udp_send(data, len, src_port, dst_ip, dst_port)` of `udp.c`. -/
def udp_send (s : State) (data : List Nat) (len src_port : Nat) (dst_ip : List Nat)
    (dst_port : Nat) : State :=
  let tx := buf_init s.txbuf (len % 65536)
  let tx := { tx with payload := memcpy tx.payload tx.data data (len % 65536) }
  udp_out { s with txbuf := tx } buf_ref.txbuf src_port dst_ip dst_port

/-! ## net.c (missing from the sources) and ip.c : reception -/

/-- Modelled from the spec: `net_in` of the missing `net.c`, restricted to the protocol
numbers that `ip_in` can pass (one byte): dispatch to the handler registered for
`protocol`, result 0, or result -1 when no handler is registered.  `icmp_init` registers
`icmp_in` and `udp_init` registers `udp_in`; a handler registered for another number is a
callback outside these sources, its call is recorded in the trace. -/
def net_in_transport (s : State) (buf : buf_ref) (protocol : Nat) (src : List Nat) :
    State × Int :=
  if protocol ∈ s.net_table then
    let s := s.log (Event.handler protocol (s.get buf).bytes src)
    if protocol = NET_PROTOCOL_ICMP then (icmp_in s buf src, 0)
    else if protocol = NET_PROTOCOL_UDP then (udp_in s buf src, 0)
    else (s, 0)
  else (s, -1)

/-- The function `ip_in(buf, src_mac)` of `ip.c`. -/
def ip_in (s : State) (buf : buf_ref) (src_mac : List Nat) : State :=
  let b := s.get buf
  -- Step1
  if b.len < 20 then s else
  let ip_hdr := b.data
  -- Step2
  if byte_at b.payload ip_hdr / 16 ≠ IP_VERSION_4 then s else
  let total_len := swap16 (load16 b.payload (ip_hdr + 2))
  if total_len > b.len then s else
  -- Step3
  let original_checksum := load16 b.payload (ip_hdr + 10)
  let b := { b with payload := store16 b.payload (ip_hdr + 10) 0 }
  let s := s.set buf b
  let calculated_checksum := checksum16 (b.payload.drop ip_hdr) 20
  if calculated_checksum ≠ original_checksum then s else
  let b := { b with payload := store16 b.payload (ip_hdr + 10) original_checksum }
  let s := s.set buf b
  -- Step4
  if bytes_from b.payload (ip_hdr + 16) NET_IP_LEN ≠ bytes_from s.net_if_ip 0 NET_IP_LEN
  then s else
  -- Step5
  let b := if b.len > total_len then buf_remove_padding b (b.len - total_len) else b
  -- Step6
  let b := buf_remove_header b 20
  let s := s.set buf b
  -- Step7
  let src_ip := bytes_from b.payload (ip_hdr + 12) NET_IP_LEN
  let r := net_in_transport s buf (byte_at b.payload (ip_hdr + 9)) src_ip
  let s := r.1
  if r.2 < 0 then
    let s := s.set buf (buf_add_header (s.get buf) 20)
    let src_ip := bytes_from (s.get buf).payload (ip_hdr + 12) NET_IP_LEN
    icmp_unreachable s buf src_ip ICMP_CODE_PROTOCOL_UNREACH
  else s

/-- Modelled from the spec: `net_in` of the missing `net.c` as `ethernet_in` calls it,
with a 16-bit protocol code: `arp_init` registers `arp_in`, `ip_init` registers
`ip_in`. -/
def net_in (s : State) (buf : buf_ref) (protocol : Nat) (src : List Nat) : State × Int :=
  if protocol = NET_PROTOCOL_ARP ∨ protocol = NET_PROTOCOL_IP then
    if protocol ∈ s.net_table then
      if protocol = NET_PROTOCOL_ARP then (arp_in s buf src, 0) else (ip_in s buf src, 0)
    else (s, -1)
  else net_in_transport s buf protocol src

/-! ## ethernet.c : ethernet_in -/

/-- The function `ethernet_in(buf)` of `ethernet.c`. -/
def ethernet_in (s : State) (buf : buf_ref) : State :=
  let b := s.get buf
  -- Step1
  if b.len < 14 then s else
  let hdr := b.data
  let protocol := swap16 (load16 b.payload (hdr + 12))
  -- Step2
  let s := s.set buf (buf_remove_header b 14)
  -- Step3
  (net_in s buf protocol (bytes_from (s.get buf).payload (hdr + 6) NET_MAC_LEN)).1

/-! ## A concrete configuration -/

/-- A small concrete state: local address 10.0.0.1, the mapping
`10.0.0.2 -> AA:BB:CC:DD:EE:FF` in the address table, a pending buffer for 10.0.0.3, and
buffers with a capacity of 120 bytes. -/
def example_state : State :=
  { net_if_ip := [10, 0, 0, 1]
    net_if_mac := [0x02, 0x00, 0x00, 0x00, 0x00, 0x01]
    now := 100
    arp_table := ⟨4, 60, [⟨[10, 0, 0, 2], [0xAA, 0xBB, 0xCC, 0xDD, 0xEE, 0xFF], 90⟩]⟩
    arp_buf := ⟨4, 1, [⟨[10, 0, 0, 3], ⟨2, 60, List.replicate 120 9⟩, 100⟩]⟩
    txbuf := ⟨4, 56, List.replicate 120 0⟩
    rxbuf := ⟨0, 60, List.replicate 120 0⟩
    ip_buf := ⟨0, 60, List.replicate 120 0⟩
    user_buf := ⟨4, 56, List.replicate 120 7⟩
    packet_id := 0
    net_table := [NET_PROTOCOL_ICMP, NET_PROTOCOL_UDP, NET_PROTOCOL_ARP, NET_PROTOCOL_IP]
    udp_table := [53]
    trace := [] }

/-- The example state with a well-formed ARP reply from 10.0.0.3 (MAC
`02:00:00:00:00:03`) in the receive buffer. -/
def example_arp_reply_state : State :=
  { example_state with
    rxbuf := ⟨28, 2, [0, 0, 0, 1, 8, 0, 6, 4, 0, 2, 0x02, 0, 0, 0, 0, 0x03, 10, 0, 0, 3,
      0x02, 0, 0, 0, 0, 0x01, 10, 0, 0, 1, 0, 0]⟩ }

/-- The calls of `ip_fragment_out` recorded in a trace, in order. -/
def fragment_calls : List Event → List Event
  | [] => []
  | Event.ip_fragment_out b i p d o m :: t => Event.ip_fragment_out b i p d o m :: fragment_calls t
  | _ :: t => fragment_calls t

/-- A state in which the transmit scratch buffer holds a 1481-byte datagram of bytes
`0x01` that ends in the middle of its 3000-byte storage (where `buf_init` and
`buf_add_header` leave it), the rest of the storage is zero, and both ARP tables are
empty. -/
def alias_state : State :=
  { example_state with
    arp_table := ⟨4, 60, []⟩
    arp_buf := ⟨4, 1, []⟩
    txbuf := ⟨1481, 19, List.replicate 19 0 ++ (List.replicate 1481 1 ++ List.replicate 1500 0)⟩
    ip_buf := ⟨0, 1500, List.replicate 3000 0⟩ }

/-! ## The IPv4 header of the wire format -/

/-- The 20-byte IPv4 header as the wire format of the specification lists it, multi-byte
fields big-endian: version 4 and header length 5 (words) in byte 0, TOS 0, total length,
identification, flags and fragment offset, TTL, protocol, the two checksum bytes `ck`,
source address, destination address. -/
def ip_header_spec (total_len id flags_offset ttl protocol : Nat) (ck src dst : List Nat) :
    List Nat :=
  [0x45, 0, total_len / 256 % 256, total_len % 256, id / 256 % 256, id % 256,
    flags_offset / 256 % 256, flags_offset % 256, ttl % 256, protocol % 256] ++ ck ++ src ++ dst

/-- The wire header with its checksum field filled in: `checksum16` over the 20 header
bytes with the field zeroed, stored in the word order of the host. -/
def ip_header_wire (total_len id flags_offset ttl protocol : Nat) (src dst : List Nat) :
    List Nat :=
  let c := checksum16 (ip_header_spec total_len id flags_offset ttl protocol [0, 0] src dst) 20
  ip_header_spec total_len id flags_offset ttl protocol [c % 256, c / 256 % 256] src dst

/-- The example state with a received IP datagram in the receive buffer, at offset 14 of
the 120-byte storage: from 10.0.0.2 to the local address, protocol 6 (no handler is
registered for it), total length 28, a valid header checksum, 8 payload bytes. -/
def example_ip_state : State :=
  { example_state with
    rxbuf := ⟨28, 14, List.replicate 14 0 ++ ([0x45, 0, 0, 28, 0, 0, 0, 0, 64, 6, 102, 218,
      10, 0, 0, 2, 10, 0, 0, 1, 1, 2, 3, 4, 5, 6, 7, 8] ++ List.replicate 78 0)⟩ }

/-- The calls of `ethernet_out` with protocol code ARP recorded in a trace, in order. -/
def arp_sends : List Event → List Event
  | [] => []
  | Event.ethernet_out b m p :: t =>
    if p = NET_PROTOCOL_ARP then Event.ethernet_out b m p :: arp_sends t else arp_sends t
  | _ :: t => arp_sends t

/-- The example state with a well-formed ARP request from 10.0.0.4 (MAC
`02:00:00:00:00:04`) for the local address in the receive buffer. -/
def example_arp_request_state : State :=
  { example_state with
    rxbuf := ⟨28, 2, [0, 0, 0, 1, 8, 0, 6, 4, 0, 1, 0x02, 0, 0, 0, 0, 0x04, 10, 0, 0, 4,
      0, 0, 0, 0, 0, 0, 10, 0, 0, 1, 0, 0]⟩ }

/-- The events of the link side of the stack: calls of `arp_out` and `ethernet_out`, and
frames given to the driver. -/
def Event.is_link : Event → Bool
  | Event.arp_out _ _ => true
  | Event.ethernet_out _ _ _ => true
  | Event.driver_send _ => true
  | _ => false

/-- The calls of `ip_out` recorded in a trace, in order. -/
def ip_out_calls : List Event → List Event
  | [] => []
  | Event.ip_out b i p :: t => Event.ip_out b i p :: ip_out_calls t
  | _ :: t => ip_out_calls t

/-- The calls of `icmp_unreachable` recorded in a trace, in order. -/
def icmp_unreachable_calls : List Event → List Event
  | [] => []
  | Event.icmp_unreachable b s c :: t => Event.icmp_unreachable b s c :: icmp_unreachable_calls t
  | _ :: t => icmp_unreachable_calls t

/-- The 36-byte ICMP destination-unreachable message as the wire format of the
specification lists it: type 3, the code, the two checksum bytes `ck`, identifier 0 and
sequence number 0, then the 20-byte IP header of the offending datagram and the 8 bytes
that follow it. -/
def icmp_unreach_spec (code : Nat) (ck hdr data : List Nat) : List Nat :=
  [3, code % 256] ++ ck ++ [0, 0, 0, 0] ++ hdr ++ data

/-- The unreachable message with its checksum field filled in: `checksum16` over the 36
bytes with the field zeroed, stored in the word order of the host. -/
def icmp_unreach_wire (code : Nat) (hdr data : List Nat) : List Nat :=
  let c := checksum16 (icmp_unreach_spec code [0, 0] hdr data) 36
  icmp_unreach_spec code [c % 256, c / 256 % 256] hdr data

/-- The example state with a received IP datagram whose declared total length, 10, is
smaller than the header: from 10.0.0.2 to the local address, protocol ICMP, a valid header
checksum, in a 28-byte buffer at offset 14 of the 120-byte storage. -/
def short_total_state : State :=
  { example_state with
    rxbuf := ⟨28, 14, List.replicate 14 0 ++ ([0x45, 0, 0, 10, 0, 0, 0, 0, 64, 1, 102, 241,
      10, 0, 0, 2, 10, 0, 0, 1, 1, 2, 3, 4, 5, 6, 7, 8] ++ List.replicate 78 0)⟩ }

/-- The example state with a received UDP datagram for a closed port: from 10.0.0.2 port
1234 to the local address port 9999 (the only open port is 53), 2 data bytes, valid IP
header checksum and valid UDP checksum (bytes `87, 141`), at offset 14 of the 120-byte
storage. -/
def udp_closed_port_state : State :=
  { example_state with
    rxbuf := ⟨30, 14, List.replicate 14 0 ++ ([0x45, 0, 0, 30, 0, 0, 0, 0, 64, 17, 102, 205,
      10, 0, 0, 2, 10, 0, 0, 1, 0x04, 0xD2, 0x27, 0x0F, 0, 10, 87, 141, 0x68, 0x69] ++
      List.replicate 76 0)⟩ }

/-- The calls of protocol handlers by `net_in` recorded in a trace, in order. -/
def handler_calls : List Event → List Event
  | [] => []
  | Event.handler p b s :: t => Event.handler p b s :: handler_calls t
  | _ :: t => handler_calls t

/-! ## The UDP segment of the wire format -/

/-- The UDP segment as the wire format of the specification lists it: source port,
destination port and length big-endian, the two checksum bytes `ck`, then the data. -/
def udp_segment_spec (src_port dst_port len : Nat) (ck data : List Nat) : List Nat :=
  [src_port / 256 % 256, src_port % 256, dst_port / 256 % 256, dst_port % 256,
    len / 256 % 256, len % 256] ++ ck ++ data

/-- The UDP checksum of the specification: `checksum16` over the 12-byte pseudo-header
(source address, destination address, a zero byte, protocol 17, the segment length
big-endian) followed by the segment, with one zero byte after a segment of odd length. -/
def udp_checksum_spec (src dst seg : List Nat) : Nat :=
  checksum16 (src ++ dst ++ [0, 17, seg.length / 256 % 256, seg.length % 256] ++ seg ++
      (if seg.length % 2 = 1 then [0] else []))
    (12 + seg.length + seg.length % 2)

/-- The UDP segment with its checksum field filled in: the checksum of the segment with
the field zeroed, stored in the word order of the host. -/
def udp_segment_wire (src dst : List Nat) (src_port dst_port : Nat) (data : List Nat) :
    List Nat :=
  let c := udp_checksum_spec src dst
    (udp_segment_spec src_port dst_port (data.length + 8) [0, 0] data)
  udp_segment_spec src_port dst_port (data.length + 8) [c % 256, c / 256 % 256] data

/-- The example state of the peer 10.0.0.2, with port 53 open: in its receive buffer, at
offset 34 of the 120-byte storage, the 12-byte UDP segment that 10.0.0.1 sends from port
1234 to port 53 with the data bytes 7, 7, 7, 7. -/
def example_udp_rx_state : State :=
  { example_state with
    net_if_ip := [10, 0, 0, 2]
    rxbuf := ⟨12, 34, List.replicate 34 0 ++ ([4, 210, 0, 53, 0, 12, 216, 190, 7, 7, 7, 7] ++
      List.replicate 74 0)⟩ }

/-- The example state as a loopback configuration: the address table maps the local
address 10.0.0.1 to the local MAC address, and the receive buffer holds, at offset 30 of
the 120-byte storage, the 60-byte frame of the datagram that carries the four bytes of the
user buffer to the local address (protocol 17, identifier 7). -/
def example_loopback_state : State :=
  { example_state with
    arp_table := ⟨4, 60, [⟨[10, 0, 0, 1], [0x02, 0, 0, 0, 0, 0x01], 90⟩]⟩
    rxbuf := ⟨60, 30, List.replicate 30 0 ++ ([2, 0, 0, 0, 0, 1, 2, 0, 0, 0, 0, 1, 8, 0,
      69, 0, 0, 24, 0, 7, 0, 0, 64, 17, 102, 205, 10, 0, 0, 1, 10, 0, 0, 1, 7, 7, 7, 7] ++
      List.replicate 52 0)⟩ }

/-- The example state with a 65536-byte payload in the buffer of the caller, at offset
100 of a storage of 65700 bytes. -/
def oversize_state : State :=
  { example_state with
    user_buf := ⟨65536, 100, List.replicate 65700 1⟩ }

/-! ## Proof-level quantities of the checksum -/

/-- Sum of the first `n` native 16-bit words of `data`, without wrap-around. -/
def wordsum (data : List Nat) (n : Nat) : Nat := ((List.range n).map (read16 data)).sum

/-- The additive part of `checksum16` before folding: word sum plus the odd byte. -/
def rawsum (data : List Nat) (len : Nat) : Nat :=
  wordsum data (len / 2) + (if len % 2 = 1 then byte_at data (len - 1) * 256 else 0)

/-! ## RFC 1071 reference -/

/-- Reference, following the spec's words (RFC 1071): the buffer read as big-endian
16-bit words, a trailing odd byte padded with a zero byte. -/
def rfc1071_words : List Nat → List Nat
  | [] => []
  | [b] => [256 * (b % 256)]
  | b0 :: b1 :: rest => (256 * (b0 % 256) + b1 % 256) :: rfc1071_words rest

/-- Reference, following the spec's words: one's-complement addition of two 16-bit
values, the carry out of bit 16 added back in (end-around carry). -/
def rfc1071_add (a b : Nat) : Nat := if 0xFFFF < a + b then a + b - 0x10000 + 1 else a + b

/-- Reference, following the spec's words: the Internet checksum of RFC 1071, the
one's complement of the end-around-carry sum of the big-endian words. -/
def rfc1071_checksum (bytes : List Nat) : Nat :=
  0xFFFF - (rfc1071_words bytes).foldl rfc1071_add 0

/-! # Theorems -/

/-! ## Arithmetic of the checksum -/

theorem land_ffff (s : Nat) : s &&& 0xFFFF = s % 65536 :=
  Nat.and_pow_two_sub_one_eq_mod s 16

theorem shr16 (s : Nat) : s >>> 16 = s / 65536 := Nat.shiftRight_eq_div_pow s 16

theorem shl8 (b : Nat) : b <<< 8 = b * 256 := Nat.shiftLeft_eq b 8

theorem byte_at_lt (m : List Nat) (i : Nat) : byte_at m i < 256 :=
  Nat.mod_lt _ (by decide)

theorem read16_le (m : List Nat) (i : Nat) : read16 m i ≤ 65535 := by
  unfold read16
  have h1 := byte_at_lt m (2 * i)
  have h2 := byte_at_lt m (2 * i + 1)
  omega

theorem foldl_add_mod (f : Nat → Nat) (M n : Nat) :
    (List.range n).foldl (fun s i => (s + f i) % M) 0 = ((List.range n).map f).sum % M := by
  induction n with
  | zero => simp
  | succ n ih =>
    rw [List.range_succ, List.foldl_append, ih]
    simp [List.sum_append, Nat.mod_add_mod]

theorem wordsum_succ (data : List Nat) (n : Nat) :
    wordsum data (n + 1) = wordsum data n + read16 data n := by
  simp [wordsum, List.range_succ, List.sum_append]

theorem wordsum_le (data : List Nat) (n : Nat) : wordsum data n ≤ 65535 * n := by
  induction n with
  | zero => simp [wordsum]
  | succ n ih =>
    rw [wordsum_succ]
    have := read16_le data n
    omega

theorem checksum16_fold_spec (s : Nat) (hs : s < 2 ^ 32) :
    checksum16_fold s ≤ 65535 ∧ checksum16_fold s % 65535 = s % 65535 ∧
      (checksum16_fold s = 0 ↔ s = 0) := by
  induction s using Nat.strong_induction_on with
  | _ s ih =>
    rw [checksum16_fold]
    split
    · rename_i h
      rw [land_ffff, shr16]
      have h3 : (s % 65536 + s / 65536) % 2 ^ 32 = s % 65536 + s / 65536 := by
        apply Nat.mod_eq_of_lt
        omega
      rw [h3]
      have h4 : s % 65536 + s / 65536 < s := by omega
      obtain ⟨a, b, c⟩ := ih _ h4 (by omega)
      refine ⟨a, ?_, ?_⟩
      · rw [b]; omega
      · rw [c]; omega
    · rename_i h
      refine ⟨by omega, rfl, Iff.rfl⟩

theorem rawsum_lt (data : List Nat) (len : Nat) (hlen : len ≤ 65535) :
    rawsum data len < 2 ^ 31 := by
  unfold rawsum
  have h1 := wordsum_le data (len / 2)
  have h2 := byte_at_lt data (len - 1)
  split <;> omega

theorem checksum16_eq (data : List Nat) (len : Nat) (hlen : len ≤ 65535) :
    checksum16 data len = 65535 - checksum16_fold (rawsum data len) := by
  have hr := rawsum_lt data len hlen
  have hw : wordsum data (len / 2) ≤ rawsum data len := Nat.le_add_right _ _
  have hf := (checksum16_fold_spec (rawsum data len) (by omega)).1
  have hb := byte_at_lt data (len - 1)
  have key : (if len % 2 = 1 then
      ((List.range (len / 2)).foldl (fun sum i => (sum + read16 data i) % 2 ^ 32) 0
        + (byte_at data (len - 1) <<< 8) % 65536) % 2 ^ 32
      else (List.range (len / 2)).foldl (fun sum i => (sum + read16 data i) % 2 ^ 32) 0)
      = rawsum data len := by
    rw [foldl_add_mod, shl8]
    have e : ((List.range (len / 2)).map (read16 data)).sum = wordsum data (len / 2) := rfl
    rw [e, Nat.mod_eq_of_lt (by omega : wordsum data (len / 2) < 2 ^ 32)]
    unfold rawsum at hr ⊢
    split
    · rw [Nat.mod_eq_of_lt (by omega : byte_at data (len - 1) * 256 < 65536)]
      apply Nat.mod_eq_of_lt
      simp_all
      omega
    · simp
  unfold checksum16
  simp only []
  rw [key]
  omega

/-! ## Memory lemmas -/

theorem byte_at_set (m : List Nat) (j v i : Nat) :
    byte_at (m.set j v) i = if i = j ∧ j < m.length then v % 256 else byte_at m i := by
  unfold byte_at
  rw [List.getD_eq_getElem?_getD, List.getD_eq_getElem?_getD, List.getElem?_set]
  by_cases hij : j = i
  · subst hij
    by_cases hj : j < m.length
    · simp [hj]
    · simp [hj]
      rw [List.getElem?_eq_none (by omega)]
      rfl
  · have : ¬ i = j := fun h => hij h.symm
    simp [hij, this]

theorem length_store16 (m : List Nat) (o v : Nat) : (store16 m o v).length = m.length := by
  simp [store16]

theorem byte_at_store16 (m : List Nat) (o v i : Nat) (ho : o + 1 < m.length) :
    byte_at (store16 m o v) i =
      if i = o then v % 256 else if i = o + 1 then v / 256 % 256 else byte_at m i := by
  unfold store16
  rw [byte_at_set, byte_at_set]
  simp only [List.length_set]
  by_cases h1 : i = o + 1
  · subst h1
    simp [ho]
  · by_cases h2 : i = o
    · subst h2
      simp
      omega
    · simp [h1, h2]

theorem read16_store16 (m : List Nat) (k v i : Nat) (hk : 2 * k + 1 < m.length)
    (hv : v < 65536) :
    read16 (store16 m (2 * k) v) i = if i = k then v else read16 m i := by
  unfold read16
  rw [byte_at_store16 _ _ _ _ hk, byte_at_store16 _ _ _ _ hk]
  by_cases h : i = k
  · subst h
    simp
    omega
  · have h1 : ¬ 2 * i = 2 * k := by omega
    have h2 : ¬ 2 * i = 2 * k + 1 := by omega
    have h3 : ¬ 2 * i + 1 = 2 * k := by omega
    have h4 : ¬ i = k := h
    simp [h1, h2, h3, h4]

theorem wordsum_store16 (m : List Nat) (k v n : Nat) (hk : 2 * k + 1 < m.length)
    (hv : v < 65536) :
    wordsum (store16 m (2 * k) v) n + (if k < n then read16 m k else 0) =
      wordsum m n + (if k < n then v else 0) := by
  induction n with
  | zero => simp [wordsum]
  | succ n ih =>
    rw [wordsum_succ, wordsum_succ, read16_store16 m k v n hk hv]
    by_cases h1 : n = k
    · subst h1
      simp at ih ⊢
      omega
    · by_cases h2 : k < n
      · have h3 : k < n + 1 := by omega
        simp [h1, h2, h3] at ih ⊢
        omega
      · have h3 : ¬ k < n + 1 := by omega
        simp [h1, h2, h3] at ih ⊢
        omega

theorem rawsum_store16 (m : List Nat) (k v len : Nat) (hk : 2 * k + 2 ≤ len)
    (hd : len ≤ m.length) (hv : v < 65536) :
    rawsum (store16 m (2 * k) v) len + read16 m k = rawsum m len + v := by
  have hw := wordsum_store16 m k v (len / 2) (by omega) hv
  have hkn : k < len / 2 := by omega
  simp only [hkn, if_true] at hw
  unfold rawsum
  rw [byte_at_store16 _ _ _ _ (by omega)]
  by_cases hodd : len % 2 = 1
  · have h1 : ¬ len - 1 = 2 * k := by omega
    have h2 : ¬ len - 1 = 2 * k + 1 := by omega
    simp only [hodd, h1, h2, if_true, if_false]
    omega
  · simp only [hodd, if_false]
    omega

theorem checksum16_verifies (data : List Nat) (len k : Nat)
    (hlen : len ≤ 65535) (hk : 2 * k + 2 ≤ len) (hd : len ≤ data.length) :
    checksum16
      (store16 (store16 data (2 * k) 0) (2 * k)
        (checksum16 (store16 data (2 * k) 0) len)) len = 0 := by
  set z := store16 data (2 * k) 0 with hz
  have hzl : z.length = data.length := length_store16 _ _ _
  have hzk : read16 z k = 0 := by
    rw [hz, read16_store16 data k 0 k (by omega) (by decide)]
    simp
  rw [checksum16_eq z len hlen]
  have hr := rawsum_lt z len hlen
  obtain ⟨f1, f2, f3⟩ := checksum16_fold_spec (rawsum z len) (by omega)
  set x := checksum16_fold (rawsum z len) with hx
  have hs := rawsum_store16 z k (65535 - x) len hk (by omega) (by omega)
  rw [hzk] at hs
  rw [checksum16_eq _ len hlen]
  obtain ⟨g1, g2, g3⟩ :=
    checksum16_fold_spec (rawsum (store16 z (2 * k) (65535 - x)) len) (by omega)
  have hne : rawsum (store16 z (2 * k) (65535 - x)) len ≠ 0 := by
    intro h0
    have : rawsum z len = 0 := by omega
    have : x = 0 := f3.2 this
    omega
  have hfne : checksum16_fold (rawsum (store16 z (2 * k) (65535 - x)) len) ≠ 0 :=
    fun h => hne (g3.1 h)
  have hmod : rawsum (store16 z (2 * k) (65535 - x)) len % 65535 = 0 := by
    have : rawsum (store16 z (2 * k) (65535 - x)) len = rawsum z len + (65535 - x) := by
      omega
    rw [this]
    omega
  omega

/-- C1. `checksum16` is self-verifying: in a buffer of `len ≤ 65535` bytes, zero a
16-bit-aligned 2-byte field, compute `c = checksum16` of the buffer, store `c` in the
field in native word order; then `checksum16` over the resulting buffer, field
included, returns 0. -/
theorem checksum16_self_verifying (data : List Nat) (len k : Nat)
    (hlen : len ≤ 65535) (hk : 2 * k + 2 ≤ len) (hd : len ≤ data.length) :
    checksum16
      (store16 (store16 data (2 * k) 0) (2 * k)
        (checksum16 (store16 data (2 * k) 0) len)) len = 0 :=
  checksum16_verifies data len k hlen hk hd

/-- Witness of C1: a 4-byte buffer with the field in its second word. -/
theorem checksum16_self_verifying_witness :
    (4 : Nat) ≤ 65535 ∧ 2 * 1 + 2 ≤ 4 ∧ 4 ≤ [0x45, 0x00, 0xAB, 0xCD].length ∧
    checksum16
      (store16 (store16 [0x45, 0x00, 0xAB, 0xCD] (2 * 1) 0) (2 * 1)
        (checksum16 (store16 [0x45, 0x00, 0xAB, 0xCD] (2 * 1) 0) 4)) 4 = 0 :=
  ⟨by decide, by decide, by decide,
    checksum16_self_verifying [0x45, 0x00, 0xAB, 0xCD] 4 1 (by decide) (by decide)
      (by decide)⟩

theorem read16_cons2 (b0 b1 : Nat) (rest : List Nat) (i : Nat) :
    read16 (b0 :: b1 :: rest) (i + 1) = read16 rest i := by
  unfold read16 byte_at
  have e1 : 2 * (i + 1) = (2 * i + 1) + 1 := by ring
  rw [e1]
  simp [List.getD_cons_succ]

theorem wordsum_cons2 (b0 b1 : Nat) (rest : List Nat) (n : Nat) :
    wordsum (b0 :: b1 :: rest) (n + 1) = (b0 % 256 + 256 * (b1 % 256)) + wordsum rest n := by
  unfold wordsum
  rw [List.range_succ_eq_map]
  simp only [List.map_cons, List.sum_cons, List.map_map]
  have e : (read16 (b0 :: b1 :: rest)) ∘ Nat.succ = read16 rest := by
    funext i
    exact read16_cons2 b0 b1 rest i
  rw [e]
  simp [read16, byte_at]

theorem rfc1071_words_le (bytes : List Nat) : ∀ w ∈ rfc1071_words bytes, w ≤ 65535 := by
  induction bytes using rfc1071_words.induct with
  | case1 => simp [rfc1071_words]
  | case2 b =>
    simp [rfc1071_words]
    omega
  | case3 b0 b1 rest ih =>
    intro w hw
    simp only [rfc1071_words, List.mem_cons] at hw
    rcases hw with h | h
    · subst h
      omega
    · exact ih w h

theorem rfc1071_foldl_spec (ws : List Nat) (hws : ∀ w ∈ ws, w ≤ 65535) (acc : Nat)
    (hacc : acc ≤ 65535) :
    ws.foldl rfc1071_add acc ≤ 65535 ∧
      ws.foldl rfc1071_add acc % 65535 = (acc + ws.sum) % 65535 ∧
      (ws.foldl rfc1071_add acc = 0 ↔ acc = 0 ∧ ws.sum = 0) := by
  induction ws generalizing acc with
  | nil => simp [hacc]
  | cons w ws ih =>
    have hw : w ≤ 65535 := hws w (List.mem_cons_self _ _)
    have hws2 : ∀ v ∈ ws, v ≤ 65535 := fun v hv => hws v (List.mem_cons_of_mem _ hv)
    have ha : rfc1071_add acc w ≤ 65535 ∧ rfc1071_add acc w % 65535 = (acc + w) % 65535 ∧
        (rfc1071_add acc w = 0 ↔ acc = 0 ∧ w = 0) := by
      unfold rfc1071_add
      split <;> omega
    obtain ⟨a1, a2, a3⟩ := ha
    obtain ⟨i1, i2, i3⟩ := ih hws2 (rfc1071_add acc w) a1
    simp only [List.foldl_cons, List.sum_cons]
    refine ⟨i1, ?_, ?_⟩
    · rw [i2]
      omega
    · rw [i3, a3]
      omega

theorem words_sum_relation (bytes : List Nat) (heven : bytes.length % 2 = 0) :
    (rfc1071_words bytes).sum % 65535 = (256 * wordsum bytes (bytes.length / 2)) % 65535 ∧
      ((rfc1071_words bytes).sum = 0 ↔ wordsum bytes (bytes.length / 2) = 0) := by
  induction bytes using rfc1071_words.induct with
  | case1 => simp [rfc1071_words, wordsum]
  | case2 b => simp at heven
  | case3 b0 b1 rest ih =>
    have hr : rest.length % 2 = 0 := by
      simp only [List.length_cons] at heven
      omega
    obtain ⟨i1, i2⟩ := ih hr
    have hl : (b0 :: b1 :: rest).length / 2 = rest.length / 2 + 1 := by
      simp only [List.length_cons]
      omega
    rw [hl, wordsum_cons2]
    simp only [rfc1071_words, List.sum_cons]
    constructor
    · omega
    · omega

theorem swap_unique (x y : Nat) (hx : x ≤ 65535) (hy : y ≤ 65535)
    (h : y % 65535 = (256 * x) % 65535) (hz : y = 0 ↔ x = 0) :
    y = (x % 256) * 256 + x / 256 := by
  omega

theorem swap_complement (x y : Nat) (hx : x ≤ 65535) (hyx : y = (x % 256) * 256 + x / 256) :
    (65535 - x) % 256 = (65535 - y) / 256 ∧ (65535 - x) / 256 % 256 = (65535 - y) % 256 := by
  have ex : 65535 - x = (255 - x % 256) + 256 * (255 - x / 256) := by omega
  have ey : 65535 - y = (255 - x / 256) + 256 * (255 - x % 256) := by omega
  have hp : 255 - x % 256 ≤ 255 := by omega
  have hq : 255 - x / 256 ≤ 255 := by omega
  rw [ex, ey]
  generalize 255 - x % 256 = p at hp
  generalize 255 - x / 256 = q at hq
  clear ex ey hyx hx
  rw [Nat.add_mul_mod_self_left, Nat.add_mul_mod_self_left,
    Nat.add_mul_div_left _ _ (by decide : 0 < 256),
    Nat.add_mul_div_left _ _ (by decide : 0 < 256),
    Nat.mod_eq_of_lt (by omega : p < 256), Nat.mod_eq_of_lt (by omega : q < 256),
    Nat.div_eq_of_lt (by omega : p < 256), Nat.div_eq_of_lt (by omega : q < 256)]
  simp
  omega

/-- C2. For an even-length buffer of at most 65535 bytes, the two bytes that the
result of `checksum16` occupies when stored in memory on the little-endian host are the
RFC 1071 checksum of the buffer in network byte order (high byte first). -/
theorem checksum16_matches_rfc1071 (bytes : List Nat)
    (heven : bytes.length % 2 = 0) (hlen : bytes.length ≤ 65535) :
    store16 [0, 0] 0 (checksum16 bytes bytes.length) =
      [rfc1071_checksum bytes / 256, rfc1071_checksum bytes % 256] := by
  have hr := rawsum_lt bytes _ hlen
  have hraw : rawsum bytes bytes.length = wordsum bytes (bytes.length / 2) := by
    unfold rawsum
    simp [heven]
  rw [checksum16_eq bytes _ hlen, hraw]
  rw [hraw] at hr
  obtain ⟨f1, f2, f3⟩ :=
    checksum16_fold_spec (wordsum bytes (bytes.length / 2)) (by omega)
  obtain ⟨g1, g2, g3⟩ := rfc1071_foldl_spec (rfc1071_words bytes) (rfc1071_words_le bytes) 0
    (by decide)
  obtain ⟨r1, r2⟩ := words_sum_relation bytes heven
  have hyx := swap_unique _ _ f1 g1
    (by rw [g2, Nat.zero_add, r1, Nat.mul_mod, ← f2, ← Nat.mul_mod])
    (by rw [g3, f3, r2]; simp)
  obtain ⟨e1, e2⟩ := swap_complement _ _ f1 hyx
  unfold rfc1071_checksum
  simp only [store16, List.set_cons_zero, List.set_cons_succ]
  simp [e1, e2]

theorem checksum16_matches_rfc1071_witness :
    [0x45, 0x00, 0x00, 0x1c].length % 2 = 0 ∧ [0x45, 0x00, 0x00, 0x1c].length ≤ 65535 ∧
    store16 [0, 0] 0 (checksum16 [0x45, 0x00, 0x00, 0x1c] [0x45, 0x00, 0x00, 0x1c].length) =
      [rfc1071_checksum [0x45, 0x00, 0x00, 0x1c] / 256,
        rfc1071_checksum [0x45, 0x00, 0x00, 0x1c] % 256] :=
  ⟨by decide, by decide,
    checksum16_matches_rfc1071 [0x45, 0x00, 0x00, 0x1c] (by decide) (by decide)⟩

/-- C3 (the code at the failing input). For the one-byte buffer `[0x01]`,
`checksum16` adds the trailing byte as `0x0100` and returns `0xFEFF`, while for the same
byte followed by one zero byte it adds the native word `0x0001` and returns `0xFFFE`. -/
theorem checksum16_odd_differs_from_padded :
    checksum16 [0x01] 1 = 0xFEFF ∧ checksum16 [0x01, 0x00] 2 = 0xFFFE ∧
      checksum16 [0x01] 1 ≠ checksum16 [0x01, 0x00] 2 := by
  have h1 : checksum16 [0x01] 1 = 0xFEFF := by
    simp [checksum16, checksum16_fold, byte_at]
  have h2 : checksum16 [0x01, 0x00] 2 = 0xFFFE := by
    simp [checksum16, checksum16_fold, byte_at, read16, List.range, List.range.loop]
  refine ⟨h1, h2, ?_⟩
  rw [h1, h2]
  decide

/-! ## Frame lemmas for memory writes -/

theorem getD_set (m : List Nat) (j v i : Nat) :
    (m.set j v).getD i 0 = if i = j ∧ j < m.length then v else m.getD i 0 := by
  rw [List.getD_eq_getElem?_getD, List.getD_eq_getElem?_getD, List.getElem?_set]
  by_cases hij : j = i
  · subst hij
    by_cases hj : j < m.length
    · simp [hj]
    · simp [hj]
      rw [List.getElem?_eq_none (by omega)]
      rfl
  · have : ¬ i = j := fun h => hij h.symm
    simp [hij, this]

theorem getD_oob (m : List Nat) (i : Nat) (h : m.length ≤ i) : m.getD i 0 = 0 := by
  rw [List.getD_eq_getElem?_getD, List.getElem?_eq_none h]
  rfl

theorem length_memcpy (m : List Nat) (dst : Nat) (src : List Nat) (n : Nat) :
    (memcpy m dst src n).length = m.length := by
  unfold memcpy
  induction n with
  | zero => rfl
  | succ n ih =>
    rw [List.range_succ, List.foldl_append]
    simp only [List.foldl_cons, List.foldl_nil, List.length_set]
    exact ih

theorem getD_memcpy (m : List Nat) (dst : Nat) (src : List Nat) (n i : Nat) :
    (memcpy m dst src n).getD i 0 =
      if dst ≤ i ∧ i < dst + n ∧ i < m.length then src.getD (i - dst) 0 else m.getD i 0 := by
  induction n with
  | zero =>
    rw [if_neg (by omega)]
    rfl
  | succ n ih =>
    have hl := length_memcpy m dst src n
    unfold memcpy at ih hl ⊢
    rw [List.range_succ, List.foldl_append]
    simp only [List.foldl_cons, List.foldl_nil]
    rw [getD_set, ih, hl]
    by_cases h1 : i = dst + n
    · subst h1
      by_cases h2 : dst + n < m.length
      · rw [if_pos ⟨rfl, h2⟩, if_pos ⟨by omega, by omega, h2⟩]
        congr 1
        omega
      · rw [if_neg (by omega), if_neg (by omega), if_neg (by omega)]
    · rw [if_neg (by omega)]
      by_cases h2 : dst ≤ i ∧ i < dst + n ∧ i < m.length
      · rw [if_pos h2, if_pos (by omega)]
      · rw [if_neg h2, if_neg (by omega)]

theorem length_memset0 (m : List Nat) (dst n : Nat) : (memset0 m dst n).length = m.length := by
  unfold memset0
  induction n with
  | zero => rfl
  | succ n ih =>
    rw [List.range_succ, List.foldl_append]
    simp only [List.foldl_cons, List.foldl_nil, List.length_set]
    exact ih

theorem getD_memset0 (m : List Nat) (dst n i : Nat) :
    (memset0 m dst n).getD i 0 = if dst ≤ i ∧ i < dst + n then 0 else m.getD i 0 := by
  induction n with
  | zero =>
    rw [if_neg (by omega)]
    rfl
  | succ n ih =>
    have hl := length_memset0 m dst n
    unfold memset0 at ih hl ⊢
    rw [List.range_succ, List.foldl_append]
    simp only [List.foldl_cons, List.foldl_nil]
    rw [getD_set, ih, hl]
    by_cases h1 : i = dst + n
    · subst h1
      by_cases h2 : dst + n < m.length
      · rw [if_pos ⟨rfl, h2⟩, if_pos (by omega)]
      · rw [if_neg (by omega), if_neg (by omega), if_pos (by omega)]
        exact getD_oob m _ (by omega)
    · rw [if_neg (by omega)]
      by_cases h2 : dst ≤ i ∧ i < dst + n
      · rw [if_pos h2, if_pos (by omega)]
      · rw [if_neg h2, if_neg (by omega)]

theorem getD_store8 (m : List Nat) (o v i : Nat) (hi : i ≠ o) :
    (store8 m o v).getD i 0 = m.getD i 0 := by
  unfold store8
  rw [getD_set]
  simp [hi]

theorem getD_store16 (m : List Nat) (o v i : Nat) (h1 : i ≠ o) (h2 : i ≠ o + 1) :
    (store16 m o v).getD i 0 = m.getD i 0 := by
  unfold store16
  rw [getD_set, getD_set]
  simp [h1, h2]

theorem getD_bytes_from (m : List Nat) (o n i : Nat) (hi : i < n) :
    (bytes_from m o n).getD i 0 = m.getD (o + i) 0 := by
  unfold bytes_from
  rw [List.getD_eq_getElem?_getD, List.getElem?_map, List.getElem?_range hi]
  rfl

theorem bytes_from_congr (m1 m2 : List Nat) (o n : Nat)
    (h : ∀ i, o ≤ i → i < o + n → m1.getD i 0 = m2.getD i 0) :
    bytes_from m1 o n = bytes_from m2 o n := by
  unfold bytes_from
  apply List.map_congr_left
  intro i hi
  rw [List.mem_range] at hi
  exact h (o + i) (by omega) (by omega)

/-! ## transport_checksum -/

theorem peso_frame (P : List Nat) (o : Nat) (src dst : List Nat) (proto v i : Nat)
    (hi : i < o ∨ o + 12 ≤ i) :
    (store16 (store8 (store8 (memcpy (memcpy P o src 4) (o + 4) dst 4) (o + 9) proto)
      (o + 8) 0) (o + 10) v).getD i 0 = P.getD i 0 := by
  rw [getD_store16 _ _ _ _ (by omega) (by omega), getD_store8 _ _ _ _ (by omega),
    getD_store8 _ _ _ _ (by omega), getD_memcpy, getD_memcpy, if_neg (by omega),
    if_neg (by omega)]

theorem peso_length (P : List Nat) (o : Nat) (src dst : List Nat) (proto v : Nat) :
    (store16 (store8 (store8 (memcpy (memcpy P o src 4) (o + 4) dst 4) (o + 9) proto)
      (o + 8) 0) (o + 10) v).length = P.length := by
  simp [store16, store8, length_memcpy]

theorem restore_getD (P q : List Nat) (d i : Nat) (hd : 20 ≤ d)
    (hq : q.length = P.length) :
    (memcpy q (d - 20) (bytes_from P (d - 20) 20) 20).getD i 0 =
      if d - 20 ≤ i ∧ i < d then P.getD i 0 else q.getD i 0 := by
  rw [getD_memcpy, hq]
  by_cases hi : d - 20 ≤ i ∧ i < d
  · rw [if_pos hi]
    by_cases hi2 : i < P.length
    · rw [if_pos ⟨hi.1, by omega, hi2⟩, getD_bytes_from _ _ _ _ (by omega)]
      congr 1
      omega
    · rw [if_neg (by omega), getD_oob _ _ (by omega), getD_oob _ _ (by omega)]
  · rw [if_neg hi, if_neg (by omega)]

theorem transport_checksum_buf (protocol : Nat) (buf : buf_t) (src_ip dst_ip : List Nat)
    (hroom : 20 ≤ buf.data) (hpad : buf.data + buf.len + 1 ≤ buf.payload.length) :
    (transport_checksum protocol buf src_ip dst_ip).2.len = buf.len ∧
    (transport_checksum protocol buf src_ip dst_ip).2.data = buf.data ∧
    (transport_checksum protocol buf src_ip dst_ip).2.payload.length = buf.payload.length ∧
    ∀ i, i ≠ buf.data + buf.len →
      (transport_checksum protocol buf src_ip dst_ip).2.payload.getD i 0
        = buf.payload.getD i 0 := by
  obtain ⟨L, d, P⟩ := buf
  simp only at hroom hpad
  have hah : buf_add_header ⟨L, d, P⟩ 12 = ⟨L + 12, d - 12, P⟩ := by
    simp [buf_add_header]
    omega
  have hrh : ∀ q, buf_remove_header ⟨L + 12, d - 12, q⟩ 12 = ⟨L, d, q⟩ := by
    intro q
    simp [buf_remove_header]
    omega
  unfold transport_checksum
  simp only [hah]
  have hfr := peso_frame P (d - 12) src_ip dst_ip protocol
    (swap16 ((L + 12 + 2 ^ 64 - 12) % 2 ^ 64 % 65536))
  have hln := peso_length P (d - 12) src_ip dst_ip protocol
    (swap16 ((L + 12 + 2 ^ 64 - 12) % 2 ^ 64 % 65536))
  generalize store16 (store8 (store8 (memcpy (memcpy P (d - 12) src_ip 4) (d - 12 + 4)
    dst_ip 4) (d - 12 + 9) protocol) (d - 12 + 8) 0) (d - 12 + 10)
    (swap16 ((L + 12 + 2 ^ 64 - 12) % 2 ^ 64 % 65536)) = p5 at hfr hln ⊢
  have e1 : d - 12 - 8 = d - 20 := by omega
  simp only [e1]
  by_cases hpar : (L + 12) % 2 = 0
  · simp only [hpar, if_true]
    rw [hrh]
    refine ⟨rfl, rfl, ?_, ?_⟩
    · simp only [length_memcpy, hln]
    · intro i _
      simp only [e1]
      rw [restore_getD P p5 d i hroom hln]
      by_cases hi : d - 20 ≤ i ∧ i < d
      · rw [if_pos hi]
      · rw [if_neg hi]
        exact hfr i (by omega)
  · simp only [hpar, if_false]
    have hap : buf_add_padding ⟨L + 12, d - 12, p5⟩ 1 =
        ⟨L + 13, d - 12, memset0 p5 (d - 12 + (L + 12)) 1⟩ := by
      simp [buf_add_padding, hln]
      omega
    have hrp : ∀ q, buf_remove_padding ⟨L + 13, d - 12, q⟩ 1 = ⟨L + 12, d - 12, q⟩ := by
      intro q
      simp [buf_remove_padding]
    rw [hap]
    simp only [hrp, hrh]
    refine ⟨trivial, trivial, ?_, ?_⟩
    · simp only [length_memcpy, length_memset0, hln]
    · intro i hne
      simp only [e1] at hne ⊢
      rw [restore_getD P _ d i hroom (by rw [length_memset0, hln])]
      by_cases hi : d - 20 ≤ i ∧ i < d
      · rw [if_pos hi]
      · rw [if_neg hi, getD_memset0, if_neg (by omega)]
        exact hfr i (by omega)

/-- C4. `transport_checksum` is non-destructive: for a buffer with at least 20 bytes of
room before its data and room for one padding byte after it, of even or odd length, the
call leaves the buffer length and the data start as they were, leaves the 20 bytes
before the segment unchanged, and leaves every byte of the segment unchanged. -/
theorem transport_checksum_nondestructive (protocol : Nat) (buf : buf_t)
    (src_ip dst_ip : List Nat)
    (hroom : 20 ≤ buf.data) (hpad : buf.data + buf.len + 1 ≤ buf.payload.length) :
    (transport_checksum protocol buf src_ip dst_ip).2.len = buf.len ∧
    (transport_checksum protocol buf src_ip dst_ip).2.data = buf.data ∧
    bytes_from (transport_checksum protocol buf src_ip dst_ip).2.payload (buf.data - 20) 20
      = bytes_from buf.payload (buf.data - 20) 20 ∧
    bytes_from (transport_checksum protocol buf src_ip dst_ip).2.payload buf.data buf.len
      = bytes_from buf.payload buf.data buf.len := by
  obtain ⟨h1, h2, _, h4⟩ := transport_checksum_buf protocol buf src_ip dst_ip hroom hpad
  refine ⟨h1, h2, ?_, ?_⟩
  · apply bytes_from_congr
    intro i _ _
    exact h4 i (by omega)
  · apply bytes_from_congr
    intro i _ _
    exact h4 i (by omega)

/-- Witness of C4: an odd-length (3-byte) segment behind a 20-byte header region. -/
theorem transport_checksum_nondestructive_witness :
    20 ≤ (buf_t.mk 3 20 (List.range 24)).data ∧
    (buf_t.mk 3 20 (List.range 24)).data + (buf_t.mk 3 20 (List.range 24)).len + 1
      ≤ (buf_t.mk 3 20 (List.range 24)).payload.length ∧
    (transport_checksum 17 (buf_t.mk 3 20 (List.range 24)) [10, 0, 0, 1] [10, 0, 0, 2]).2.len
      = (buf_t.mk 3 20 (List.range 24)).len ∧
    (transport_checksum 17 (buf_t.mk 3 20 (List.range 24)) [10, 0, 0, 1] [10, 0, 0, 2]).2.data
      = (buf_t.mk 3 20 (List.range 24)).data ∧
    bytes_from
      (transport_checksum 17 (buf_t.mk 3 20 (List.range 24)) [10, 0, 0, 1]
        [10, 0, 0, 2]).2.payload ((buf_t.mk 3 20 (List.range 24)).data - 20) 20
      = bytes_from (buf_t.mk 3 20 (List.range 24)).payload
          ((buf_t.mk 3 20 (List.range 24)).data - 20) 20 ∧
    bytes_from
      (transport_checksum 17 (buf_t.mk 3 20 (List.range 24)) [10, 0, 0, 1]
        [10, 0, 0, 2]).2.payload (buf_t.mk 3 20 (List.range 24)).data
        (buf_t.mk 3 20 (List.range 24)).len
      = bytes_from (buf_t.mk 3 20 (List.range 24)).payload
          (buf_t.mk 3 20 (List.range 24)).data (buf_t.mk 3 20 (List.range 24)).len :=
  ⟨by decide, by decide,
    transport_checksum_nondestructive 17 (buf_t.mk 3 20 (List.range 24)) [10, 0, 0, 1]
      [10, 0, 0, 2] (by decide) (by decide)⟩

/-! ## Reading byte ranges -/

theorem length_bytes_from (m : List Nat) (o n : Nat) : (bytes_from m o n).length = n := by
  simp [bytes_from]

theorem bytes_from_ext (m1 m2 : List Nat) (o1 o2 n : Nat)
    (h : ∀ i, i < n → m1.getD (o1 + i) 0 = m2.getD (o2 + i) 0) :
    bytes_from m1 o1 n = bytes_from m2 o2 n := by
  unfold bytes_from
  apply List.map_congr_left
  intro i hi
  exact h i (List.mem_range.mp hi)

theorem bytes_from_append (m : List Nat) (o a b : Nat) :
    bytes_from m o (a + b) = bytes_from m o a ++ bytes_from m (o + a) b := by
  unfold bytes_from
  rw [List.range_add, List.map_append, List.map_map]
  congr 1
  apply List.map_congr_left
  intro i _
  simp [Nat.add_assoc]

theorem bytes_from_zero (m : List Nat) (o n : Nat)
    (h : ∀ i, i < n → m.getD (o + i) 0 = 0) : bytes_from m o n = List.replicate n 0 := by
  apply List.ext_getElem
  · simp [bytes_from]
  · intro i h1 h2
    simp only [bytes_from, List.getElem_map, List.getElem_range, List.getElem_replicate]
    exact h i (by simpa [bytes_from] using h1)

theorem bytes_from_self (l : List Nat) : bytes_from l 0 l.length = l := by
  apply List.ext_getElem
  · simp [bytes_from]
  · intro i h1 h2
    simp only [bytes_from, List.getElem_map, List.getElem_range, Nat.zero_add]
    rw [List.getD_eq_getElem?_getD, List.getElem?_eq_getElem h2]
    rfl

theorem getD_memcpy_in (m : List Nat) (dst : Nat) (src : List Nat) (n i : Nat)
    (h : dst + n ≤ m.length) (hi : i < n) :
    (memcpy m dst src n).getD (dst + i) 0 = src.getD i 0 := by
  rw [getD_memcpy, if_pos ⟨by omega, by omega, by omega⟩]
  congr 1
  omega

theorem getD_memcpy_out (m : List Nat) (dst : Nat) (src : List Nat) (n i : Nat)
    (hi : i < dst ∨ dst + n ≤ i) :
    (memcpy m dst src n).getD i 0 = m.getD i 0 := by
  rw [getD_memcpy, if_neg (by omega)]

theorem getD_memset0_out (m : List Nat) (dst n i : Nat) (hi : i < dst ∨ dst + n ≤ i) :
    (memset0 m dst n).getD i 0 = m.getD i 0 := by
  rw [getD_memset0, if_neg (by omega)]

theorem getD_memset0_in (m : List Nat) (dst n i : Nat) (hi : dst ≤ i ∧ i < dst + n) :
    (memset0 m dst n).getD i 0 = 0 := by
  rw [getD_memset0, if_pos hi]

theorem getD_store16_lo (m : List Nat) (o v : Nat) (h : o + 1 < m.length) :
    (store16 m o v).getD o 0 = v % 256 := by
  unfold store16
  rw [getD_set, if_neg (by omega), getD_set, if_pos ⟨rfl, by omega⟩]

theorem getD_store16_hi (m : List Nat) (o v : Nat) (h : o + 1 < m.length) :
    (store16 m o v).getD (o + 1) 0 = v / 256 % 256 := by
  unfold store16
  rw [getD_set, if_pos ⟨rfl, by rw [List.length_set]; exact h⟩]

theorem getD_store8_at (m : List Nat) (o v : Nat) (h : o < m.length) :
    (store8 m o v).getD o 0 = v % 256 := by
  unfold store8
  rw [getD_set, if_pos ⟨rfl, h⟩]

theorem length_store8 (m : List Nat) (o v : Nat) : (store8 m o v).length = m.length := by
  simp [store8]

theorem bytes_from_two (m : List Nat) (o : Nat) :
    bytes_from m o 2 = [m.getD o 0, m.getD (o + 1) 0] := by
  simp [bytes_from, List.range, List.range.loop]

/-! ## ethernet_out -/

theorem swap16_lo (x : Nat) : swap16 x % 256 = x / 256 % 256 := by
  unfold swap16
  rw [Nat.add_comm, Nat.add_mul_mod_self_right, Nat.mod_mod]

theorem swap16_hi (x : Nat) : swap16 x / 256 % 256 = x % 256 := by
  unfold swap16
  have h : (x % 256 * 256 + x / 256 % 256) / 256 = x % 256 := by
    rw [Nat.add_comm, Nat.add_mul_div_right _ _ (by decide : 0 < 256),
      Nat.div_eq_of_lt (Nat.mod_lt _ (by decide)), Nat.zero_add]
  rw [h, Nat.mod_mod]

theorem swap16_lt (x : Nat) : swap16 x < 65536 := by
  unfold swap16
  have h1 := Nat.mod_lt x (by decide : 0 < 256)
  have h2 := Nat.mod_lt (x / 256) (by decide : 0 < 256)
  omega

theorem ethernet_out_buf_state (s : State) (b : buf_t) (mac : List Nat) (protocol : Nat) :
    (ethernet_out_buf s b mac protocol).1 =
      { s with trace := s.trace ++ [Event.ethernet_out b.bytes mac protocol,
          Event.driver_send (ethernet_out_buf s b mac protocol).2.bytes] } := by
  simp [ethernet_out_buf, driver_send, State.log]

theorem ethernet_out_buf_frame (s : State) (b : buf_t) (mac : List Nat) (protocol : Nat)
    (hroom : 14 ≤ b.data) (hcap : b.data + b.len + (46 - b.len) ≤ b.payload.length) :
    (ethernet_out_buf s b mac protocol).2.bytes =
      bytes_from mac 0 6 ++ (bytes_from s.net_if_mac 0 6 ++
        ([protocol / 256 % 256, protocol % 256] ++ (b.bytes ++ List.replicate (46 - b.len) 0)))
    := by
  obtain ⟨L, d, P⟩ := b
  simp only at hroom hcap
  -- the padded buffer
  have hpad : ∃ q : List Nat, q.length = P.length ∧
      (∀ i, i < d + L → q.getD i 0 = P.getD i 0) ∧
      (∀ i, i < 46 - L → q.getD (d + L + i) 0 = 0) ∧
      (if L < ETHERNET_MIN_TRANSPORT_UNIT then
        buf_add_padding ⟨L, d, P⟩ (ETHERNET_MIN_TRANSPORT_UNIT - L) else ⟨L, d, P⟩)
        = ⟨L + (46 - L), d, q⟩ := by
    by_cases hL : L < 46
    · refine ⟨memset0 P (d + L) (46 - L), length_memset0 _ _ _, ?_, ?_, ?_⟩
      · intro i hi
        exact getD_memset0_out _ _ _ _ (by omega)
      · intro i hi
        exact getD_memset0_in _ _ _ _ (by omega)
      · simp only [ETHERNET_MIN_TRANSPORT_UNIT, hL, if_true, buf_add_padding]
        rw [if_neg (by omega)]
    · refine ⟨P, rfl, fun _ _ => rfl, ?_, ?_⟩
      · intro i hi
        omega
      · simp only [ETHERNET_MIN_TRANSPORT_UNIT, hL, if_false]
        have : 46 - L = 0 := by omega
        rw [this]
        rfl
  obtain ⟨q, hq1, hq2, hq3, hq4⟩ := hpad
  unfold ethernet_out_buf
  simp only [hq4]
  have hah : buf_add_header ⟨L + (46 - L), d, q⟩ 14 = ⟨L + (46 - L) + 14, d - 14, q⟩ := by
    simp [buf_add_header]
    omega
  simp only [hah, buf_t.bytes, NET_MAC_LEN, State.log]
  have hlen : L + (46 - L) + 14 = 6 + (6 + (2 + (L + (46 - L)))) := by omega
  rw [hlen, bytes_from_append, bytes_from_append, bytes_from_append, bytes_from_append]
  have e1 : d - 14 + 6 = d - 8 := by omega
  have e2 : d - 14 + 12 = d - 2 := by omega
  have e3 : d - 8 + 6 = d - 2 := by omega
  have e4 : d - 2 + 2 = d := by omega
  simp only [e1, e2, e3, e4]
  have hl1 : (memcpy q (d - 14) mac 6).length = P.length := by rw [length_memcpy, hq1]
  have hl2 : (memcpy (memcpy q (d - 14) mac 6) (d - 8) s.net_if_mac 6).length = P.length := by
    rw [length_memcpy, hl1]
  generalize hp6 : store16 (memcpy (memcpy q (d - 14) mac 6) (d - 8) s.net_if_mac 6) (d - 2)
    (swap16 protocol) = p6
  have hA : bytes_from p6 (d - 14) 6 = bytes_from mac 0 6 := by
    apply bytes_from_ext
    intro i hi
    rw [← hp6, getD_store16 _ _ _ _ (by omega) (by omega),
      getD_memcpy_out _ _ _ _ _ (by omega), getD_memcpy_in _ _ _ _ _ (by omega) hi,
      Nat.zero_add]
  have hB : bytes_from p6 (d - 8) 6 = bytes_from s.net_if_mac 0 6 := by
    apply bytes_from_ext
    intro i hi
    rw [← hp6, getD_store16 _ _ _ _ (by omega) (by omega),
      getD_memcpy_in _ _ _ _ _ (by omega) hi, Nat.zero_add]
  have hC : bytes_from p6 (d - 2) 2 = [protocol / 256 % 256, protocol % 256] := by
    rw [bytes_from_two, ← hp6, getD_store16_lo _ _ _ (by omega),
      getD_store16_hi _ _ _ (by omega)]
    rw [swap16_lo, swap16_hi]
  have hD : bytes_from p6 d L = bytes_from P d L := by
    apply bytes_from_ext
    intro i hi
    rw [← hp6, getD_store16 _ _ _ _ (by omega) (by omega),
      getD_memcpy_out _ _ _ _ _ (by omega), getD_memcpy_out _ _ _ _ _ (by omega)]
    exact hq2 _ (by omega)
  have hE : bytes_from p6 (d + L) (46 - L) = List.replicate (46 - L) 0 := by
    apply bytes_from_zero
    intro i hi
    rw [← hp6, getD_store16 _ _ _ _ (by omega) (by omega),
      getD_memcpy_out _ _ _ _ _ (by omega), getD_memcpy_out _ _ _ _ _ (by omega)]
    exact hq3 _ hi
  rw [hA, hB, hC, hD, hE]

/-! ## arp_out -/

theorem ethernet_out_buf_snd_log (s : State) (e : Event) (b : buf_t) (mac : List Nat)
    (protocol : Nat) :
    (ethernet_out_buf (s.log e) b mac protocol).2 = (ethernet_out_buf s b mac protocol).2 :=
  rfl

theorem ethernet_out_trace (s : State) (buf : buf_ref) (mac : List Nat) (protocol : Nat) :
    (ethernet_out s buf mac protocol).trace =
      s.trace ++ [Event.ethernet_out (s.get buf).bytes mac protocol,
        Event.driver_send (ethernet_out_buf s (s.get buf) mac protocol).2.bytes] := by
  unfold ethernet_out
  simp only [ethernet_out_buf_state]
  cases buf <;> rfl

theorem ethernet_out_arp_table (s : State) (buf : buf_ref) (mac : List Nat) (protocol : Nat) :
    (ethernet_out s buf mac protocol).arp_table = s.arp_table := by
  unfold ethernet_out
  simp only [ethernet_out_buf_state]
  cases buf <;> rfl

theorem ethernet_out_arp_buf (s : State) (buf : buf_ref) (mac : List Nat) (protocol : Nat) :
    (ethernet_out s buf mac protocol).arp_buf = s.arp_buf := by
  unfold ethernet_out
  simp only [ethernet_out_buf_state]
  cases buf <;> rfl

theorem ethernet_out_now (s : State) (buf : buf_ref) (mac : List Nat) (protocol : Nat) :
    (ethernet_out s buf mac protocol).now = s.now := by
  unfold ethernet_out
  simp only [ethernet_out_buf_state]
  cases buf <;> rfl

theorem arp_out_hit_eq (s : State) (buf : buf_ref) (ip mac : List Nat)
    (h : map_get s.arp_table s.now ip = some mac) :
    arp_out s buf ip =
      ethernet_out (s.log (Event.arp_out (s.get buf).bytes ip)) buf mac NET_PROTOCOL_IP := by
  unfold arp_out
  have h' : map_get (s.log (Event.arp_out (s.get buf).bytes ip)).arp_table
      (s.log (Event.arp_out (s.get buf).bytes ip)).now ip = some mac := h
  simp only [h']

theorem get_log (s : State) (e : Event) (buf : buf_ref) : (s.log e).get buf = s.get buf := by
  cases buf <;> rfl

/-- C5. ARP cache hit: when the address table holds an unexpired entry `ip -> mac`,
`arp_out(buf, ip)` is one call of `ethernet_out` on that buffer with `mac` and protocol
code IP; one frame leaves, the one `ethernet_out` builds for that call (destination `mac`,
type `0x0800`, then the buffer bytes, when the buffer has room for the link header and the
padding), no ARP packet is built, and both tables are unchanged. -/
theorem arp_out_cache_hit (s : State) (buf : buf_ref) (ip mac : List Nat)
    (h : map_get s.arp_table s.now ip = some mac) :
    arp_out s buf ip =
      ethernet_out (s.log (Event.arp_out (s.get buf).bytes ip)) buf mac NET_PROTOCOL_IP ∧
    (arp_out s buf ip).trace = s.trace ++
      [Event.arp_out (s.get buf).bytes ip,
       Event.ethernet_out (s.get buf).bytes mac NET_PROTOCOL_IP,
       Event.driver_send (ethernet_out_buf s (s.get buf) mac NET_PROTOCOL_IP).2.bytes] ∧
    (14 ≤ (s.get buf).data →
      (s.get buf).data + (s.get buf).len + (46 - (s.get buf).len)
        ≤ (s.get buf).payload.length →
      (ethernet_out_buf s (s.get buf) mac NET_PROTOCOL_IP).2.bytes =
        bytes_from mac 0 6 ++ (bytes_from s.net_if_mac 0 6 ++ ([0x08, 0x00] ++
          ((s.get buf).bytes ++ List.replicate (46 - (s.get buf).len) 0)))) ∧
    (arp_out s buf ip).arp_table = s.arp_table ∧
    (arp_out s buf ip).arp_buf = s.arp_buf := by
  rw [arp_out_hit_eq s buf ip mac h]
  refine ⟨rfl, ?_, ?_, ?_, ?_⟩
  · rw [ethernet_out_trace, get_log, ethernet_out_buf_snd_log]
    simp [State.log]
  · intro h1 h2
    exact ethernet_out_buf_frame s (s.get buf) mac NET_PROTOCOL_IP h1 h2
  · rw [ethernet_out_arp_table]
    rfl
  · rw [ethernet_out_arp_buf]
    rfl

/-- Witness of C5: the mapping `10.0.0.2 -> AA:BB:CC:DD:EE:FF` of the example state. -/
theorem arp_out_cache_hit_witness :
    map_get example_state.arp_table example_state.now [10, 0, 0, 2]
      = some [0xAA, 0xBB, 0xCC, 0xDD, 0xEE, 0xFF] ∧
    (arp_out example_state buf_ref.user [10, 0, 0, 2]).trace = example_state.trace ++
      [Event.arp_out (example_state.get buf_ref.user).bytes [10, 0, 0, 2],
       Event.ethernet_out (example_state.get buf_ref.user).bytes
         [0xAA, 0xBB, 0xCC, 0xDD, 0xEE, 0xFF] NET_PROTOCOL_IP,
       Event.driver_send (ethernet_out_buf example_state (example_state.get buf_ref.user)
         [0xAA, 0xBB, 0xCC, 0xDD, 0xEE, 0xFF] NET_PROTOCOL_IP).2.bytes] ∧
    (ethernet_out_buf example_state (example_state.get buf_ref.user)
        [0xAA, 0xBB, 0xCC, 0xDD, 0xEE, 0xFF] NET_PROTOCOL_IP).2.bytes =
      bytes_from [0xAA, 0xBB, 0xCC, 0xDD, 0xEE, 0xFF] 0 6 ++
        (bytes_from example_state.net_if_mac 0 6 ++ ([0x08, 0x00] ++
          ((example_state.get buf_ref.user).bytes ++
            List.replicate (46 - (example_state.get buf_ref.user).len) 0))) ∧
    (arp_out example_state buf_ref.user [10, 0, 0, 2]).arp_table = example_state.arp_table ∧
    (arp_out example_state buf_ref.user [10, 0, 0, 2]).arp_buf = example_state.arp_buf :=
  have h := arp_out_cache_hit example_state buf_ref.user [10, 0, 0, 2]
    [0xAA, 0xBB, 0xCC, 0xDD, 0xEE, 0xFF] (by decide)
  ⟨by decide, h.2.1, h.2.2.1 (by decide) (by decide), h.2.2.2.1, h.2.2.2.2⟩

/-! ## arp_req -/

theorem arp_init_pkt_eq (s : State) :
    arp_init_pkt s = [0, 1, 8, 0, 6, 4, 0, 0] ++ bytes_from s.net_if_mac 0 6 ++
      bytes_from s.net_if_ip 0 4 ++ [0, 0, 0, 0, 0, 0, 0, 0, 0, 0] := by
  simp [arp_init_pkt, bytes_from, memcpy, store16, store8, swap16, ARP_HW_ETHER,
    NET_PROTOCOL_IP, NET_MAC_LEN, NET_IP_LEN, List.range, List.range.loop, List.replicate]

theorem length_arp_init_pkt (s : State) : (arp_init_pkt s).length = 28 := by
  rw [arp_init_pkt_eq]
  simp [length_bytes_from]

theorem buf_init_ok (b : buf_t) (len : Nat) (h : len < b.payload.length / 2) :
    buf_init b len = ⟨len, b.payload.length / 2 - len, b.payload⟩ := by
  unfold buf_init
  rw [if_neg (by omega)]

/-- The 28 bytes that `arp_req` builds, whatever the offset of the packet in `txbuf`. -/
theorem arp_req_pkt_bytes (s : State) (P : List Nat) (d : Nat) (ip : List Nat)
    (hd : d + 28 ≤ P.length) :
    bytes_from (store16 (memcpy (memcpy P d (arp_init_pkt s) 28) (d + 24) ip NET_IP_LEN)
      (d + 6) (swap16 ARP_REQUEST)) d 28 =
    [0, 1, 8, 0, 6, 4, 0, 1] ++ (bytes_from s.net_if_mac 0 6 ++ (bytes_from s.net_if_ip 0 4 ++
      ([0, 0, 0, 0, 0, 0] ++ bytes_from ip 0 4))) := by
  have hreloc : bytes_from (store16 (memcpy (memcpy P d (arp_init_pkt s) 28) (d + 24) ip
      NET_IP_LEN) (d + 6) (swap16 ARP_REQUEST)) d 28 =
      bytes_from (store16 (memcpy (arp_init_pkt s) 24 ip NET_IP_LEN) 6 (swap16 ARP_REQUEST))
        0 28 := by
    have hl := length_arp_init_pkt s
    apply bytes_from_ext
    intro i hi
    simp only [NET_IP_LEN, Nat.zero_add]
    by_cases h6 : i = 6
    · subst h6
      rw [getD_store16_lo _ _ _ (by simp [length_memcpy]; omega),
        getD_store16_lo _ _ _ (by simp [length_memcpy, hl])]
    by_cases h7 : i = 7
    · subst h7
      rw [show d + 7 = d + 6 + 1 from rfl, getD_store16_hi _ _ _ (by simp [length_memcpy]; omega),
        show (7 : Nat) = 6 + 1 from rfl, getD_store16_hi _ _ _ (by simp [length_memcpy, hl])]
    rw [getD_store16 _ _ _ _ (by omega) (by omega), getD_store16 _ _ _ _ (by omega) (by omega)]
    by_cases h24 : 24 ≤ i
    · obtain ⟨j, rfl⟩ : ∃ j, i = 24 + j := ⟨i - 24, by omega⟩
      rw [← Nat.add_assoc, getD_memcpy_in _ _ _ _ _ (by simp [length_memcpy]; omega) (by omega),
        getD_memcpy_in _ _ _ _ _ (by omega) (by omega)]
    · rw [getD_memcpy_out (memcpy P d (arp_init_pkt s) 28) (d + 24) ip 4 (d + i) (by omega),
        getD_memcpy_in P d (arp_init_pkt s) 28 i (by omega) hi,
        getD_memcpy_out (arp_init_pkt s) 24 ip 4 i (by omega)]
  rw [hreloc, arp_init_pkt_eq]
  simp [bytes_from, memcpy, store16, swap16, ARP_REQUEST, NET_IP_LEN, List.range,
    List.range.loop]

theorem arp_req_spec (s : State) (ip : List Nat) (hcap : 84 ≤ s.txbuf.payload.length) :
    (arp_req s ip).trace = s.trace ++
      [Event.ethernet_out
        ([0, 1, 8, 0, 6, 4, 0, 1] ++ (bytes_from s.net_if_mac 0 6 ++
          (bytes_from s.net_if_ip 0 4 ++ ([0, 0, 0, 0, 0, 0] ++ bytes_from ip 0 4))))
        ether_broadcast_mac NET_PROTOCOL_ARP,
       Event.driver_send
        (ether_broadcast_mac ++ (bytes_from s.net_if_mac 0 6 ++ ([0x08, 0x06] ++
          (([0, 1, 8, 0, 6, 4, 0, 1] ++ (bytes_from s.net_if_mac 0 6 ++
            (bytes_from s.net_if_ip 0 4 ++ ([0, 0, 0, 0, 0, 0] ++ bytes_from ip 0 4))))
            ++ List.replicate 18 0))))] ∧
    (arp_req s ip).arp_table = s.arp_table ∧
    (arp_req s ip).arp_buf = s.arp_buf ∧
    (arp_req s ip).now = s.now := by
  unfold arp_req
  rw [buf_init_ok _ _ (by omega)]
  simp only
  refine ⟨?_, ?_, ?_, ?_⟩
  · rw [ethernet_out_trace]
    simp only [State.get]
    rw [ethernet_out_buf_frame _ _ _ _ (by simp only; omega)
      (by simp only [length_store16, length_memcpy]; omega)]
    simp only [buf_t.bytes]
    rw [arp_req_pkt_bytes s _ _ ip (by omega)]
    rfl
  · rw [ethernet_out_arp_table]
  · rw [ethernet_out_arp_buf]
  · rw [ethernet_out_now]

/-! ## The tables -/

theorem map_get_set_same {V : Type} (m : map_t V) (now : Nat) (key : List Nat) (v : V) :
    map_get (map_set m now key v) now key = some v := by
  simp [map_get, map_set, map_expired]

theorem map_get_delete_same {V : Type} (m : map_t V) (now : Nat) (key : List Nat) :
    map_get (map_delete m key) now key = none := by
  have h : (map_delete m key).entries.find?
      (fun e => decide (e.key = bytes_from key 0 (map_delete m key).key_len)) = none := by
    rw [List.find?_eq_none]
    intro e he
    simp only [map_delete, List.mem_filter] at he
    simpa [map_delete] using he.2
  unfold map_get
  rw [h]

theorem map_get_delete_other {V : Type} (m : map_t V) (now : Nat) (key key2 : List Nat)
    (hne : bytes_from key2 0 m.key_len ≠ bytes_from key 0 m.key_len) :
    map_get (map_delete m key) now key2 = map_get m now key2 := by
  have h : (map_delete m key).entries.find?
      (fun e => decide (e.key = bytes_from key2 0 (map_delete m key).key_len)) =
      m.entries.find? (fun e => decide (e.key = bytes_from key2 0 m.key_len)) := by
    simp only [map_delete, List.find?_filter]
    congr 1
    funext a
    by_cases hk : a.key = bytes_from key2 0 m.key_len
    · have hk2 : ¬ bytes_from key2 0 m.key_len = bytes_from key 0 m.key_len := hne
      simp [hk, hk2]
    · simp [hk]
  unfold map_get
  rw [h]
  rfl

theorem frames_append (a b : List Event) : frames (a ++ b) = frames a ++ frames b := by
  induction a with
  | nil => rfl
  | cons e t ih => cases e <;> simp [frames, ih]

theorem arp_out_miss_eq (s : State) (buf : buf_ref) (ip : List Nat)
    (h1 : map_get s.arp_table s.now ip = none) (h2 : map_get s.arp_buf s.now ip = none) :
    arp_out s buf ip =
      arp_req { s with trace := s.trace ++ [Event.arp_out (s.get buf).bytes ip],
                       arp_buf := map_set s.arp_buf s.now ip (s.get buf) } ip := by
  unfold arp_out
  have h1' : map_get (s.log (Event.arp_out (s.get buf).bytes ip)).arp_table
      (s.log (Event.arp_out (s.get buf).bytes ip)).now ip = none := h1
  have h2' : map_get (s.log (Event.arp_out (s.get buf).bytes ip)).arp_buf
      (s.log (Event.arp_out (s.get buf).bytes ip)).now ip = none := h2
  simp only [h1', h2', get_log]
  rfl

theorem arp_out_pending_eq (s : State) (buf : buf_ref) (ip : List Nat) (p : buf_t)
    (h1 : map_get s.arp_table s.now ip = none) (h2 : map_get s.arp_buf s.now ip = some p) :
    arp_out s buf ip = s.log (Event.arp_out (s.get buf).bytes ip) := by
  unfold arp_out
  have h1' : map_get (s.log (Event.arp_out (s.get buf).bytes ip)).arp_table
      (s.log (Event.arp_out (s.get buf).bytes ip)).now ip = none := h1
  have h2' : map_get (s.log (Event.arp_out (s.get buf).bytes ip)).arp_buf
      (s.log (Event.arp_out (s.get buf).bytes ip)).now ip = some p := h2
  simp only [h1', h2']

theorem arp_out_miss_spec (s : State) (buf : buf_ref) (ip : List Nat)
    (h1 : map_get s.arp_table s.now ip = none) (h2 : map_get s.arp_buf s.now ip = none)
    (hcap : 84 ≤ s.txbuf.payload.length) :
    (arp_out s buf ip).arp_buf = map_set s.arp_buf s.now ip (s.get buf) ∧
    map_get (arp_out s buf ip).arp_buf (arp_out s buf ip).now ip = some (s.get buf) ∧
    (arp_out s buf ip).trace = s.trace ++
      [Event.arp_out (s.get buf).bytes ip,
       Event.ethernet_out
        ([0, 1, 8, 0, 6, 4, 0, 1] ++ (bytes_from s.net_if_mac 0 6 ++
          (bytes_from s.net_if_ip 0 4 ++ ([0, 0, 0, 0, 0, 0] ++ bytes_from ip 0 4))))
        ether_broadcast_mac NET_PROTOCOL_ARP,
       Event.driver_send
        (ether_broadcast_mac ++ (bytes_from s.net_if_mac 0 6 ++ ([0x08, 0x06] ++
          (([0, 1, 8, 0, 6, 4, 0, 1] ++ (bytes_from s.net_if_mac 0 6 ++
            (bytes_from s.net_if_ip 0 4 ++ ([0, 0, 0, 0, 0, 0] ++ bytes_from ip 0 4))))
            ++ List.replicate 18 0))))] ∧
    (arp_out s buf ip).arp_table = s.arp_table := by
  rw [arp_out_miss_eq s buf ip h1 h2]
  obtain ⟨t1, t2, t3, t4⟩ := arp_req_spec
    { s with trace := s.trace ++ [Event.arp_out (s.get buf).bytes ip],
             arp_buf := map_set s.arp_buf s.now ip (s.get buf) } ip hcap
  refine ⟨t3, ?_, ?_, t2⟩
  · rw [t3, t4]
    exact map_get_set_same _ _ _ _
  · rw [t1]
    simp

/-- C6. ARP cache miss: with no address-table entry and no pending entry for `ip`,
`arp_out(buf, ip)` (a) stores the buffer as it was at the call under `ip` in the pending
table, whichever buffer `buf` points to (the transmit scratch buffer included), (b, c)
makes one call of `ethernet_out`, for a 28-byte ARP request (opcode 1, sender = local
MAC/IP, target MAC zero, target IP = `ip`) to the broadcast address with protocol code
ARP, and gives the driver that one frame, padded to 46 bytes; the address table is
unchanged. -/
theorem arp_out_cache_miss (s : State) (buf : buf_ref) (ip : List Nat)
    (h1 : map_get s.arp_table s.now ip = none) (h2 : map_get s.arp_buf s.now ip = none)
    (hcap : 84 ≤ s.txbuf.payload.length) :
    (arp_out s buf ip).arp_buf = map_set s.arp_buf s.now ip (s.get buf) ∧
    map_get (arp_out s buf ip).arp_buf (arp_out s buf ip).now ip = some (s.get buf) ∧
    (arp_out s buf ip).trace = s.trace ++
      [Event.arp_out (s.get buf).bytes ip,
       Event.ethernet_out
        ([0, 1, 8, 0, 6, 4, 0, 1] ++ (bytes_from s.net_if_mac 0 6 ++
          (bytes_from s.net_if_ip 0 4 ++ ([0, 0, 0, 0, 0, 0] ++ bytes_from ip 0 4))))
        ether_broadcast_mac NET_PROTOCOL_ARP,
       Event.driver_send
        (ether_broadcast_mac ++ (bytes_from s.net_if_mac 0 6 ++ ([0x08, 0x06] ++
          (([0, 1, 8, 0, 6, 4, 0, 1] ++ (bytes_from s.net_if_mac 0 6 ++
            (bytes_from s.net_if_ip 0 4 ++ ([0, 0, 0, 0, 0, 0] ++ bytes_from ip 0 4))))
            ++ List.replicate 18 0))))] ∧
    (arp_out s buf ip).arp_table = s.arp_table :=
  arp_out_miss_spec s buf ip h1 h2 hcap

/-- Witness of C6: the example state, the transmit scratch buffer, destination
10.0.0.4. -/
theorem arp_out_cache_miss_witness :
    map_get example_state.arp_table example_state.now [10, 0, 0, 4] = none ∧
    map_get example_state.arp_buf example_state.now [10, 0, 0, 4] = none ∧
    84 ≤ example_state.txbuf.payload.length ∧
    map_get (arp_out example_state buf_ref.txbuf [10, 0, 0, 4]).arp_buf
      (arp_out example_state buf_ref.txbuf [10, 0, 0, 4]).now [10, 0, 0, 4]
      = some (example_state.get buf_ref.txbuf) ∧
    (arp_out example_state buf_ref.txbuf [10, 0, 0, 4]).arp_table
      = example_state.arp_table :=
  have h := arp_out_cache_miss example_state buf_ref.txbuf [10, 0, 0, 4] (by decide)
    (by decide) (by decide)
  ⟨by decide, by decide, by decide, h.2.1, h.2.2.2⟩

/-- C7. ARP miss with a pending entry: with no address-table entry and an unexpired
pending buffer `p` for `ip`, `arp_out(buf2, ip)` drops the buffer: no call of
`ethernet_out`, no frame, the pending table is unchanged and still maps `ip` to `p`, the
address table is unchanged.  Hence two consecutive calls of `arp_out` for an unresolved
`ip` (no entry in either table before the first) give the driver exactly one frame, the
ARP request of the first call. -/
theorem arp_out_pending_drop (s : State) (buf2 : buf_ref) (ip : List Nat) (p : buf_t)
    (h1 : map_get s.arp_table s.now ip = none) (h2 : map_get s.arp_buf s.now ip = some p)
    (s0 : State) (buf1 : buf_ref)
    (g1 : map_get s0.arp_table s0.now ip = none) (g2 : map_get s0.arp_buf s0.now ip = none)
    (gcap : 84 ≤ s0.txbuf.payload.length) :
    ((arp_out s buf2 ip).trace = s.trace ++ [Event.arp_out (s.get buf2).bytes ip] ∧
      frames (arp_out s buf2 ip).trace = frames s.trace ∧
      (arp_out s buf2 ip).arp_buf = s.arp_buf ∧
      map_get (arp_out s buf2 ip).arp_buf (arp_out s buf2 ip).now ip = some p ∧
      (arp_out s buf2 ip).arp_table = s.arp_table) ∧
    frames (arp_out (arp_out s0 buf1 ip) buf2 ip).trace = frames s0.trace ++
      [ether_broadcast_mac ++ (bytes_from s0.net_if_mac 0 6 ++ ([0x08, 0x06] ++
        (([0, 1, 8, 0, 6, 4, 0, 1] ++ (bytes_from s0.net_if_mac 0 6 ++
          (bytes_from s0.net_if_ip 0 4 ++ ([0, 0, 0, 0, 0, 0] ++ bytes_from ip 0 4))))
          ++ List.replicate 18 0)))] := by
  constructor
  · rw [arp_out_pending_eq s buf2 ip p h1 h2]
    refine ⟨rfl, ?_, rfl, h2, rfl⟩
    simp [State.log, frames_append, frames]
  · obtain ⟨a1, a2, a3, a4⟩ := arp_out_miss_spec s0 buf1 ip g1 g2 gcap
    have hnow : (arp_out s0 buf1 ip).now = s0.now := by
      rw [arp_out_miss_eq s0 buf1 ip g1 g2]
      exact (arp_req_spec _ ip gcap).2.2.2
    have k1 : map_get (arp_out s0 buf1 ip).arp_table (arp_out s0 buf1 ip).now ip = none := by
      rw [a4, hnow]
      exact g1
    rw [arp_out_pending_eq (arp_out s0 buf1 ip) buf2 ip _ k1 a2]
    simp [State.log, a3, frames_append, frames]

/-- Witness of C7: in the example state 10.0.0.3 has a pending buffer and 10.0.0.3 is
not in the address table; the empty-table variant of the state has neither. -/
theorem arp_out_pending_drop_witness :
    map_get example_state.arp_table example_state.now [10, 0, 0, 3] = none ∧
    map_get example_state.arp_buf example_state.now [10, 0, 0, 3]
      = some ⟨2, 60, List.replicate 120 9⟩ ∧
    map_get { example_state with arp_buf := ⟨4, 1, []⟩ }.arp_buf example_state.now
      [10, 0, 0, 3] = none ∧
    84 ≤ example_state.txbuf.payload.length ∧
    frames (arp_out example_state buf_ref.user [10, 0, 0, 3]).trace
      = frames example_state.trace ∧
    map_get (arp_out example_state buf_ref.user [10, 0, 0, 3]).arp_buf
      (arp_out example_state buf_ref.user [10, 0, 0, 3]).now [10, 0, 0, 3]
      = some ⟨2, 60, List.replicate 120 9⟩ :=
  have h := arp_out_pending_drop example_state buf_ref.user [10, 0, 0, 3]
    ⟨2, 60, List.replicate 120 9⟩ (by decide) (by decide)
    { example_state with arp_buf := ⟨4, 1, []⟩ } buf_ref.txbuf (by decide) (by decide)
    (by decide)
  ⟨by decide, by decide, by decide, by decide, h.1.2.1, h.1.2.2.2.1⟩

/-! ## arp_in -/

/-- C8. ARP resolution: for a well-formed ARP packet (request or reply) whose sender IP
has a pending buffer `p`, `arp_in` makes one call of `ethernet_out`, on `p`, with the
sender MAC and protocol code IP, gives the driver that one frame and nothing else,
removes the pending entry of the sender IP and no other, and afterwards the address table
maps the sender IP to the sender MAC. -/
theorem arp_in_resolves_pending (s : State) (buf : buf_ref) (src_mac : List Nat) (p : buf_t)
    (hlen : 28 ≤ (s.get buf).len)
    (hhw : swap16 (load16 (s.get buf).payload (s.get buf).data) = ARP_HW_ETHER)
    (hpro : swap16 (load16 (s.get buf).payload ((s.get buf).data + 2)) = NET_PROTOCOL_IP)
    (hhl : byte_at (s.get buf).payload ((s.get buf).data + 4) = NET_MAC_LEN)
    (hpl : byte_at (s.get buf).payload ((s.get buf).data + 5) = NET_IP_LEN)
    (hop : swap16 (load16 (s.get buf).payload ((s.get buf).data + 6)) = ARP_REQUEST ∨
      swap16 (load16 (s.get buf).payload ((s.get buf).data + 6)) = ARP_REPLY)
    (hp : map_get s.arp_buf s.now
      (bytes_from (s.get buf).payload ((s.get buf).data + 14) NET_IP_LEN) = some p) :
    (arp_in s buf src_mac).trace = s.trace ++
      [Event.ethernet_out p.bytes
        (bytes_from (s.get buf).payload ((s.get buf).data + 8) NET_MAC_LEN) NET_PROTOCOL_IP,
       Event.driver_send (ethernet_out_buf s p
        (bytes_from (s.get buf).payload ((s.get buf).data + 8) NET_MAC_LEN)
        NET_PROTOCOL_IP).2.bytes] ∧
    (14 ≤ p.data → p.data + p.len + (46 - p.len) ≤ p.payload.length →
      (ethernet_out_buf s p (bytes_from (s.get buf).payload ((s.get buf).data + 8)
        NET_MAC_LEN) NET_PROTOCOL_IP).2.bytes =
        bytes_from (s.get buf).payload ((s.get buf).data + 8) NET_MAC_LEN ++
          (bytes_from s.net_if_mac 0 6 ++ ([0x08, 0x00] ++
            (p.bytes ++ List.replicate (46 - p.len) 0)))) ∧
    (arp_in s buf src_mac).arp_buf = map_delete s.arp_buf
      (bytes_from (s.get buf).payload ((s.get buf).data + 14) NET_IP_LEN) ∧
    map_get (arp_in s buf src_mac).arp_buf (arp_in s buf src_mac).now
      (bytes_from (s.get buf).payload ((s.get buf).data + 14) NET_IP_LEN) = none ∧
    (∀ key, bytes_from key 0 s.arp_buf.key_len ≠
        bytes_from (bytes_from (s.get buf).payload ((s.get buf).data + 14) NET_IP_LEN) 0
          s.arp_buf.key_len →
      map_get (arp_in s buf src_mac).arp_buf (arp_in s buf src_mac).now key
        = map_get s.arp_buf s.now key) ∧
    map_get (arp_in s buf src_mac).arp_table (arp_in s buf src_mac).now
      (bytes_from (s.get buf).payload ((s.get buf).data + 14) NET_IP_LEN)
      = some (bytes_from (s.get buf).payload ((s.get buf).data + 8) NET_MAC_LEN) := by
  have hop' : ¬ (swap16 (load16 (s.get buf).payload ((s.get buf).data + 6)) ≠ ARP_REQUEST ∧
      swap16 (load16 (s.get buf).payload ((s.get buf).data + 6)) ≠ ARP_REPLY) := by
    intro h
    rcases hop with h0 | h0
    · exact h.1 h0
    · exact h.2 h0
  have heq : arp_in s buf src_mac =
      { s with
        arp_table := map_set s.arp_table s.now
          (bytes_from (s.get buf).payload ((s.get buf).data + 14) NET_IP_LEN)
          (bytes_from (s.get buf).payload ((s.get buf).data + 8) NET_MAC_LEN),
        trace := s.trace ++
          [Event.ethernet_out p.bytes
            (bytes_from (s.get buf).payload ((s.get buf).data + 8) NET_MAC_LEN)
            NET_PROTOCOL_IP,
           Event.driver_send (ethernet_out_buf s p
            (bytes_from (s.get buf).payload ((s.get buf).data + 8) NET_MAC_LEN)
            NET_PROTOCOL_IP).2.bytes],
        arp_buf := map_delete s.arp_buf
          (bytes_from (s.get buf).payload ((s.get buf).data + 14) NET_IP_LEN) } := by
    unfold arp_in
    simp only [if_neg (Nat.not_lt.mpr hlen), hhw, hpro, hhl, hpl, hop', ne_eq,
      not_true_eq_false, if_false, hp, ethernet_out_buf_state]
    rfl
  rw [heq]
  refine ⟨rfl, ?_, rfl, ?_, ?_, ?_⟩
  · intro h1 h2
    exact ethernet_out_buf_frame s p _ NET_PROTOCOL_IP h1 h2
  · exact map_get_delete_same _ _ _
  · intro key hk
    exact map_get_delete_other _ _ _ _ hk
  · exact map_get_set_same _ _ _ _

/-- Witness of C8: the ARP reply from 10.0.0.3 in the receive buffer of the example
state, where 10.0.0.3 has a pending buffer. -/
theorem arp_in_resolves_pending_witness :
    map_get example_arp_reply_state.arp_buf example_arp_reply_state.now
      (bytes_from (example_arp_reply_state.get buf_ref.rxbuf).payload
        ((example_arp_reply_state.get buf_ref.rxbuf).data + 14) NET_IP_LEN)
      = some ⟨2, 60, List.replicate 120 9⟩ ∧
    (arp_in example_arp_reply_state buf_ref.rxbuf [0x02, 0, 0, 0, 0, 0x03]).trace =
      example_arp_reply_state.trace ++
      [Event.ethernet_out (buf_t.mk 2 60 (List.replicate 120 9)).bytes
        (bytes_from (example_arp_reply_state.get buf_ref.rxbuf).payload
          ((example_arp_reply_state.get buf_ref.rxbuf).data + 8) NET_MAC_LEN) NET_PROTOCOL_IP,
       Event.driver_send (ethernet_out_buf example_arp_reply_state
        (buf_t.mk 2 60 (List.replicate 120 9))
        (bytes_from (example_arp_reply_state.get buf_ref.rxbuf).payload
          ((example_arp_reply_state.get buf_ref.rxbuf).data + 8) NET_MAC_LEN)
        NET_PROTOCOL_IP).2.bytes] ∧
    (ethernet_out_buf example_arp_reply_state (buf_t.mk 2 60 (List.replicate 120 9))
        (bytes_from (example_arp_reply_state.get buf_ref.rxbuf).payload
          ((example_arp_reply_state.get buf_ref.rxbuf).data + 8) NET_MAC_LEN)
        NET_PROTOCOL_IP).2.bytes =
      bytes_from (example_arp_reply_state.get buf_ref.rxbuf).payload
          ((example_arp_reply_state.get buf_ref.rxbuf).data + 8) NET_MAC_LEN ++
        (bytes_from example_arp_reply_state.net_if_mac 0 6 ++ ([0x08, 0x00] ++
          ((buf_t.mk 2 60 (List.replicate 120 9)).bytes ++
            List.replicate (46 - (buf_t.mk 2 60 (List.replicate 120 9)).len) 0))) ∧
    (arp_in example_arp_reply_state buf_ref.rxbuf [0x02, 0, 0, 0, 0, 0x03]).arp_buf
      = map_delete example_arp_reply_state.arp_buf
          (bytes_from (example_arp_reply_state.get buf_ref.rxbuf).payload
            ((example_arp_reply_state.get buf_ref.rxbuf).data + 14) NET_IP_LEN) ∧
    map_get (arp_in example_arp_reply_state buf_ref.rxbuf [0x02, 0, 0, 0, 0, 0x03]).arp_table
      (arp_in example_arp_reply_state buf_ref.rxbuf [0x02, 0, 0, 0, 0, 0x03]).now
      (bytes_from (example_arp_reply_state.get buf_ref.rxbuf).payload
        ((example_arp_reply_state.get buf_ref.rxbuf).data + 14) NET_IP_LEN)
      = some (bytes_from (example_arp_reply_state.get buf_ref.rxbuf).payload
          ((example_arp_reply_state.get buf_ref.rxbuf).data + 8) NET_MAC_LEN) :=
  have h := arp_in_resolves_pending example_arp_reply_state buf_ref.rxbuf
    [0x02, 0, 0, 0, 0, 0x03] ⟨2, 60, List.replicate 120 9⟩ (by decide) (by decide)
    (by decide) (by decide) (by decide) (Or.inr (by decide)) (by decide)
  ⟨by decide, h.1, h.2.1 (by decide) (by decide), h.2.2.1, h.2.2.2.2.2⟩

/-! ## ip_in: drops -/

theorem set_trace (s : State) (buf : buf_ref) (b : buf_t) : (s.set buf b).trace = s.trace := by
  cases buf <;> rfl

theorem set_arp_table (s : State) (buf : buf_ref) (b : buf_t) :
    (s.set buf b).arp_table = s.arp_table := by
  cases buf <;> rfl

theorem set_arp_buf (s : State) (buf : buf_ref) (b : buf_t) :
    (s.set buf b).arp_buf = s.arp_buf := by
  cases buf <;> rfl

theorem set_net_if_ip (s : State) (buf : buf_ref) (b : buf_t) :
    (s.set buf b).net_if_ip = s.net_if_ip := by
  cases buf <;> rfl

theorem get_set (s : State) (buf : buf_ref) (b : buf_t) : (s.set buf b).get buf = b := by
  cases buf <;> rfl

theorem bytes_from_store16_other (m : List Nat) (o v a n : Nat)
    (h : a + n ≤ o ∨ o + 2 ≤ a) :
    bytes_from (store16 m o v) a n = bytes_from m a n := by
  apply bytes_from_ext
  intro i hi
  exact getD_store16 _ _ _ _ (by omega) (by omega)

theorem ip_in_drop (s : State) (buf : buf_ref) (src_mac : List Nat)
    (h : (s.get buf).len < 20 ∨
      byte_at (s.get buf).payload (s.get buf).data / 16 ≠ 4 ∨
      (s.get buf).len < swap16 (load16 (s.get buf).payload ((s.get buf).data + 2)) ∨
      checksum16 ((store16 (s.get buf).payload ((s.get buf).data + 10) 0).drop
        (s.get buf).data) 20 ≠ load16 (s.get buf).payload ((s.get buf).data + 10) ∨
      bytes_from (s.get buf).payload ((s.get buf).data + 16) 4 ≠
        bytes_from s.net_if_ip 0 4) :
    (ip_in s buf src_mac).trace = s.trace ∧
    dispatches (ip_in s buf src_mac).trace = dispatches s.trace ∧
    frames (ip_in s buf src_mac).trace = frames s.trace ∧
    (ip_in s buf src_mac).arp_table = s.arp_table ∧
    (ip_in s buf src_mac).arp_buf = s.arp_buf := by
  have key : (ip_in s buf src_mac).trace = s.trace ∧
      (ip_in s buf src_mac).arp_table = s.arp_table ∧
      (ip_in s buf src_mac).arp_buf = s.arp_buf := by
    unfold ip_in
    simp only []
    split
    · exact ⟨rfl, rfl, rfl⟩
    rename_i c1
    split
    · exact ⟨rfl, rfl, rfl⟩
    rename_i c2
    split
    · exact ⟨rfl, rfl, rfl⟩
    rename_i c3
    split
    · exact ⟨set_trace _ _ _, set_arp_table _ _ _, set_arp_buf _ _ _⟩
    rename_i c4
    split
    · exact ⟨(set_trace _ _ _).trans (set_trace _ _ _),
        (set_arp_table _ _ _).trans (set_arp_table _ _ _),
        (set_arp_buf _ _ _).trans (set_arp_buf _ _ _)⟩
    rename_i c5
    exfalso
    rw [set_net_if_ip, set_net_if_ip,
      bytes_from_store16_other _ _ _ _ _ (by simp [NET_IP_LEN]),
      bytes_from_store16_other _ _ _ _ _ (by simp [NET_IP_LEN])] at c5
    rcases h with h | h | h | h | h
    · exact c1 h
    · exact c2 h
    · exact c3 h
    · exact c4 h
    · exact c5 h
  obtain ⟨k1, k2, k3⟩ := key
  exact ⟨k1, by rw [k1], by rw [k1], k2, k3⟩

/-- C10. `ip_in` silently drops malformed or foreign datagrams: when the buffer is
shorter than 20 bytes, or the version is not 4, or the declared total length exceeds the
buffer length, or the header checksum recomputed over the 20 header bytes with the field
zeroed differs from the stored one, or the destination address is not the local address,
`ip_in` records no call and no frame (no dispatch to a handler, no ICMP, no ARP) and
leaves both ARP tables unchanged. -/
theorem ip_in_drops_malformed (s : State) (buf : buf_ref) (src_mac : List Nat)
    (h : (s.get buf).len < 20 ∨
      byte_at (s.get buf).payload (s.get buf).data / 16 ≠ 4 ∨
      (s.get buf).len < swap16 (load16 (s.get buf).payload ((s.get buf).data + 2)) ∨
      checksum16 ((store16 (s.get buf).payload ((s.get buf).data + 10) 0).drop
        (s.get buf).data) 20 ≠ load16 (s.get buf).payload ((s.get buf).data + 10) ∨
      bytes_from (s.get buf).payload ((s.get buf).data + 16) 4 ≠
        bytes_from s.net_if_ip 0 4) :
    (ip_in s buf src_mac).trace = s.trace ∧
    dispatches (ip_in s buf src_mac).trace = dispatches s.trace ∧
    frames (ip_in s buf src_mac).trace = frames s.trace ∧
    (ip_in s buf src_mac).arp_table = s.arp_table ∧
    (ip_in s buf src_mac).arp_buf = s.arp_buf :=
  ip_in_drop s buf src_mac h

/-- Witness of C10: the empty receive buffer of the example state is shorter than an IP
header. -/
theorem ip_in_drops_malformed_witness :
    (example_state.get buf_ref.rxbuf).len < 20 ∧
    (ip_in example_state buf_ref.rxbuf []).trace = example_state.trace ∧
    dispatches (ip_in example_state buf_ref.rxbuf []).trace = dispatches example_state.trace ∧
    frames (ip_in example_state buf_ref.rxbuf []).trace = frames example_state.trace ∧
    (ip_in example_state buf_ref.rxbuf []).arp_table = example_state.arp_table ∧
    (ip_in example_state buf_ref.rxbuf []).arp_buf = example_state.arp_buf :=
  ⟨by decide, ip_in_drops_malformed example_state buf_ref.rxbuf [] (Or.inl (by decide))⟩

/-! ## The transmit scratch buffer across arp_req -/

theorem ethernet_out_buf_snd (s : State) (b : buf_t) (mac : List Nat) (protocol : Nat)
    (hroom : 14 ≤ b.data) (hcap : b.data + b.len + (46 - b.len) ≤ b.payload.length) :
    (ethernet_out_buf s b mac protocol).2.len = b.len + (46 - b.len) + 14 ∧
    (ethernet_out_buf s b mac protocol).2.data = b.data - 14 ∧
    (ethernet_out_buf s b mac protocol).2.payload.length = b.payload.length ∧
    ∀ i, (i < b.data - 14 ∨ b.data + b.len + (46 - b.len) ≤ i) →
      (ethernet_out_buf s b mac protocol).2.payload.getD i 0 = b.payload.getD i 0 := by
  obtain ⟨L, d, P⟩ := b
  simp only at hroom hcap
  have hpad : ∃ q : List Nat, q.length = P.length ∧
      (∀ i, (i < d + L ∨ d + L + (46 - L) ≤ i) → q.getD i 0 = P.getD i 0) ∧
      (if L < ETHERNET_MIN_TRANSPORT_UNIT then
        buf_add_padding ⟨L, d, P⟩ (ETHERNET_MIN_TRANSPORT_UNIT - L) else ⟨L, d, P⟩)
        = ⟨L + (46 - L), d, q⟩ := by
    by_cases hL : L < 46
    · refine ⟨memset0 P (d + L) (46 - L), length_memset0 _ _ _, ?_, ?_⟩
      · intro i hi
        exact getD_memset0_out _ _ _ _ (by omega)
      · simp only [ETHERNET_MIN_TRANSPORT_UNIT, hL, if_true, buf_add_padding]
        rw [if_neg (by omega)]
    · refine ⟨P, rfl, fun _ _ => rfl, ?_⟩
      simp only [ETHERNET_MIN_TRANSPORT_UNIT, hL, if_false]
      have : 46 - L = 0 := by omega
      rw [this]
      rfl
  obtain ⟨q, hq1, hq2, hq4⟩ := hpad
  unfold ethernet_out_buf
  simp only [hq4]
  have hah : buf_add_header ⟨L + (46 - L), d, q⟩ 14 = ⟨L + (46 - L) + 14, d - 14, q⟩ := by
    simp [buf_add_header]
    omega
  simp only [hah, NET_MAC_LEN, State.log]
  refine ⟨trivial, trivial, ?_, ?_⟩
  · rw [length_store16, length_memcpy, length_memcpy, hq1]
  · intro i hi
    rw [getD_store16 _ _ _ _ (by omega) (by omega), getD_memcpy_out _ _ _ _ _ (by omega),
      getD_memcpy_out _ _ _ _ _ (by omega)]
    exact hq2 i (by omega)

theorem arp_req_eq (s : State) (ip : List Nat) :
    arp_req s ip =
      { s with
        txbuf := (ethernet_out_buf s
          ⟨(buf_init s.txbuf 28).len, (buf_init s.txbuf 28).data,
            store16 (memcpy (memcpy (buf_init s.txbuf 28).payload (buf_init s.txbuf 28).data
              (arp_init_pkt s) 28) ((buf_init s.txbuf 28).data + 24) ip NET_IP_LEN)
              ((buf_init s.txbuf 28).data + 6) (swap16 ARP_REQUEST)⟩
          ether_broadcast_mac NET_PROTOCOL_ARP).2,
        trace := (arp_req s ip).trace } := by
  unfold arp_req ethernet_out
  simp only [ethernet_out_buf_state]
  rfl

theorem arp_req_txbuf (s : State) (ip : List Nat) (hcap : 84 ≤ s.txbuf.payload.length) :
    (arp_req s ip).txbuf.len = 60 ∧
    (arp_req s ip).txbuf.data = s.txbuf.payload.length / 2 - 42 ∧
    ∀ i, (i < s.txbuf.payload.length / 2 - 42 ∨ s.txbuf.payload.length / 2 + 18 ≤ i) →
      (arp_req s ip).txbuf.payload.getD i 0 = s.txbuf.payload.getD i 0 := by
  rw [arp_req_eq]
  simp only [NET_IP_LEN]
  rw [buf_init_ok _ _ (by omega)]
  simp only
  obtain ⟨e1, e2, _, e4⟩ := ethernet_out_buf_snd s
    ⟨28, s.txbuf.payload.length / 2 - 28,
      store16 (memcpy (memcpy s.txbuf.payload (s.txbuf.payload.length / 2 - 28)
        (arp_init_pkt s) 28) (s.txbuf.payload.length / 2 - 28 + 24) ip 4)
        (s.txbuf.payload.length / 2 - 28 + 6) (swap16 ARP_REQUEST)⟩
    ether_broadcast_mac NET_PROTOCOL_ARP (by simp only; omega)
    (by simp only [length_store16, length_memcpy]; omega)
  simp only at e1 e2 e4
  refine ⟨e1, by rw [e2]; omega, ?_⟩
  intro i hi
  rw [e4 i (by omega), getD_store16 _ _ _ _ (by omega) (by omega),
    getD_memcpy_out _ _ _ _ _ (by omega), getD_memcpy_out _ _ _ _ _ (by omega)]

theorem arp_req_ip_buf (s : State) (ip : List Nat) : (arp_req s ip).ip_buf = s.ip_buf := by
  rw [arp_req_eq]

theorem arp_req_packet_id (s : State) (ip : List Nat) :
    (arp_req s ip).packet_id = s.packet_id := by
  rw [arp_req_eq]

/-! ## ip_out: the calls of ip_fragment_out -/

theorem fragment_calls_append (a b : List Event) :
    fragment_calls (a ++ b) = fragment_calls a ++ fragment_calls b := by
  induction a with
  | nil => rfl
  | cons e t ih => cases e <;> simp [fragment_calls, ih]

theorem arp_req_trace (s : State) (ip : List Nat) :
    ∃ b f, (arp_req s ip).trace = s.trace ++
      [Event.ethernet_out b ether_broadcast_mac NET_PROTOCOL_ARP, Event.driver_send f] := by
  unfold arp_req
  exact ⟨_, _, ethernet_out_trace _ _ _ _⟩

theorem fragment_calls_arp_out (s : State) (buf : buf_ref) (ip : List Nat) :
    fragment_calls (arp_out s buf ip).trace = fragment_calls s.trace := by
  cases h1 : map_get s.arp_table s.now ip with
  | some mac =>
    rw [arp_out_hit_eq s buf ip mac h1, ethernet_out_trace]
    simp [State.log, fragment_calls_append, fragment_calls]
  | none =>
    cases h2 : map_get s.arp_buf s.now ip with
    | some p =>
      rw [arp_out_pending_eq s buf ip p h1 h2]
      simp [State.log, fragment_calls_append, fragment_calls]
    | none =>
      rw [arp_out_miss_eq s buf ip h1 h2]
      obtain ⟨b, f, ht⟩ := arp_req_trace
        { s with trace := s.trace ++ [Event.arp_out (s.get buf).bytes ip],
                 arp_buf := map_set s.arp_buf s.now ip (s.get buf) } ip
      rw [ht]
      simp [fragment_calls_append, fragment_calls]

theorem buf_add_header_payload (b : buf_t) (n : Nat) :
    (buf_add_header b n).payload = b.payload := by
  unfold buf_add_header
  split <;> rfl

theorem ip_fragment_out_eq (s : State) (buf : buf_ref) (ip : List Nat)
    (protocol id offset mf : Nat) :
    ∃ p, p.length = (s.get buf).payload.length ∧
      ip_fragment_out s buf ip protocol id offset mf =
        arp_out ((s.log (Event.ip_fragment_out (s.get buf).bytes ip protocol id offset mf)).set
          buf ⟨(buf_add_header (s.get buf) 20).len, (buf_add_header (s.get buf) 20).data, p⟩)
          buf ip := by
  refine ⟨?p, ?len, ?eq⟩
  case eq =>
    unfold ip_fragment_out
    exact rfl
  case len =>
    simp only [length_store16, length_store8, length_memcpy, buf_add_header_payload, get_log]

theorem fragment_calls_ip_fragment_out (s : State) (buf : buf_ref) (ip : List Nat)
    (protocol id offset mf : Nat) :
    fragment_calls (ip_fragment_out s buf ip protocol id offset mf).trace =
      fragment_calls s.trace ++
        [Event.ip_fragment_out (s.get buf).bytes ip protocol id offset mf] := by
  obtain ⟨p, _, he⟩ := ip_fragment_out_eq s buf ip protocol id offset mf
  rw [he, fragment_calls_arp_out, set_trace]
  simp [State.log, fragment_calls_append, fragment_calls]

theorem ip_out_loop_step (buf : buf_ref) (ip : List Nat) (protocol current_id : Nat)
    (s : State) (remaining_len data_offset fragment_offset : Nat) (hr : 0 < remaining_len) :
    ip_out_loop buf ip protocol current_id s remaining_len data_offset fragment_offset =
      ip_out_loop buf ip protocol current_id
        (ip_fragment_out
          { s with ip_buf :=
            ⟨(buf_init s.ip_buf (if remaining_len > 1480 then 1480 else remaining_len)).len,
             (buf_init s.ip_buf (if remaining_len > 1480 then 1480 else remaining_len)).data,
             memcpy (buf_init s.ip_buf (if remaining_len > 1480 then 1480
                else remaining_len)).payload
              (buf_init s.ip_buf (if remaining_len > 1480 then 1480 else remaining_len)).data
              (bytes_from
                (({ s with ip_buf := buf_init s.ip_buf (if remaining_len > 1480 then 1480
                  else remaining_len) } : State).get buf).payload
                ((({ s with ip_buf := buf_init s.ip_buf (if remaining_len > 1480 then 1480
                  else remaining_len) } : State).get buf).data + data_offset)
                (if remaining_len > 1480 then 1480 else remaining_len))
              (if remaining_len > 1480 then 1480 else remaining_len)⟩ }
          buf_ref.ip_buf ip protocol current_id fragment_offset
          (if remaining_len > 1480 then 1 else 0))
        ((remaining_len + 65536 - (if remaining_len > 1480 then 1480 else remaining_len))
          % 65536)
        ((data_offset + (if remaining_len > 1480 then 1480 else remaining_len)) % 65536)
        ((fragment_offset + (if remaining_len > 1480 then 1480 else remaining_len) / 8)
          % 65536) := by
  rw [ip_out_loop]
  simp only [hr, if_true]

theorem ip_out_loop_done (buf : buf_ref) (ip : List Nat) (protocol current_id : Nat)
    (s : State) (data_offset fragment_offset : Nat) :
    ip_out_loop buf ip protocol current_id s 0 data_offset fragment_offset = s := by
  rw [ip_out_loop]
  simp


theorem bytes_from_memcpy_same (m : List Nat) (dst : Nat) (src : List Nat) (n : Nat)
    (h : dst + n ≤ m.length) :
    bytes_from (memcpy m dst src n) dst n = bytes_from src 0 n := by
  apply bytes_from_ext
  intro i hi
  rw [getD_memcpy_in _ _ _ _ _ h hi, Nat.zero_add]

theorem bytes_from_bytes_from (m : List Nat) (o n : Nat) :
    bytes_from (bytes_from m o n) 0 n = bytes_from m o n := by
  have h := bytes_from_self (bytes_from m o n)
  rw [length_bytes_from] at h
  exact h

theorem ip_buf_chunk (ipb : buf_t) (chunk : List Nat) (n : Nat)
    (hn : n < ipb.payload.length / 2) (hcl : chunk.length = n) :
    buf_t.bytes ⟨(buf_init ipb n).len, (buf_init ipb n).data,
      memcpy (buf_init ipb n).payload (buf_init ipb n).data chunk n⟩ = chunk := by
  rw [buf_init_ok _ _ hn]
  simp only [buf_t.bytes]
  rw [bytes_from_memcpy_same _ _ _ _ (by omega)]
  subst hcl
  exact bytes_from_self chunk

theorem ip_fragment_out_miss (s1 : State) (ip : List Nat) (protocol id offset mf : Nat)
    (h1 : map_get s1.arp_table s1.now ip = none) (h2 : map_get s1.arp_buf s1.now ip = none)
    (hc : 84 ≤ s1.txbuf.payload.length) :
    (ip_fragment_out s1 buf_ref.ip_buf ip protocol id offset mf).txbuf.data
      = s1.txbuf.payload.length / 2 - 42 ∧
    (∀ i, s1.txbuf.payload.length / 2 + 18 ≤ i →
      (ip_fragment_out s1 buf_ref.ip_buf ip protocol id offset mf).txbuf.payload.getD i 0
        = s1.txbuf.payload.getD i 0) ∧
    (ip_fragment_out s1 buf_ref.ip_buf ip protocol id offset mf).ip_buf.payload.length
      = s1.ip_buf.payload.length := by
  obtain ⟨p, hp, he⟩ := ip_fragment_out_eq s1 buf_ref.ip_buf ip protocol id offset mf
  rw [he]
  have f1 : ∀ (S : State) (b : buf_t), (S.set buf_ref.ip_buf b).txbuf = S.txbuf :=
    fun _ _ => rfl
  have f2 : ∀ (S : State) (b : buf_t), (S.set buf_ref.ip_buf b).ip_buf = b := fun _ _ => rfl
  have f3 : ∀ (S : State) (b : buf_t), (S.set buf_ref.ip_buf b).now = S.now := fun _ _ => rfl
  generalize hS : (s1.log (Event.ip_fragment_out (s1.get buf_ref.ip_buf).bytes ip protocol id
    offset mf)).set buf_ref.ip_buf ⟨(buf_add_header (s1.get buf_ref.ip_buf) 20).len,
      (buf_add_header (s1.get buf_ref.ip_buf) 20).data, p⟩ = S
  have g1 : map_get S.arp_table S.now ip = none := by
    rw [← hS, set_arp_table, f3]
    exact h1
  have g2 : map_get S.arp_buf S.now ip = none := by
    rw [← hS, set_arp_buf, f3]
    exact h2
  have g3 : S.txbuf = s1.txbuf := by
    rw [← hS, f1]
    rfl
  have g4 : S.ip_buf.payload.length = s1.ip_buf.payload.length := by
    rw [← hS, f2]
    exact hp
  rw [arp_out_miss_eq S _ ip g1 g2]
  have hc2 : 84 ≤ S.txbuf.payload.length := by
    rw [g3]
    exact hc
  obtain ⟨_, t2, t3⟩ := arp_req_txbuf
    { S with
      trace := S.trace ++ [Event.arp_out (S.get buf_ref.ip_buf).bytes ip],
      arp_buf := map_set S.arp_buf S.now ip (S.get buf_ref.ip_buf) } ip hc2
  rw [← g3]
  refine ⟨t2, ?_, ?_⟩
  · intro i hi
    exact t3 i (Or.inr hi)
  · rw [arp_req_ip_buf]
    exact g4

theorem buf_init_payload (b : buf_t) (n : Nat) : (buf_init b n).payload = b.payload := by
  unfold buf_init
  split <;> rfl

theorem get_with_ip_buf (s : State) (x : buf_t) (buf : buf_ref) (hb : buf ≠ buf_ref.ip_buf) :
    ({ s with ip_buf := x } : State).get buf = s.get buf := by
  cases buf
  · rfl
  · rfl
  · exact absurd rfl hb
  · rfl

/-- One iteration of the loop of `ip_out`, with the state that `ip_fragment_out` receives
described by what matters of it. -/
theorem ip_out_loop_iter (buf : buf_ref) (ip : List Nat) (protocol current_id : Nat)
    (s : State) (remaining_len data_offset fragment_offset : Nat) (hr : 0 < remaining_len)
    (hb : buf ≠ buf_ref.ip_buf)
    (hic : (if remaining_len > 1480 then 1480 else remaining_len) < s.ip_buf.payload.length / 2) :
    ∃ s1 : State, s1.trace = s.trace ∧ s1.txbuf = s.txbuf ∧ s1.arp_table = s.arp_table ∧
      s1.arp_buf = s.arp_buf ∧ s1.now = s.now ∧ s1.packet_id = s.packet_id ∧
      s1.ip_buf.payload.length = s.ip_buf.payload.length ∧
      (s1.get buf_ref.ip_buf).bytes =
        bytes_from (s.get buf).payload ((s.get buf).data + data_offset)
          (if remaining_len > 1480 then 1480 else remaining_len) ∧
      ip_out_loop buf ip protocol current_id s remaining_len data_offset fragment_offset =
        ip_out_loop buf ip protocol current_id
          (ip_fragment_out s1 buf_ref.ip_buf ip protocol current_id fragment_offset
            (if remaining_len > 1480 then 1 else 0))
          ((remaining_len + 65536 - (if remaining_len > 1480 then 1480 else remaining_len))
            % 65536)
          ((data_offset + (if remaining_len > 1480 then 1480 else remaining_len)) % 65536)
          ((fragment_offset + (if remaining_len > 1480 then 1480 else remaining_len) / 8)
            % 65536) := by
  refine ⟨_, ?_, ?_, ?_, ?_, ?_, ?_, ?_, ?_,
    ip_out_loop_step buf ip protocol current_id s remaining_len data_offset fragment_offset hr⟩
  · rfl
  · rfl
  · rfl
  · rfl
  · rfl
  · rfl
  · simp only [length_memcpy, buf_init_payload]
  · rw [get_with_ip_buf _ _ _ hb]
    exact ip_buf_chunk s.ip_buf _ _ hic (length_bytes_from _ _ _)

theorem ip_out_loop_txbuf_miss (s : State) (ip : List Nat) (protocol current_id : Nat)
    (h1 : map_get s.arp_table s.now ip = none) (h2 : map_get s.arp_buf s.now ip = none)
    (hc : 84 ≤ s.txbuf.payload.length) (hic : 2962 ≤ s.ip_buf.payload.length) :
    fragment_calls (ip_out_loop buf_ref.txbuf ip protocol current_id s 1481 0 0).trace =
      fragment_calls s.trace ++
      [Event.ip_fragment_out (bytes_from s.txbuf.payload s.txbuf.data 1480) ip protocol
        current_id 0 1,
       Event.ip_fragment_out
        (bytes_from s.txbuf.payload (s.txbuf.payload.length / 2 - 42 + 1480) 1) ip protocol
        current_id 185 0] := by
  -- first iteration
  obtain ⟨s1, a1, a2, a3, a4, a5, _, a7, a8, a9⟩ := ip_out_loop_iter buf_ref.txbuf ip protocol
    current_id s 1481 0 0 (by decide) (by decide) (by simp only [gt_iff_lt]; norm_num; omega)
  rw [a9]
  have n1 : (if 1481 > 1480 then 1480 else 1481) = 1480 := by decide
  have n2 : (if 1481 > 1480 then 1 else 0) = 1 := by decide
  simp only [n1, n2] at a8 ⊢
  obtain ⟨b1, b2, b3⟩ := ip_fragment_out_miss s1 ip protocol current_id 0 1
    (by rw [a3, a5]; exact h1) (by rw [a4, a5]; exact h2) (by rw [a2]; exact hc)
  have c1 := fragment_calls_ip_fragment_out s1 buf_ref.ip_buf ip protocol current_id 0 1
  rw [a8, a1] at c1
  generalize ip_fragment_out s1 buf_ref.ip_buf ip protocol current_id 0 1 = sA at b1 b2 b3 c1 ⊢
  -- second iteration
  have m1 : (1481 + 65536 - 1480) % 65536 = 1 := by decide
  have m2 : (0 + 1480) % 65536 = 1480 := by decide
  have m3 : (0 + 1480 / 8) % 65536 = 185 := by decide
  rw [m1, m2, m3]
  obtain ⟨s2, d1, d2, _, _, _, _, _, d8, d9⟩ := ip_out_loop_iter buf_ref.txbuf ip protocol
    current_id sA 1 1480 185 (by decide) (by decide)
    (by rw [b3, a7]; simp only [gt_iff_lt]; norm_num; omega)
  rw [d9]
  have n3 : (if 1 > 1480 then 1480 else 1) = 1 := by decide
  have n4 : (if 1 > 1480 then 1 else 0) = 0 := by decide
  simp only [n3, n4] at d8 ⊢
  have m4 : (1 + 65536 - 1) % 65536 = 0 := by decide
  rw [m4, ip_out_loop_done]
  have c2 := fragment_calls_ip_fragment_out s2 buf_ref.ip_buf ip protocol current_id 185 0
  rw [d8, d1, c1] at c2
  rw [c2]
  have e1 : (s.get buf_ref.txbuf).data + 0 = s.txbuf.data := rfl
  have e2 : bytes_from (sA.get buf_ref.txbuf).payload ((sA.get buf_ref.txbuf).data + 1480) 1 =
      bytes_from s.txbuf.payload (s.txbuf.payload.length / 2 - 42 + 1480) 1 := by
    show bytes_from sA.txbuf.payload (sA.txbuf.data + 1480) 1 = _
    rw [b1, a2]
    apply bytes_from_ext
    intro i _
    rw [b2 _ (by rw [a2]; omega), a2]
  rw [e1, e2]
  simp
  rfl

/-- What `ip_out` does when its buffer is the transmit scratch buffer, the datagram has
1481 bytes and the destination is in neither ARP table: the second fragment is read at
offset 1480 from the data start that `arp_req` has given `txbuf` in the meantime. -/
theorem ip_out_txbuf_miss_fragment_calls (s : State) (ip : List Nat) (protocol : Nat)
    (h1 : map_get s.arp_table s.now ip = none) (h2 : map_get s.arp_buf s.now ip = none)
    (hL : s.txbuf.len = 1481) (hc : 84 ≤ s.txbuf.payload.length)
    (hic : 2962 ≤ s.ip_buf.payload.length) :
    fragment_calls (ip_out s buf_ref.txbuf ip protocol).trace = fragment_calls s.trace ++
      [Event.ip_fragment_out (bytes_from s.txbuf.payload s.txbuf.data 1480) ip protocol
        s.packet_id 0 1,
       Event.ip_fragment_out
        (bytes_from s.txbuf.payload (s.txbuf.payload.length / 2 - 42 + 1480) 1) ip protocol
        s.packet_id 185 0] := by
  have key := ip_out_loop_txbuf_miss
    { s with
      trace := s.trace ++ [Event.ip_out (s.get buf_ref.txbuf).bytes ip protocol],
      packet_id := s.packet_id + 1 } ip protocol s.packet_id h1 h2 hc hic
  have hlen : ¬ (s.txbuf.len ≤ 1500 - 20) := by omega
  have hmod : s.txbuf.len % 65536 = 1481 := by
    rw [hL]
  have heq : ip_out s buf_ref.txbuf ip protocol =
      ip_out_loop buf_ref.txbuf ip protocol s.packet_id
        { s with
          trace := s.trace ++ [Event.ip_out (s.get buf_ref.txbuf).bytes ip protocol],
          packet_id := s.packet_id + 1 } 1481 0 0 := by
    unfold ip_out
    simp only [State.log, State.get]
    rw [if_neg hlen, hmod]
  rw [heq, key]
  simp [fragment_calls_append, fragment_calls]

/-- C9 (the code at the failing input). In `alias_state` the transmit scratch buffer
holds a 1481-byte datagram whose bytes are all `0x01`, and 10.0.0.4 is in neither ARP
table.  `ip_out(&txbuf, 10.0.0.4, UDP)` calls `ip_fragment_out` twice; the second call
should carry payload byte 1480, which is `0x01`, and carries `0x00`: by then `arp_req` has
reinitialised `txbuf`, and `buf->data + 1480` points elsewhere in the storage. -/
theorem ip_out_second_fragment_clobbered :
    bytes_from alias_state.txbuf.payload (alias_state.txbuf.data + 1480) 1 = [1] ∧
    fragment_calls (ip_out alias_state buf_ref.txbuf [10, 0, 0, 4] NET_PROTOCOL_UDP).trace =
      [Event.ip_fragment_out (List.replicate 1480 1) [10, 0, 0, 4] NET_PROTOCOL_UDP 0 0 1,
       Event.ip_fragment_out [0] [10, 0, 0, 4] NET_PROTOCOL_UDP 0 185 0] := by
  have htx : alias_state.txbuf =
      ⟨1481, 19, List.replicate 19 0 ++ (List.replicate 1481 1 ++ List.replicate 1500 0)⟩ := rfl
  have hib : alias_state.ip_buf = ⟨0, 1500, List.replicate 3000 0⟩ := rfl
  have hlen : alias_state.txbuf.payload.length = 3000 := by
    rw [htx]
    simp only [List.length_append, List.length_replicate]
  have hcell : ∀ i, 1500 ≤ i → alias_state.txbuf.payload.getD i 0 = 0 := by
    intro i hi
    rw [htx]
    simp only
    rw [List.getD_eq_getElem?_getD,
      List.getElem?_append_right (by simp only [List.length_replicate]; omega),
      List.getElem?_append_right (by simp only [List.length_replicate]; omega)]
    simp only [List.length_replicate, List.getElem?_replicate]
    split <;> rfl
  have hpay : ∀ i, 19 ≤ i → i < 1500 → alias_state.txbuf.payload.getD i 0 = 1 := by
    intro i h1 h2
    rw [htx]
    simp only
    rw [List.getD_eq_getElem?_getD,
      List.getElem?_append_right (by simp only [List.length_replicate]; omega),
      List.getElem?_append_left (by simp only [List.length_replicate]; omega)]
    simp only [List.length_replicate, List.getElem?_replicate]
    rw [if_pos (by omega)]
    rfl
  have hd : alias_state.txbuf.data = 19 := by rw [htx]
  constructor
  · apply List.ext_getElem
    · rw [length_bytes_from]
      rfl
    · intro i h1 h2
      simp only [bytes_from, List.getElem_map, List.getElem_range, List.getElem_singleton]
      rw [hd]
      rw [length_bytes_from] at h1
      exact hpay _ (by omega) (by omega)
  · have key := ip_out_txbuf_miss_fragment_calls alias_state [10, 0, 0, 4] NET_PROTOCOL_UDP
      (by decide) (by decide) (by rw [htx]) (by rw [hlen]; decide)
      (by rw [hib]; simp only [List.length_replicate]; decide)
    rw [key, hlen, hd]
    have t0 : fragment_calls alias_state.trace = [] := rfl
    have p0 : alias_state.packet_id = 0 := rfl
    rw [t0, p0]
    have c1 : bytes_from alias_state.txbuf.payload 19 1480 = List.replicate 1480 1 := by
      apply List.ext_getElem
      · rw [length_bytes_from, List.length_replicate]
      · intro i h1 h2
        simp only [bytes_from, List.getElem_map, List.getElem_range, List.getElem_replicate]
        rw [length_bytes_from] at h1
        exact hpay _ (by omega) (by omega)
    have c2 : bytes_from alias_state.txbuf.payload (3000 / 2 - 42 + 1480) 1 = [0] := by
      apply List.ext_getElem
      · rw [length_bytes_from]
        rfl
      · intro i h1 h2
        simp only [bytes_from, List.getElem_map, List.getElem_range, List.getElem_singleton]
        exact hcell _ (by omega)
    rw [c1, c2]
    rfl

/-! ## ip_out with a buffer of the caller -/

theorem buf_add_padding_payload_length (b : buf_t) (n : Nat) :
    (buf_add_padding b n).payload.length = b.payload.length := by
  unfold buf_add_padding
  split
  · rfl
  · exact length_memset0 _ _ _

theorem ethernet_out_buf_payload_length (s : State) (b : buf_t) (mac : List Nat)
    (protocol : Nat) :
    (ethernet_out_buf s b mac protocol).2.payload.length = b.payload.length := by
  unfold ethernet_out_buf
  simp only [length_store16, length_memcpy, buf_add_header_payload]
  split
  · exact buf_add_padding_payload_length _ _
  · rfl

theorem arp_out_frame (S : State) (ip : List Nat) :
    (arp_out S buf_ref.ip_buf ip).user_buf = S.user_buf ∧
    (arp_out S buf_ref.ip_buf ip).rxbuf = S.rxbuf ∧
    (arp_out S buf_ref.ip_buf ip).ip_buf.payload.length = S.ip_buf.payload.length ∧
    (arp_out S buf_ref.ip_buf ip).packet_id = S.packet_id := by
  cases h1 : map_get S.arp_table S.now ip with
  | some mac =>
    rw [arp_out_hit_eq S _ ip mac h1]
    unfold ethernet_out
    simp only [ethernet_out_buf_state]
    refine ⟨rfl, rfl, ?_, rfl⟩
    exact ethernet_out_buf_payload_length _ _ _ _
  | none =>
    cases h2 : map_get S.arp_buf S.now ip with
    | some p =>
      rw [arp_out_pending_eq S _ ip p h1 h2]
      exact ⟨rfl, rfl, rfl, rfl⟩
    | none =>
      rw [arp_out_miss_eq S _ ip h1 h2, arp_req_eq]
      exact ⟨rfl, rfl, rfl, rfl⟩

theorem ip_fragment_out_frame (s1 : State) (ip : List Nat) (protocol id offset mf : Nat) :
    (ip_fragment_out s1 buf_ref.ip_buf ip protocol id offset mf).user_buf = s1.user_buf ∧
    (ip_fragment_out s1 buf_ref.ip_buf ip protocol id offset mf).rxbuf = s1.rxbuf ∧
    (ip_fragment_out s1 buf_ref.ip_buf ip protocol id offset mf).ip_buf.payload.length
      = s1.ip_buf.payload.length ∧
    (ip_fragment_out s1 buf_ref.ip_buf ip protocol id offset mf).packet_id = s1.packet_id := by
  obtain ⟨p, hp, he⟩ := ip_fragment_out_eq s1 buf_ref.ip_buf ip protocol id offset mf
  rw [he]
  obtain ⟨a1, a2, a3, a4⟩ := arp_out_frame
    ((s1.log (Event.ip_fragment_out (s1.get buf_ref.ip_buf).bytes ip protocol id offset mf)).set
      buf_ref.ip_buf ⟨(buf_add_header (s1.get buf_ref.ip_buf) 20).len,
        (buf_add_header (s1.get buf_ref.ip_buf) 20).data, p⟩) ip
  rw [a1, a2, a3, a4]
  exact ⟨rfl, rfl, hp, rfl⟩

theorem get_caller_buf (s t : State) (buf : buf_ref)
    (hb : buf = buf_ref.user ∨ buf = buf_ref.rxbuf)
    (hu : t.user_buf = s.user_buf) (hr : t.rxbuf = s.rxbuf) : t.get buf = s.get buf := by
  rcases hb with h | h
  · subst h
    exact hu
  · subst h
    exact hr

theorem ip_out_loop_iter_caller (buf : buf_ref) (ip : List Nat) (protocol current_id : Nat)
    (s : State) (remaining_len data_offset fragment_offset : Nat) (hr : 0 < remaining_len)
    (hb : buf = buf_ref.user ∨ buf = buf_ref.rxbuf)
    (hic : (if remaining_len > 1480 then 1480 else remaining_len) < s.ip_buf.payload.length / 2) :
    ∃ s1 : State, s1.trace = s.trace ∧ s1.user_buf = s.user_buf ∧ s1.rxbuf = s.rxbuf ∧
      s1.ip_buf.payload.length = s.ip_buf.payload.length ∧
      (s1.get buf_ref.ip_buf).bytes =
        bytes_from (s.get buf).payload ((s.get buf).data + data_offset)
          (if remaining_len > 1480 then 1480 else remaining_len) ∧
      ip_out_loop buf ip protocol current_id s remaining_len data_offset fragment_offset =
        ip_out_loop buf ip protocol current_id
          (ip_fragment_out s1 buf_ref.ip_buf ip protocol current_id fragment_offset
            (if remaining_len > 1480 then 1 else 0))
          ((remaining_len + 65536 - (if remaining_len > 1480 then 1480 else remaining_len))
            % 65536)
          ((data_offset + (if remaining_len > 1480 then 1480 else remaining_len)) % 65536)
          ((fragment_offset + (if remaining_len > 1480 then 1480 else remaining_len) / 8)
            % 65536) := by
  have hne : buf ≠ buf_ref.ip_buf := by
    rcases hb with h | h <;> rw [h] <;> decide
  refine ⟨_, ?_, ?_, ?_, ?_, ?_,
    ip_out_loop_step buf ip protocol current_id s remaining_len data_offset fragment_offset hr⟩
  · rfl
  · rfl
  · rfl
  · simp only [length_memcpy, buf_init_payload]
  · rw [get_with_ip_buf _ _ _ hne]
    exact ip_buf_chunk s.ip_buf _ _ hic (length_bytes_from _ _ _)

/-- The calls of `ip_fragment_out` made by the loop of `ip_out` when the buffer belongs
to the caller (not the transmit scratch buffer): consecutive chunks of at most 1480
bytes, offsets advancing by 185, the more-fragments flag on all but the last. -/
theorem ip_out_loop_plan (buf : buf_ref) (hb : buf = buf_ref.user ∨ buf = buf_ref.rxbuf)
    (ip : List Nat) (protocol current_id : Nat) :
    ∀ (r : Nat) (s : State) (d f : Nat), d + r ≤ 65535 → f + r ≤ 65535 →
      2962 ≤ s.ip_buf.payload.length →
      fragment_calls (ip_out_loop buf ip protocol current_id s r d f).trace =
        fragment_calls s.trace ++
          (List.range ((r + 1479) / 1480)).map (fun k =>
            Event.ip_fragment_out
              (bytes_from (s.get buf).payload ((s.get buf).data + d + 1480 * k)
                (min 1480 (r - 1480 * k)))
              ip protocol current_id (f + 185 * k) (if 1480 * (k + 1) < r then 1 else 0)) := by
  intro r
  induction r using Nat.strong_induction_on with
  | _ r ih =>
    intro s d f hd hf hic
    by_cases hr : r = 0
    · subst hr
      rw [ip_out_loop_done]
      simp
    obtain ⟨s1, a1, a2, a3, a4, a5, a6⟩ := ip_out_loop_iter_caller buf ip protocol current_id
      s r d f (by omega) hb (by split <;> omega)
    rw [a6]
    obtain ⟨b1, b2, b3, _⟩ := ip_fragment_out_frame s1 ip protocol current_id f
      (if r > 1480 then 1 else 0)
    have c1 := fragment_calls_ip_fragment_out s1 buf_ref.ip_buf ip protocol current_id f
      (if r > 1480 then 1 else 0)
    rw [a5, a1] at c1
    generalize ip_fragment_out s1 buf_ref.ip_buf ip protocol current_id f
      (if r > 1480 then 1 else 0) = sA at b1 b2 b3 c1 ⊢
    have hget : sA.get buf = s.get buf :=
      get_caller_buf s sA buf hb (b1.trans a2) (b2.trans a3)
    by_cases hbig : r > 1480
    · simp only [hbig, if_true] at c1 ⊢
      have m1 : (r + 65536 - 1480) % 65536 = r - 1480 := by omega
      have m2 : (d + 1480) % 65536 = d + 1480 := by omega
      have m3 : (f + 1480 / 8) % 65536 = f + 185 := by omega
      obtain ⟨n, hn1, hn2⟩ : ∃ n, (r + 1479) / 1480 = n + 1 ∧ (r - 1480 + 1479) / 1480 = n :=
        ⟨(r - 1480 + 1479) / 1480, by omega, rfl⟩
      have ihr := ih (r - 1480) (by omega) sA (d + 1480) (f + 185) (by omega) (by omega)
        (by rw [b3, a4]; exact hic)
      rw [hn2] at ihr
      rw [m1, m2, m3, ihr, c1, hget, hn1, List.range_succ_eq_map, List.map_cons, List.map_map,
        List.append_assoc, List.singleton_append]
      have e1 : min 1480 r = 1480 := by omega
      have e2 : (if 1480 < r then 1 else 0) = 1 := by
        rw [if_pos (by omega)]
      simp only [Nat.mul_zero, Nat.add_zero, Nat.sub_zero, Nat.zero_add, Nat.mul_one, e1, e2]
      refine congrArg (fun x => fragment_calls s.trace ++
        (Event.ip_fragment_out (bytes_from (s.get buf).payload ((s.get buf).data + d) 1480)
          ip protocol current_id f 1 :: x)) ?_
      apply List.map_congr_left
      intro k _
      simp only [Function.comp, Nat.succ_eq_add_one]
      have e3 : (s.get buf).data + (d + 1480) + 1480 * k
          = (s.get buf).data + d + 1480 * (k + 1) := by ring
      have e4 : r - 1480 - 1480 * k = r - 1480 * (k + 1) := by omega
      have e5 : f + 185 + 185 * k = f + 185 * (k + 1) := by ring
      have e6 : (1480 * (k + 1) < r - 1480) = (1480 * (k + 1 + 1) < r) := by
        apply propext
        constructor <;> intro h <;> omega
      rw [e3, e4, e5]
      simp only [e6]
    · simp only [hbig, if_false] at c1 ⊢
      have m1 : (r + 65536 - r) % 65536 = 0 := by omega
      rw [m1, ip_out_loop_done, c1]
      have hn : (r + 1479) / 1480 = 1 := by omega
      have r1 : List.range 1 = [0] := rfl
      rw [hn, r1]
      simp only [List.map_cons, List.map_nil, Nat.mul_zero, Nat.add_zero, Nat.sub_zero]
      have e1 : min 1480 r = r := by omega
      have e2 : (if 1480 < r then 1 else 0) = 0 := by
        rw [if_neg (by omega)]
      simp only [Nat.zero_add, Nat.mul_one, e1, e2]

theorem bytes_from_len_zero (m : List Nat) (o : Nat) : bytes_from m o 0 = [] := rfl

theorem chunks_join (P : List Nat) :
    ∀ (n D L : Nat), L ≤ 1480 * n →
      ((List.range n).map
        (fun k => bytes_from P (D + 1480 * k) (min 1480 (L - 1480 * k)))).flatten
        = bytes_from P D L := by
  intro n
  induction n with
  | zero =>
    intro D L hL
    have h0 : L = 0 := by omega
    subst h0
    rfl
  | succ n ih =>
    intro D L hL
    rw [List.range_succ_eq_map, List.map_cons, List.map_map, List.flatten_cons]
    have hrest : List.map ((fun k => bytes_from P (D + 1480 * k) (min 1480 (L - 1480 * k)))
        ∘ Nat.succ) (List.range n) =
        List.map (fun k => bytes_from P (D + 1480 + 1480 * k)
          (min 1480 (L - 1480 - 1480 * k))) (List.range n) := by
      apply List.map_congr_left
      intro k _
      simp only [Function.comp, Nat.succ_eq_add_one]
      have e3 : D + 1480 * (k + 1) = D + 1480 + 1480 * k := by ring
      have e4 : L - 1480 * (k + 1) = L - 1480 - 1480 * k := by omega
      rw [e3, e4]
    rw [hrest, ih (D + 1480) (L - 1480) (by omega)]
    simp only [Nat.mul_zero, Nat.add_zero, Nat.sub_zero]
    by_cases hbig : 1480 ≤ L
    · have e1 : min 1480 L = 1480 := by omega
      have e2 : L = 1480 + (L - 1480) := by omega
      rw [e1]
      conv_rhs => rw [e2]
      rw [bytes_from_append]
    · have e1 : min 1480 L = L := by omega
      have e2 : L - 1480 = 0 := by omega
      rw [e1, e2, bytes_from_len_zero, List.append_nil]

/-- The fragmentation plan of `ip_out` for a buffer of the caller (not the transmit
scratch buffer) of at most 65535 bytes: `max 1 (ceil (L / 1480))` calls of
`ip_fragment_out`, in order, call `k` with payload bytes `[1480 k, min (1480 (k+1)) L)`,
offset `185 k`, the more-fragments flag exactly on all but the last, all with the same
identifier; the payloads concatenated give the payload back. -/
theorem ip_out_fragment_plan (s : State) (buf : buf_ref)
    (hb : buf = buf_ref.user ∨ buf = buf_ref.rxbuf) (ip : List Nat) (protocol : Nat)
    (hL : (s.get buf).len ≤ 65535) (hic : 2962 ≤ s.ip_buf.payload.length) :
    fragment_calls (ip_out s buf ip protocol).trace = fragment_calls s.trace ++
      (List.range (max 1 (((s.get buf).len + 1479) / 1480))).map (fun k =>
        Event.ip_fragment_out
          (bytes_from (s.get buf).payload ((s.get buf).data + 1480 * k)
            (min 1480 ((s.get buf).len - 1480 * k)))
          ip protocol s.packet_id (185 * k)
          (if 1480 * (k + 1) < (s.get buf).len then 1 else 0)) ∧
    ((List.range (max 1 (((s.get buf).len + 1479) / 1480))).map (fun k =>
        bytes_from (s.get buf).payload ((s.get buf).data + 1480 * k)
          (min 1480 ((s.get buf).len - 1480 * k)))).flatten = (s.get buf).bytes := by
  constructor
  · have hget : ({ s.log (Event.ip_out (s.get buf).bytes ip protocol) with
        packet_id := s.packet_id + 1 } : State).get buf = s.get buf := by
      rcases hb with h | h <;> subst h <;> rfl
    unfold ip_out
    simp only [get_log]
    by_cases hsmall : (s.get buf).len ≤ 1500 - 20
    · have hs' : ({ s.log (Event.ip_out (s.get buf).bytes ip protocol) with
          packet_id := (s.log (Event.ip_out (s.get buf).bytes ip protocol)).packet_id + 1 }
          : State).get buf = s.get buf := hget
      rw [hs', if_pos hsmall, fragment_calls_ip_fragment_out, hs']
      have hn : max 1 (((s.get buf).len + 1479) / 1480) = 1 := by omega
      have r1 : List.range 1 = [0] := rfl
      rw [hn, r1]
      simp only [List.map_cons, List.map_nil, Nat.mul_zero, Nat.add_zero, Nat.sub_zero,
        Nat.zero_add, Nat.mul_one]
      have e1 : min 1480 (s.get buf).len = (s.get buf).len := by omega
      have e2 : (if 1480 < (s.get buf).len then 1 else 0) = 0 := by
        rw [if_neg (by omega)]
      rw [e1, e2]
      simp [State.log, fragment_calls_append, fragment_calls, buf_t.bytes]
    · have hs' : ({ s.log (Event.ip_out (s.get buf).bytes ip protocol) with
          packet_id := (s.log (Event.ip_out (s.get buf).bytes ip protocol)).packet_id + 1 }
          : State).get buf = s.get buf := hget
      rw [hs', if_neg hsmall, Nat.mod_eq_of_lt (by omega : (s.get buf).len < 65536)]
      have key := ip_out_loop_plan buf hb ip protocol
        (s.log (Event.ip_out (s.get buf).bytes ip protocol)).packet_id (s.get buf).len
        { s.log (Event.ip_out (s.get buf).bytes ip protocol) with
          packet_id := (s.log (Event.ip_out (s.get buf).bytes ip protocol)).packet_id + 1 }
        0 0 (by omega) (by omega) hic
      rw [key, hs']
      have hn : max 1 (((s.get buf).len + 1479) / 1480) = ((s.get buf).len + 1479) / 1480 := by
        omega
      rw [hn]
      simp [State.log, fragment_calls_append, fragment_calls]
  · have h := chunks_join (s.get buf).payload (max 1 (((s.get buf).len + 1479) / 1480))
      (s.get buf).data (s.get buf).len (by omega)
    exact h

/-! ## arp_in: drops -/

/-- C14. Invalid ARP packets are silently dropped: when the received buffer is shorter
than 28 bytes, or its hardware type is not Ethernet (1), or its protocol type is not IPv4
(0x0800), or its hardware length is not 6, or its protocol length is not 4, or its opcode
is neither request (1) nor reply (2), `arp_in` returns the state it was given: the address
table and the pending table are unchanged and no frame is transmitted. -/
theorem arp_in_drops_invalid (s : State) (buf : buf_ref) (src_mac : List Nat)
    (h : (s.get buf).len < 28 ∨
      swap16 (load16 (s.get buf).payload (s.get buf).data) ≠ 1 ∨
      swap16 (load16 (s.get buf).payload ((s.get buf).data + 2)) ≠ 0x0800 ∨
      byte_at (s.get buf).payload ((s.get buf).data + 4) ≠ 6 ∨
      byte_at (s.get buf).payload ((s.get buf).data + 5) ≠ 4 ∨
      (swap16 (load16 (s.get buf).payload ((s.get buf).data + 6)) ≠ 1 ∧
        swap16 (load16 (s.get buf).payload ((s.get buf).data + 6)) ≠ 2)) :
    arp_in s buf src_mac = s ∧
    (arp_in s buf src_mac).arp_table = s.arp_table ∧
    (arp_in s buf src_mac).arp_buf = s.arp_buf ∧
    frames (arp_in s buf src_mac).trace = frames s.trace := by
  have key : arp_in s buf src_mac = s := by
    unfold arp_in
    simp only []
    split
    · rfl
    rename_i c1
    split
    · rfl
    rename_i c2
    split
    · rfl
    rename_i c3
    split
    · rfl
    rename_i c4
    split
    · rfl
    rename_i c5
    split
    · rfl
    rename_i c6
    exfalso
    rcases h with h | h | h | h | h | h
    · exact c1 h
    · exact c2 h
    · exact c3 h
    · exact c4 h
    · exact c5 h
    · exact c6 h
  rw [key]
  exact ⟨rfl, rfl, rfl, rfl⟩

/-- Witness of C14: the empty receive buffer of the example state is shorter than an ARP
packet. -/
theorem arp_in_drops_invalid_witness :
    (example_state.get buf_ref.rxbuf).len < 28 ∧
    arp_in example_state buf_ref.rxbuf [] = example_state ∧
    (arp_in example_state buf_ref.rxbuf []).arp_table = example_state.arp_table ∧
    (arp_in example_state buf_ref.rxbuf []).arp_buf = example_state.arp_buf ∧
    frames (arp_in example_state buf_ref.rxbuf []).trace = frames example_state.trace :=
  ⟨by decide, arp_in_drops_invalid example_state buf_ref.rxbuf [] (Or.inl (by decide))⟩

/-! ## The checksum reads bytes only -/

theorem byte_at_drop (m : List Nat) (d k : Nat) : byte_at (m.drop d) k = byte_at m (d + k) := by
  unfold byte_at
  rw [List.getD_eq_getElem?_getD, List.getD_eq_getElem?_getD, List.getElem?_drop]

theorem byte_at_bytes_from (m : List Nat) (o n k : Nat) (hk : k < n) :
    byte_at (bytes_from m o n) k = byte_at m (o + k) := by
  unfold byte_at
  rw [getD_bytes_from _ _ _ _ hk]

theorem checksum16_congr (a b : List Nat) (len : Nat)
    (h : ∀ k, k < len → byte_at a k = byte_at b k) : checksum16 a len = checksum16 b len := by
  have hw : ∀ n, 2 * n ≤ len →
      (List.range n).foldl (fun sum i => (sum + read16 a i) % 2 ^ 32) 0 =
      (List.range n).foldl (fun sum i => (sum + read16 b i) % 2 ^ 32) 0 := by
    intro n
    induction n with
    | zero => intro _; rfl
    | succ n ih =>
      intro hn
      rw [List.range_succ, List.foldl_append, List.foldl_append, ih (by omega)]
      simp only [List.foldl_cons, List.foldl_nil]
      unfold read16
      rw [h (2 * n) (by omega), h (2 * n + 1) (by omega)]
  unfold checksum16
  simp only []
  rw [hw (len / 2) (by omega)]
  by_cases hodd : len % 2 = 1
  · rw [if_pos hodd, if_pos hodd, h (len - 1) (by omega)]
  · rw [if_neg hodd, if_neg hodd]

theorem checksum16_drop (m : List Nat) (d len : Nat) :
    checksum16 (m.drop d) len = checksum16 (bytes_from m d len) len := by
  apply checksum16_congr
  intro k hk
  rw [byte_at_drop, byte_at_bytes_from _ _ _ _ hk]

theorem bytes_from_four (m : List Nat) (o : Nat) :
    bytes_from m o 4 = [m.getD o 0, m.getD (o + 1) 0, m.getD (o + 2) 0, m.getD (o + 3) 0] := by
  simp [bytes_from, List.range, List.range.loop]

theorem bytes_from_one (m : List Nat) (o : Nat) : bytes_from m o 1 = [m.getD o 0] := by
  simp [bytes_from, List.range, List.range.loop]

/-! ## transport_checksum: the value -/

theorem peso_bytes (P : List Nat) (o L : Nat) (src dst : List Nat) (proto v : Nat)
    (hcap : o + 12 + L ≤ P.length) :
    bytes_from (store16 (store8 (store8 (memcpy (memcpy P o src 4) (o + 4) dst 4) (o + 9) proto)
      (o + 8) 0) (o + 10) (swap16 v)) o (12 + L) =
    bytes_from src 0 4 ++ bytes_from dst 0 4 ++ [0, proto % 256, v / 256 % 256, v % 256]
      ++ bytes_from P (o + 12) L := by
  have l1 := length_memcpy P o src 4
  have l2 := length_memcpy (memcpy P o src 4) (o + 4) dst 4
  have l3 := length_store8 (memcpy (memcpy P o src 4) (o + 4) dst 4) (o + 9) proto
  have l4 := length_store8 (store8 (memcpy (memcpy P o src 4) (o + 4) dst 4) (o + 9) proto)
    (o + 8) 0
  have e : 12 + L = 4 + (4 + (4 + L)) := by omega
  rw [e, bytes_from_append, bytes_from_append, bytes_from_append]
  have s1 : bytes_from (store16 (store8 (store8 (memcpy (memcpy P o src 4) (o + 4) dst 4)
      (o + 9) proto) (o + 8) 0) (o + 10) (swap16 v)) o 4 = bytes_from src 0 4 := by
    apply bytes_from_ext
    intro i hi
    rw [getD_store16 _ _ _ _ (by omega) (by omega), getD_store8 _ _ _ _ (by omega),
      getD_store8 _ _ _ _ (by omega), getD_memcpy_out _ _ _ _ _ (by omega),
      getD_memcpy_in _ _ _ _ _ (by omega) hi, Nat.zero_add]
  have s2 : bytes_from (store16 (store8 (store8 (memcpy (memcpy P o src 4) (o + 4) dst 4)
      (o + 9) proto) (o + 8) 0) (o + 10) (swap16 v)) (o + 4) 4 = bytes_from dst 0 4 := by
    apply bytes_from_ext
    intro i hi
    rw [getD_store16 _ _ _ _ (by omega) (by omega), getD_store8 _ _ _ _ (by omega),
      getD_store8 _ _ _ _ (by omega), getD_memcpy_in _ _ _ _ _ (by omega) hi, Nat.zero_add]
  have s3 : bytes_from (store16 (store8 (store8 (memcpy (memcpy P o src 4) (o + 4) dst 4)
      (o + 9) proto) (o + 8) 0) (o + 10) (swap16 v)) (o + 4 + 4) 4 =
      [0, proto % 256, v / 256 % 256, v % 256] := by
    rw [bytes_from_four]
    have a0 : o + 4 + 4 = o + 8 := by omega
    have a1 : o + 4 + 4 + 1 = o + 9 := by omega
    have a2 : o + 4 + 4 + 2 = o + 10 := by omega
    have a3 : o + 4 + 4 + 3 = o + 10 + 1 := by omega
    rw [a0, a1, a2, a3, getD_store16_lo _ _ _ (by omega), getD_store16_hi _ _ _ (by omega),
      getD_store16 _ _ _ _ (by omega) (by omega), getD_store16 _ _ _ _ (by omega) (by omega),
      getD_store8_at _ _ _ (by omega), getD_store8 _ _ _ _ (by omega),
      getD_store8_at _ _ _ (by omega), swap16_lo, swap16_hi]
  have s4 : bytes_from (store16 (store8 (store8 (memcpy (memcpy P o src 4) (o + 4) dst 4)
      (o + 9) proto) (o + 8) 0) (o + 10) (swap16 v)) (o + 4 + 4 + 4) L =
      bytes_from P (o + 12) L := by
    apply bytes_from_ext
    intro i hi
    have a : o + 4 + 4 + 4 + i = o + 12 + i := by omega
    rw [a]
    exact peso_frame P o src dst proto (swap16 v) (o + 12 + i) (by omega)
  rw [s1, s2, s3, s4]
  simp

theorem transport_checksum_eq (protocol : Nat) (buf : buf_t) (src_ip dst_ip : List Nat)
    (hn : buf.len + 12 ≤ 65535) (hroom : 20 ≤ buf.data)
    (hpad : buf.data + buf.len + 1 ≤ buf.payload.length) :
    (transport_checksum protocol buf src_ip dst_ip).1 =
      checksum16 (bytes_from src_ip 0 4 ++ bytes_from dst_ip 0 4 ++
          [0, protocol % 256, buf.len / 256 % 256, buf.len % 256] ++ buf.bytes ++
          (if buf.len % 2 = 1 then [0] else []))
        (12 + buf.len + buf.len % 2) := by
  obtain ⟨L, d, P⟩ := buf
  simp only [buf_t.bytes] at hn hroom hpad ⊢
  have hah : buf_add_header ⟨L, d, P⟩ 12 = ⟨L + 12, d - 12, P⟩ := by
    simp [buf_add_header]
    omega
  have hu : (L + 12 + 2 ^ 64 - 12) % 2 ^ 64 % 65536 = L := by omega
  unfold transport_checksum
  simp only [hah, hu]
  have hln := peso_length P (d - 12) src_ip dst_ip protocol (swap16 L)
  have hby := peso_bytes P (d - 12) L src_ip dst_ip protocol L (by omega)
  have ed : d - 12 + 12 = d := by omega
  rw [ed] at hby
  generalize store16 (store8 (store8 (memcpy (memcpy P (d - 12) src_ip 4) (d - 12 + 4)
    dst_ip 4) (d - 12 + 9) protocol) (d - 12 + 8) 0) (d - 12 + 10) (swap16 L) = p5
    at hln hby ⊢
  by_cases hpar : (L + 12) % 2 = 0
  · have hL : L % 2 = 0 := by omega
    have hL1 : ¬ L % 2 = 1 := by omega
    simp only [hpar, if_true]
    rw [checksum16_drop, Nat.add_comm L 12, hby, hL, if_neg (by decide), List.append_nil,
      Nat.add_zero]
  · have hL : L % 2 = 1 := by omega
    simp only [hpar, if_false]
    have hap : buf_add_padding ⟨L + 12, d - 12, p5⟩ 1 =
        ⟨L + 13, d - 12, memset0 p5 (d - 12 + (L + 12)) 1⟩ := by
      simp [buf_add_padding, hln]
      omega
    rw [hap]
    simp only []
    rw [checksum16_drop, hL, if_pos rfl]
    have e : L + 13 = (12 + L) + 1 := by omega
    rw [e, bytes_from_append]
    have s1 : bytes_from (memset0 p5 (d - 12 + (L + 12)) 1) (d - 12) (12 + L) =
        bytes_from p5 (d - 12) (12 + L) := by
      apply bytes_from_ext
      intro i hi
      exact getD_memset0_out _ _ _ _ (by omega)
    have s2 : bytes_from (memset0 p5 (d - 12 + (L + 12)) 1) (d - 12 + (12 + L)) 1 = [0] := by
      rw [bytes_from_one]
      rw [getD_memset0_in _ _ _ _ (by omega)]
    rw [s1, s2, hby]

/-- C17. The value of `transport_checksum`: for a segment of `n` bytes with
`n + 12 ≤ 65535` in a buffer with 20 bytes of room before it and room for one padding
byte after it, the call returns `checksum16` of the byte sequence source address (4),
destination address (4), a zero byte, the protocol byte, `n` as a big-endian 16-bit
number, then the segment, extended by one zero byte when `n` is odd.  The returned value
therefore does not depend on what the header region held before the call: any other
buffer with the same segment bytes gives the same value. -/
theorem transport_checksum_value (protocol : Nat) (buf : buf_t) (src_ip dst_ip : List Nat)
    (hn : buf.len + 12 ≤ 65535) (hroom : 20 ≤ buf.data)
    (hpad : buf.data + buf.len + 1 ≤ buf.payload.length) :
    (transport_checksum protocol buf src_ip dst_ip).1 =
      checksum16 (bytes_from src_ip 0 4 ++ bytes_from dst_ip 0 4 ++
          [0, protocol % 256, buf.len / 256 % 256, buf.len % 256] ++ buf.bytes ++
          (if buf.len % 2 = 1 then [0] else []))
        (12 + buf.len + buf.len % 2) ∧
    ∀ other : buf_t, other.len = buf.len → other.bytes = buf.bytes → 20 ≤ other.data →
      other.data + other.len + 1 ≤ other.payload.length →
      (transport_checksum protocol other src_ip dst_ip).1 =
        (transport_checksum protocol buf src_ip dst_ip).1 := by
  refine ⟨transport_checksum_eq protocol buf src_ip dst_ip hn hroom hpad, ?_⟩
  intro other h1 h2 h3 h4
  rw [transport_checksum_eq protocol buf src_ip dst_ip hn hroom hpad,
    transport_checksum_eq protocol other src_ip dst_ip (by omega) h3 h4, h1, h2]

/-- Witness of C17: an odd-length (3-byte) segment behind a 20-byte header region. -/
theorem transport_checksum_value_witness :
    (buf_t.mk 3 20 (List.range 24)).len + 12 ≤ 65535 ∧
    20 ≤ (buf_t.mk 3 20 (List.range 24)).data ∧
    (transport_checksum 17 (buf_t.mk 3 20 (List.range 24)) [10, 0, 0, 1] [10, 0, 0, 2]).1 =
      checksum16 (bytes_from [10, 0, 0, 1] 0 4 ++ bytes_from [10, 0, 0, 2] 0 4 ++
          [0, 17 % 256, 3 / 256 % 256, 3 % 256] ++ (buf_t.mk 3 20 (List.range 24)).bytes ++
          (if 3 % 2 = 1 then [0] else []))
        (12 + 3 + 3 % 2) :=
  ⟨by decide, by decide,
    (transport_checksum_value 17 (buf_t.mk 3 20 (List.range 24)) [10, 0, 0, 1] [10, 0, 0, 2]
      (by decide) (by decide) (by decide)).1⟩

/-! ## ip_fragment_out: the header -/

theorem ip_hdr_mem_getD (P : List Nat) (h v0 v1 L I F T pr : Nat) (src dst : List Nat)
    (hcap : h + 20 ≤ P.length) :
    let Q := store16 (memcpy (memcpy (store8 (store8 (store16 (store16 (store16 (store8 (store8
        (store8 P h v0) h v1) (h + 1) 0) (h + 2) (swap16 L)) (h + 4) (swap16 I)) (h + 6) (swap16
        F)) (h + 8) T) (h + 9) pr) (h + 12) src 4) (h + 16) dst 4) (h + 10) 0
    Q.length = P.length ∧ (∀ i, i < h ∨ h + 20 ≤ i → Q.getD i 0 = P.getD i 0) ∧
    Q.getD h 0 = v1 % 256 ∧
    Q.getD (h + 1) 0 = 0 ∧
    Q.getD (h + 2) 0 = L / 256 % 256 ∧
    Q.getD (h + 3) 0 = L % 256 ∧
    Q.getD (h + 4) 0 = I / 256 % 256 ∧
    Q.getD (h + 5) 0 = I % 256 ∧
    Q.getD (h + 6) 0 = F / 256 % 256 ∧
    Q.getD (h + 7) 0 = F % 256 ∧
    Q.getD (h + 8) 0 = T % 256 ∧
    Q.getD (h + 9) 0 = pr % 256 ∧
    Q.getD (h + 10) 0 = 0 ∧
    Q.getD (h + 11) 0 = 0 ∧
    Q.getD (h + 12) 0 = src.getD 0 0 ∧
    Q.getD (h + 13) 0 = src.getD 1 0 ∧
    Q.getD (h + 14) 0 = src.getD 2 0 ∧
    Q.getD (h + 15) 0 = src.getD 3 0 ∧
    Q.getD (h + 16) 0 = dst.getD 0 0 ∧
    Q.getD (h + 17) 0 = dst.getD 1 0 ∧
    Q.getD (h + 18) 0 = dst.getD 2 0 ∧
    Q.getD (h + 19) 0 = dst.getD 3 0 := by
  intro Q
  refine ⟨?_, ?_, ?_, ?_, ?_, ?_, ?_, ?_, ?_, ?_, ?_, ?_, ?_, ?_, ?_, ?_, ?_, ?_, ?_, ?_, ?_, ?_⟩
  · simp only [Q, length_store16, length_store8, length_memcpy]
  · intro i hi
    simp only [Q]
    rw [getD_store16 _ _ _ _ (by omega) (by omega),
      getD_memcpy_out _ _ _ _ _ (by omega),
      getD_memcpy_out _ _ _ _ _ (by omega),
      getD_store8 _ _ _ _ (by omega),
      getD_store8 _ _ _ _ (by omega),
      getD_store16 _ _ _ _ (by omega) (by omega),
      getD_store16 _ _ _ _ (by omega) (by omega),
      getD_store16 _ _ _ _ (by omega) (by omega),
      getD_store8 _ _ _ _ (by omega),
      getD_store8 _ _ _ _ (by omega),
      getD_store8 _ _ _ _ (by omega)]
  · simp only [Q]
    rw [getD_store16 _ _ _ _ (by omega) (by omega),
      getD_memcpy_out _ _ _ _ _ (by omega),
      getD_memcpy_out _ _ _ _ _ (by omega),
      getD_store8 _ _ _ _ (by omega),
      getD_store8 _ _ _ _ (by omega),
      getD_store16 _ _ _ _ (by omega) (by omega),
      getD_store16 _ _ _ _ (by omega) (by omega),
      getD_store16 _ _ _ _ (by omega) (by omega),
      getD_store8 _ _ _ _ (by omega),
      getD_store8_at _ _ _
        (by first | omega | (simp only [length_store16, length_store8, length_memcpy]; omega))]
  · simp only [Q]
    rw [getD_store16 _ _ _ _ (by omega) (by omega),
      getD_memcpy_out _ _ _ _ _ (by omega),
      getD_memcpy_out _ _ _ _ _ (by omega),
      getD_store8 _ _ _ _ (by omega),
      getD_store8 _ _ _ _ (by omega),
      getD_store16 _ _ _ _ (by omega) (by omega),
      getD_store16 _ _ _ _ (by omega) (by omega),
      getD_store16 _ _ _ _ (by omega) (by omega),
      getD_store8_at _ _ _
        (by first | omega | (simp only [length_store16, length_store8, length_memcpy]; omega))]
  · simp only [Q]
    rw [getD_store16 _ _ _ _ (by omega) (by omega),
      getD_memcpy_out _ _ _ _ _ (by omega),
      getD_memcpy_out _ _ _ _ _ (by omega),
      getD_store8 _ _ _ _ (by omega),
      getD_store8 _ _ _ _ (by omega),
      getD_store16 _ _ _ _ (by omega) (by omega),
      getD_store16 _ _ _ _ (by omega) (by omega),
      getD_store16_lo _ _ _
        (by first | omega | (simp only [length_store16, length_store8, length_memcpy]; omega)),
      swap16_lo]
  · simp only [Q]
    rw [show h + 3 = h + 2 + 1 from rfl]
    rw [getD_store16 _ _ _ _ (by omega) (by omega),
      getD_memcpy_out _ _ _ _ _ (by omega),
      getD_memcpy_out _ _ _ _ _ (by omega),
      getD_store8 _ _ _ _ (by omega),
      getD_store8 _ _ _ _ (by omega),
      getD_store16 _ _ _ _ (by omega) (by omega),
      getD_store16 _ _ _ _ (by omega) (by omega),
      getD_store16_hi _ _ _
        (by first | omega | (simp only [length_store16, length_store8, length_memcpy]; omega)),
      swap16_hi]
  · simp only [Q]
    rw [getD_store16 _ _ _ _ (by omega) (by omega),
      getD_memcpy_out _ _ _ _ _ (by omega),
      getD_memcpy_out _ _ _ _ _ (by omega),
      getD_store8 _ _ _ _ (by omega),
      getD_store8 _ _ _ _ (by omega),
      getD_store16 _ _ _ _ (by omega) (by omega),
      getD_store16_lo _ _ _
        (by first | omega | (simp only [length_store16, length_store8, length_memcpy]; omega)),
      swap16_lo]
  · simp only [Q]
    rw [show h + 5 = h + 4 + 1 from rfl]
    rw [getD_store16 _ _ _ _ (by omega) (by omega),
      getD_memcpy_out _ _ _ _ _ (by omega),
      getD_memcpy_out _ _ _ _ _ (by omega),
      getD_store8 _ _ _ _ (by omega),
      getD_store8 _ _ _ _ (by omega),
      getD_store16 _ _ _ _ (by omega) (by omega),
      getD_store16_hi _ _ _
        (by first | omega | (simp only [length_store16, length_store8, length_memcpy]; omega)),
      swap16_hi]
  · simp only [Q]
    rw [getD_store16 _ _ _ _ (by omega) (by omega),
      getD_memcpy_out _ _ _ _ _ (by omega),
      getD_memcpy_out _ _ _ _ _ (by omega),
      getD_store8 _ _ _ _ (by omega),
      getD_store8 _ _ _ _ (by omega),
      getD_store16_lo _ _ _
        (by first | omega | (simp only [length_store16, length_store8, length_memcpy]; omega)),
      swap16_lo]
  · simp only [Q]
    rw [show h + 7 = h + 6 + 1 from rfl]
    rw [getD_store16 _ _ _ _ (by omega) (by omega),
      getD_memcpy_out _ _ _ _ _ (by omega),
      getD_memcpy_out _ _ _ _ _ (by omega),
      getD_store8 _ _ _ _ (by omega),
      getD_store8 _ _ _ _ (by omega),
      getD_store16_hi _ _ _
        (by first | omega | (simp only [length_store16, length_store8, length_memcpy]; omega)),
      swap16_hi]
  · simp only [Q]
    rw [getD_store16 _ _ _ _ (by omega) (by omega),
      getD_memcpy_out _ _ _ _ _ (by omega),
      getD_memcpy_out _ _ _ _ _ (by omega),
      getD_store8 _ _ _ _ (by omega),
      getD_store8_at _ _ _
        (by first | omega | (simp only [length_store16, length_store8, length_memcpy]; omega))]
  · simp only [Q]
    rw [getD_store16 _ _ _ _ (by omega) (by omega),
      getD_memcpy_out _ _ _ _ _ (by omega),
      getD_memcpy_out _ _ _ _ _ (by omega),
      getD_store8_at _ _ _
        (by first | omega | (simp only [length_store16, length_store8, length_memcpy]; omega))]
  · simp only [Q]
    rw [getD_store16_lo _ _ _
      (by first | omega | (simp only [length_store16, length_store8, length_memcpy]; omega))]
  · simp only [Q]
    rw [show h + 11 = h + 10 + 1 from rfl]
    rw [getD_store16_hi _ _ _
      (by first | omega | (simp only [length_store16, length_store8, length_memcpy]; omega))]
  · simp only [Q]
    rw [show h + 12 = h + 12 + 0 from rfl]
    rw [getD_store16 _ _ _ _ (by omega) (by omega),
      getD_memcpy_out _ _ _ _ _ (by omega),
      getD_memcpy_in _ _ _ _ _
        (by first | omega | (simp only [length_store16, length_store8, length_memcpy]; omega)) (by omega)]
  · simp only [Q]
    rw [show h + 13 = h + 12 + 1 from rfl]
    rw [getD_store16 _ _ _ _ (by omega) (by omega),
      getD_memcpy_out _ _ _ _ _ (by omega),
      getD_memcpy_in _ _ _ _ _
        (by first | omega | (simp only [length_store16, length_store8, length_memcpy]; omega)) (by omega)]
  · simp only [Q]
    rw [show h + 14 = h + 12 + 2 from rfl]
    rw [getD_store16 _ _ _ _ (by omega) (by omega),
      getD_memcpy_out _ _ _ _ _ (by omega),
      getD_memcpy_in _ _ _ _ _
        (by first | omega | (simp only [length_store16, length_store8, length_memcpy]; omega)) (by omega)]
  · simp only [Q]
    rw [show h + 15 = h + 12 + 3 from rfl]
    rw [getD_store16 _ _ _ _ (by omega) (by omega),
      getD_memcpy_out _ _ _ _ _ (by omega),
      getD_memcpy_in _ _ _ _ _
        (by first | omega | (simp only [length_store16, length_store8, length_memcpy]; omega)) (by omega)]
  · simp only [Q]
    rw [show h + 16 = h + 16 + 0 from rfl]
    rw [getD_store16 _ _ _ _ (by omega) (by omega),
      getD_memcpy_in _ _ _ _ _
        (by first | omega | (simp only [length_store16, length_store8, length_memcpy]; omega)) (by omega)]
  · simp only [Q]
    rw [show h + 17 = h + 16 + 1 from rfl]
    rw [getD_store16 _ _ _ _ (by omega) (by omega),
      getD_memcpy_in _ _ _ _ _
        (by first | omega | (simp only [length_store16, length_store8, length_memcpy]; omega)) (by omega)]
  · simp only [Q]
    rw [show h + 18 = h + 16 + 2 from rfl]
    rw [getD_store16 _ _ _ _ (by omega) (by omega),
      getD_memcpy_in _ _ _ _ _
        (by first | omega | (simp only [length_store16, length_store8, length_memcpy]; omega)) (by omega)]
  · simp only [Q]
    rw [show h + 19 = h + 16 + 3 from rfl]
    rw [getD_store16 _ _ _ _ (by omega) (by omega),
      getD_memcpy_in _ _ _ _ _
        (by first | omega | (simp only [length_store16, length_store8, length_memcpy]; omega)) (by omega)]

theorem ip_fragment_out_unfold (s : State) (buf : buf_ref) (ip : List Nat)
    (protocol id offset mf : Nat) :
    ip_fragment_out s buf ip protocol id offset mf =
      arp_out ((s.log (Event.ip_fragment_out (s.get buf).bytes ip protocol id offset mf)).set buf
        ⟨(buf_add_header (s.get buf) 20).len, (buf_add_header (s.get buf) 20).data,
          (store16 (store16 (memcpy (memcpy (store8 (store8 (store16 (store16 (store16 (store8
            (store8 (store8 (buf_add_header (s.get buf) 20).payload (buf_add_header (s.get buf)
            20).data (byte_at (buf_add_header (s.get buf) 20).payload (buf_add_header (s.get
            buf) 20).data % 16 + 16 * (IP_VERSION_4 % 16))) (buf_add_header (s.get buf) 20).data
            (byte_at (store8 (buf_add_header (s.get buf) 20).payload (buf_add_header (s.get buf)
            20).data (byte_at (buf_add_header (s.get buf) 20).payload (buf_add_header (s.get
            buf) 20).data % 16 + 16 * (IP_VERSION_4 % 16))) (buf_add_header (s.get buf) 20).data
            / 16 * 16 + (20 / 4) % 16)) ((buf_add_header (s.get buf) 20).data + 1) 0)
            ((buf_add_header (s.get buf) 20).data + 2) (swap16 (buf_add_header (s.get buf)
            20).len)) ((buf_add_header (s.get buf) 20).data + 4) (swap16 id)) ((buf_add_header
            (s.get buf) 20).data + 6) (swap16 (if mf ≠ 0 then (offset % 65536) |||
            IP_MORE_FRAGMENT else offset % 65536))) ((buf_add_header (s.get buf) 20).data + 8)
            IP_DEFALUT_TTL) ((buf_add_header (s.get buf) 20).data + 9) protocol)
            ((buf_add_header (s.get buf) 20).data + 12) s.net_if_ip 4) ((buf_add_header (s.get
            buf) 20).data + 16) ip 4) ((buf_add_header (s.get buf) 20).data + 10) 0)
            ((buf_add_header (s.get buf) 20).data + 10) (checksum16 ((store16 (memcpy (memcpy
            (store8 (store8 (store16 (store16 (store16 (store8 (store8 (store8 (buf_add_header
            (s.get buf) 20).payload (buf_add_header (s.get buf) 20).data (byte_at
            (buf_add_header (s.get buf) 20).payload (buf_add_header (s.get buf) 20).data % 16 +
            16 * (IP_VERSION_4 % 16))) (buf_add_header (s.get buf) 20).data (byte_at (store8
            (buf_add_header (s.get buf) 20).payload (buf_add_header (s.get buf) 20).data
            (byte_at (buf_add_header (s.get buf) 20).payload (buf_add_header (s.get buf)
            20).data % 16 + 16 * (IP_VERSION_4 % 16))) (buf_add_header (s.get buf) 20).data / 16
            * 16 + (20 / 4) % 16)) ((buf_add_header (s.get buf) 20).data + 1) 0)
            ((buf_add_header (s.get buf) 20).data + 2) (swap16 (buf_add_header (s.get buf)
            20).len)) ((buf_add_header (s.get buf) 20).data + 4) (swap16 id)) ((buf_add_header
            (s.get buf) 20).data + 6) (swap16 (if mf ≠ 0 then (offset % 65536) |||
            IP_MORE_FRAGMENT else offset % 65536))) ((buf_add_header (s.get buf) 20).data + 8)
            IP_DEFALUT_TTL) ((buf_add_header (s.get buf) 20).data + 9) protocol)
            ((buf_add_header (s.get buf) 20).data + 12) s.net_if_ip 4) ((buf_add_header (s.get
            buf) 20).data + 16) ip 4) ((buf_add_header (s.get buf) 20).data + 10) 0).drop
            (buf_add_header (s.get buf) 20).data) 20))⟩) buf ip := by
  cases buf <;> rfl

theorem bytes_from_twenty (m : List Nat) (o : Nat) :
    bytes_from m o 20 = [m.getD o 0, m.getD (o + 1) 0, m.getD (o + 2) 0, m.getD (o + 3) 0,
      m.getD (o + 4) 0, m.getD (o + 5) 0, m.getD (o + 6) 0, m.getD (o + 7) 0,
      m.getD (o + 8) 0, m.getD (o + 9) 0, m.getD (o + 10) 0, m.getD (o + 11) 0,
      m.getD (o + 12) 0, m.getD (o + 13) 0, m.getD (o + 14) 0, m.getD (o + 15) 0,
      m.getD (o + 16) 0, m.getD (o + 17) 0, m.getD (o + 18) 0, m.getD (o + 19) 0] := by
  simp [bytes_from, List.range, List.range.loop]

theorem or_more_fragment (x : Nat) (h : x < 8192) : x ||| 8192 = x + 8192 := by
  apply Nat.eq_of_testBit_eq
  intro j
  rw [Nat.testBit_or, show (8192 : Nat) = 2 ^ 13 from rfl, Nat.add_comm x (2 ^ 13),
    Nat.testBit_two_pow]
  rcases Nat.lt_trichotomy j 13 with hj | hj | hj
  · rw [Nat.testBit_two_pow_add_gt hj]
    simp
    omega
  · subst hj
    rw [Nat.testBit_two_pow_add_eq, Nat.testBit_lt_two_pow (by simpa using h)]
    simp
  · have h1 : x < 2 ^ j := by
      have : (2 : Nat) ^ 13 ≤ 2 ^ j := Nat.pow_le_pow_right (by decide) (by omega)
      simp at this
      omega
    have h2 : 2 ^ 13 + x < 2 ^ j := by
      have : (2 : Nat) ^ 14 ≤ 2 ^ j := Nat.pow_le_pow_right (by decide) (by omega)
      simp at this ⊢
      omega
    rw [Nat.testBit_lt_two_pow h1, Nat.testBit_lt_two_pow h2]
    simp
    omega

theorem list_len4 (l : List Nat) (h : l.length = 4) : ∃ a b c d, l = [a, b, c, d] := by
  match l, h with
  | [a, b, c, d], _ => exact ⟨a, b, c, d, rfl⟩

theorem ip_header_wire_checksum (T I F t p : Nat) (src dst : List Nat)
    (hs : src.length = 4) (hd : dst.length = 4) :
    checksum16 (ip_header_wire T I F t p src dst) 20 = 0 := by
  obtain ⟨a, b, c, d, rfl⟩ := list_len4 src hs
  obtain ⟨e, f, g, h, rfl⟩ := list_len4 dst hd
  have key := checksum16_verifies (ip_header_spec T I F t p [0, 0] [a, b, c, d] [e, f, g, h])
    20 5 (by decide) (by decide) (by simp [ip_header_spec])
  have e0 : store16 (ip_header_spec T I F t p [0, 0] [a, b, c, d] [e, f, g, h]) (2 * 5) 0 =
      ip_header_spec T I F t p [0, 0] [a, b, c, d] [e, f, g, h] := by
    simp [ip_header_spec, store16]
  rw [e0] at key
  have e1 : ∀ c0, store16 (ip_header_spec T I F t p [0, 0] [a, b, c, d] [e, f, g, h]) (2 * 5) c0 =
      ip_header_spec T I F t p [c0 % 256, c0 / 256 % 256] [a, b, c, d] [e, f, g, h] := by
    intro c0
    simp [ip_header_spec, store16]
  rw [e1] at key
  exact key

theorem ip_hdr_mem_bytes (P : List Nat) (h v0 v1 L I F T pr : Nat) (src dst : List Nat)
    (hcap : h + 20 ≤ P.length) (hv1 : v1 % 256 = 0x45) :
    let Q := store16 (memcpy (memcpy (store8 (store8 (store16 (store16 (store16 (store8 (store8
        (store8 P h v0) h v1) (h + 1) 0) (h + 2) (swap16 L)) (h + 4) (swap16 I)) (h + 6) (swap16
        F)) (h + 8) T) (h + 9) pr) (h + 12) src 4) (h + 16) dst 4) (h + 10) 0
    bytes_from (store16 Q (h + 10) (checksum16 (Q.drop h) 20)) h 20 =
      ip_header_wire L I F T pr (bytes_from src 0 4) (bytes_from dst 0 4) := by
  intro Q
  obtain ⟨hl, hfr, g0, g1, g2, g3, g4, g5, g6, g7, g8, g9, g10, g11, g12, g13, g14, g15, g16,
      g17, g18, g19⟩ :=
    ip_hdr_mem_getD P h v0 v1 L I F T pr src dst hcap
  have hQ : bytes_from Q h 20 =
      ip_header_spec L I F T pr [0, 0] (bytes_from src 0 4) (bytes_from dst 0 4) := by
    rw [bytes_from_twenty]
    simp only [Q]
    rw [g0, g1, g2, g3, g4, g5, g6, g7, g8, g9, g10, g11, g12, g13, g14, g15, g16, g17, g18, g19,
        hv1]
    simp [ip_header_spec, bytes_from_four]
  rw [checksum16_drop, hQ]
  unfold ip_header_wire
  simp only []
  generalize checksum16 (ip_header_spec L I F T pr [0, 0] (bytes_from src 0 4)
    (bytes_from dst 0 4)) 20 = c
  have hl2 : Q.length = P.length := hl
  rw [bytes_from_twenty]
  rw [getD_store16 Q (h + 10) c h (by omega) (by omega),
    getD_store16 Q (h + 10) c (h + 1) (by omega) (by omega),
    getD_store16 Q (h + 10) c (h + 2) (by omega) (by omega),
    getD_store16 Q (h + 10) c (h + 3) (by omega) (by omega),
    getD_store16 Q (h + 10) c (h + 4) (by omega) (by omega),
    getD_store16 Q (h + 10) c (h + 5) (by omega) (by omega),
    getD_store16 Q (h + 10) c (h + 6) (by omega) (by omega),
    getD_store16 Q (h + 10) c (h + 7) (by omega) (by omega),
    getD_store16 Q (h + 10) c (h + 8) (by omega) (by omega),
    getD_store16 Q (h + 10) c (h + 9) (by omega) (by omega),
    getD_store16_lo Q (h + 10) c (by omega),
    show h + 11 = h + 10 + 1 from rfl,
    getD_store16_hi Q (h + 10) c (by omega),
    getD_store16 Q (h + 10) c (h + 12) (by omega) (by omega),
    getD_store16 Q (h + 10) c (h + 13) (by omega) (by omega),
    getD_store16 Q (h + 10) c (h + 14) (by omega) (by omega),
    getD_store16 Q (h + 10) c (h + 15) (by omega) (by omega),
    getD_store16 Q (h + 10) c (h + 16) (by omega) (by omega),
    getD_store16 Q (h + 10) c (h + 17) (by omega) (by omega),
    getD_store16 Q (h + 10) c (h + 18) (by omega) (by omega),
    getD_store16 Q (h + 10) c (h + 19) (by omega) (by omega)]
  simp only [Q]
  rw [g0, g1, g2, g3, g4, g5, g6, g7, g8, g9, g12, g13, g14, g15, g16, g17, g18, g19, hv1]
  simp [ip_header_spec, bytes_from_four]

theorem ip_fragment_out_spec (s : State) (buf : buf_ref) (ip : List Nat)
    (protocol id offset mf : Nat)
    (hoff : offset < 8192) (hroom : 20 ≤ (s.get buf).data)
    (hcap : (s.get buf).data ≤ (s.get buf).payload.length) :
    ∃ p, p.length = (s.get buf).payload.length ∧
      ip_fragment_out s buf ip protocol id offset mf =
        arp_out ((s.log (Event.ip_fragment_out (s.get buf).bytes ip protocol id offset mf)).set
          buf ⟨(s.get buf).len + 20, (s.get buf).data - 20, p⟩) buf ip ∧
      (∀ i, i < (s.get buf).data - 20 ∨ (s.get buf).data ≤ i →
        p.getD i 0 = (s.get buf).payload.getD i 0) ∧
      bytes_from p ((s.get buf).data - 20) 20 =
        ip_header_wire ((s.get buf).len + 20) id (offset + if mf ≠ 0 then 8192 else 0)
          IP_DEFALUT_TTL protocol (bytes_from s.net_if_ip 0 4) (bytes_from ip 0 4) := by
  have hah : buf_add_header (s.get buf) 20 =
      ⟨(s.get buf).len + 20, (s.get buf).data - 20, (s.get buf).payload⟩ := by
    unfold buf_add_header
    rw [if_neg (by omega)]
  have hu := ip_fragment_out_unfold s buf ip protocol id offset mf
  rw [hah] at hu
  simp only [] at hu
  have hF : (if mf ≠ 0 then offset % 65536 ||| IP_MORE_FRAGMENT else offset % 65536) =
      offset + if mf ≠ 0 then 8192 else 0 := by
    rw [Nat.mod_eq_of_lt (by omega : offset < 65536)]
    split
    · exact or_more_fragment offset hoff
    · rfl
  rw [hF] at hu
  have hc : (s.get buf).data - 20 + 20 ≤ (s.get buf).payload.length := by omega
  have hv1 : (byte_at (store8 (s.get buf).payload ((s.get buf).data - 20)
      (byte_at (s.get buf).payload ((s.get buf).data - 20) % 16 + 16 * (IP_VERSION_4 % 16)))
      ((s.get buf).data - 20) / 16 * 16 + 20 / 4 % 16) % 256 = 0x45 := by
    unfold byte_at
    rw [getD_store8_at _ _ _ (by omega)]
    simp only [IP_VERSION_4]
    omega
  obtain ⟨hl, hfr, _⟩ := ip_hdr_mem_getD (s.get buf).payload ((s.get buf).data - 20)
    (byte_at (s.get buf).payload ((s.get buf).data - 20) % 16 + 16 * (IP_VERSION_4 % 16))
    (byte_at (store8 (s.get buf).payload ((s.get buf).data - 20)
      (byte_at (s.get buf).payload ((s.get buf).data - 20) % 16 + 16 * (IP_VERSION_4 % 16)))
      ((s.get buf).data - 20) / 16 * 16 + 20 / 4 % 16)
    ((s.get buf).len + 20) id (offset + if mf ≠ 0 then 8192 else 0) IP_DEFALUT_TTL protocol
    s.net_if_ip ip hc
  have hb := ip_hdr_mem_bytes (s.get buf).payload ((s.get buf).data - 20)
    (byte_at (s.get buf).payload ((s.get buf).data - 20) % 16 + 16 * (IP_VERSION_4 % 16))
    (byte_at (store8 (s.get buf).payload ((s.get buf).data - 20)
      (byte_at (s.get buf).payload ((s.get buf).data - 20) % 16 + 16 * (IP_VERSION_4 % 16)))
      ((s.get buf).data - 20) / 16 * 16 + 20 / 4 % 16)
    ((s.get buf).len + 20) id (offset + if mf ≠ 0 then 8192 else 0) IP_DEFALUT_TTL protocol
    s.net_if_ip ip hc hv1
  refine ⟨_, ?len, hu, ?frame, ?bytes⟩
  case len =>
    rw [length_store16]
    exact hl
  case frame =>
    intro i hi
    rw [getD_store16 _ _ _ _ (by omega) (by omega)]
    exact hfr i (by omega)
  case bytes =>
    exact hb

theorem ip_header_wire_id (T I F t p : Nat) (src dst : List Nat) :
    ip_header_wire T (I % 65536) F t p src dst = ip_header_wire T I F t p src dst := by
  have h1 : I % 65536 / 256 % 256 = I / 256 % 256 := by omega
  have h2 : I % 65536 % 256 = I % 256 := by omega
  unfold ip_header_wire ip_header_spec
  simp only [h1, h2]

/-- C18. `ip_fragment_out` serialises a correct header: for a payload of `n` bytes with
`n + 20 ≤ 65535` in a buffer with 20 bytes of room at the front, an identifier `id`, an
offset below 8192 and a flag `mf`, the buffer handed to `arp_out` is a 20-byte header
followed by the unchanged payload.  The header is the wire header with version 4, header
length 5, TOS 0, total length `n + 20`, identification `id mod 65536`, flags-and-offset
`offset` plus the more-fragments bit `0x2000` exactly when `mf` is set, the default TTL,
the given protocol, the local address as source and the given address as destination;
its checksum field holds `checksum16` over the 20 header bytes with that field zeroed,
and `checksum16` over the finished header returns 0. -/
theorem ip_fragment_out_serialises_header (s : State) (buf : buf_ref) (ip : List Nat)
    (protocol id offset mf : Nat)
    (hn : (s.get buf).len + 20 ≤ 65535) (hoff : offset < 8192)
    (hroom : 20 ≤ (s.get buf).data)
    (hcap : (s.get buf).data + (s.get buf).len ≤ (s.get buf).payload.length) :
    ∃ S, ip_fragment_out s buf ip protocol id offset mf = arp_out S buf ip ∧
      S.trace = s.trace ++
        [Event.ip_fragment_out (s.get buf).bytes ip protocol id offset mf] ∧
      (S.get buf).bytes =
        ip_header_spec ((s.get buf).len + 20) (id % 65536)
          (offset + if mf ≠ 0 then IP_MORE_FRAGMENT else 0) IP_DEFALUT_TTL protocol
          [checksum16 (ip_header_spec ((s.get buf).len + 20) (id % 65536)
              (offset + if mf ≠ 0 then IP_MORE_FRAGMENT else 0) IP_DEFALUT_TTL protocol [0, 0]
              (bytes_from s.net_if_ip 0 4) (bytes_from ip 0 4)) 20 % 256,
            checksum16 (ip_header_spec ((s.get buf).len + 20) (id % 65536)
              (offset + if mf ≠ 0 then IP_MORE_FRAGMENT else 0) IP_DEFALUT_TTL protocol [0, 0]
              (bytes_from s.net_if_ip 0 4) (bytes_from ip 0 4)) 20 / 256 % 256]
          (bytes_from s.net_if_ip 0 4) (bytes_from ip 0 4) ++ (s.get buf).bytes ∧
      checksum16 (S.get buf).bytes 20 = 0 := by
  obtain ⟨p, hp, he, hfr, hb⟩ :=
    ip_fragment_out_spec s buf ip protocol id offset mf hoff hroom (by omega)
  rw [← ip_header_wire_id] at hb
  have hbytes : bytes_from p ((s.get buf).data - 20) ((s.get buf).len + 20) =
      ip_header_wire ((s.get buf).len + 20) (id % 65536) (offset + if mf ≠ 0 then 8192 else 0)
        IP_DEFALUT_TTL protocol (bytes_from s.net_if_ip 0 4) (bytes_from ip 0 4) ++
        (s.get buf).bytes := by
    have hpay : bytes_from p ((s.get buf).data - 20 + 20) (s.get buf).len =
        (s.get buf).bytes := by
      unfold buf_t.bytes
      apply bytes_from_ext
      intro i hi
      rw [show (s.get buf).data - 20 + 20 = (s.get buf).data from by omega]
      exact hfr _ (by omega)
    rw [show (s.get buf).len + 20 = 20 + (s.get buf).len from Nat.add_comm _ _,
      bytes_from_append, hpay, ← show (s.get buf).len + 20 = 20 + (s.get buf).len from
        Nat.add_comm _ _, hb]
  refine ⟨_, he, ?_, ?_, ?_⟩
  · rw [set_trace]
    rfl
  · rw [get_set]
    exact hbytes
  · rw [get_set]
    unfold buf_t.bytes
    simp only []
    have hck := ip_header_wire_checksum ((s.get buf).len + 20) (id % 65536)
      (offset + if mf ≠ 0 then 8192 else 0) IP_DEFALUT_TTL protocol
      (bytes_from s.net_if_ip 0 4) (bytes_from ip 0 4) (length_bytes_from _ _ _)
      (length_bytes_from _ _ _)
    rw [← hck]
    apply checksum16_congr
    intro k hk
    unfold byte_at
    rw [getD_bytes_from _ _ _ _ (by omega), ← hb, getD_bytes_from _ _ _ _ hk]

/-- Witness of C18: the 4-byte buffer of the caller in the example state, sent as a first
fragment (offset 0, more-fragments set) with identifier 7. -/
theorem ip_fragment_out_serialises_header_witness :
    (example_state.get buf_ref.user).len + 20 ≤ 65535 ∧
    20 ≤ (example_state.get buf_ref.user).data ∧
    ∃ S, ip_fragment_out example_state buf_ref.user [10, 0, 0, 2] 17 7 0 1 =
        arp_out S buf_ref.user [10, 0, 0, 2] ∧
      checksum16 (S.get buf_ref.user).bytes 20 = 0 :=
  ⟨by decide, by decide,
    (ip_fragment_out_serialises_header example_state buf_ref.user [10, 0, 0, 2] 17 7 0 1
      (by decide) (by decide) (by decide) (by decide)).elim
      fun S h => ⟨S, h.1, h.2.2.2⟩⟩

/-! ## ip_in: a single flipped header bit -/

theorem xor_bit (b j : Nat) (hb : b < 256) (hj : j < 8) :
    b ^^^ 2 ^ j < 256 ∧ (b ^^^ 2 ^ j = b + 2 ^ j ∨ (b ^^^ 2 ^ j) + 2 ^ j = b) := by
  revert b
  interval_cases j <;> (set_option maxRecDepth 20000 in decide)

theorem wordsum_congr (a b : List Nat) (n : Nat)
    (h : ∀ k, k < 2 * n → byte_at a k = byte_at b k) : wordsum a n = wordsum b n := by
  induction n with
  | zero => rfl
  | succ n ih =>
    rw [wordsum_succ, wordsum_succ, ih (fun k hk => h k (by omega))]
    unfold read16
    rw [h (2 * n) (by omega), h (2 * n + 1) (by omega)]

theorem wordsum_byte_change (a b : List Nat) (n i : Nat) (hi : i < 2 * n)
    (h : ∀ k, k < 2 * n → k ≠ i → byte_at a k = byte_at b k) :
    wordsum a n + (if i % 2 = 0 then 1 else 256) * byte_at b i =
      wordsum b n + (if i % 2 = 0 then 1 else 256) * byte_at a i := by
  induction n with
  | zero => omega
  | succ n ih =>
    rw [wordsum_succ, wordsum_succ]
    by_cases hlt : i < 2 * n
    · have h1 := ih hlt (fun k hk hne => h k (by omega) hne)
      have h2 : read16 a n = read16 b n := by
        unfold read16
        rw [h (2 * n) (by omega) (by omega), h (2 * n + 1) (by omega) (by omega)]
      rw [h2]
      omega
    · have h1 : wordsum a n = wordsum b n :=
        wordsum_congr a b n (fun k hk => h k (by omega) (by omega))
      rw [h1]
      unfold read16
      by_cases he : i = 2 * n
      · subst he
        rw [h (2 * n + 1) (by omega) (by omega), if_pos (by omega)]
        omega
      · have he2 : i = 2 * n + 1 := by omega
        subst he2
        rw [h (2 * n) (by omega) (by omega), if_neg (by omega)]
        omega

theorem fold_differs (s t u : Nat) (hs : s < 2 ^ 31) (ht : t < 2 ^ 31) (hu0 : 0 < u)
    (hu : u < 65535) (h : s = t + u ∨ s + u = t) :
    checksum16_fold s ≠ checksum16_fold t := by
  obtain ⟨a1, a2, _⟩ := checksum16_fold_spec s (by omega)
  obtain ⟨b1, b2, _⟩ := checksum16_fold_spec t (by omega)
  intro he
  rw [he] at a2
  have : s % 65535 = t % 65535 := by rw [← a2, ← b2]
  omega

theorem header_flip_detected (P : List Nat) (d i j : Nat) (hi : i < 20) (hj : j < 8)
    (hcap : d + 20 ≤ P.length)
    (hck : checksum16 ((store16 P (d + 10) 0).drop d) 20 = load16 P (d + 10)) :
    checksum16 ((store16 (P.set (d + i) (byte_at P (d + i) ^^^ 2 ^ j)) (d + 10) 0).drop d) 20 ≠
      load16 (P.set (d + i) (byte_at P (d + i) ^^^ 2 ^ j)) (d + 10) := by
  obtain ⟨x1, x2⟩ := xor_bit (byte_at P (d + i)) j (byte_at_lt _ _) hj
  have hpow : 0 < 2 ^ j ∧ 2 ^ j ≤ 128 := by
    interval_cases j <;> simp
  generalize byte_at P (d + i) ^^^ 2 ^ j = v at x1 x2 ⊢
  generalize 2 ^ j = t at x2 hpow
  have hZ' : ∀ k, k < 20 → byte_at ((store16 (P.set (d + i) v) (d + 10) 0).drop d) k =
      if k = 10 then 0 else if k = 11 then 0 else if k = i then v else byte_at P (d + k) := by
    intro k hk
    rw [byte_at_drop, byte_at_store16 _ _ _ _ (by rw [List.length_set]; omega), byte_at_set]
    by_cases h10 : k = 10
    · subst h10
      simp
    by_cases h11 : k = 11
    · subst h11
      simp
    by_cases hki : k = i
    · subst hki
      rw [if_neg (by omega), if_neg (by omega), if_pos ⟨rfl, by omega⟩, if_neg h10, if_neg h11,
        if_pos rfl, Nat.mod_eq_of_lt x1]
    · rw [if_neg (by omega), if_neg (by omega), if_neg (by omega), if_neg h10, if_neg h11,
        if_neg hki]
  have hZ : ∀ k, k < 20 → byte_at ((store16 P (d + 10) 0).drop d) k =
      if k = 10 then 0 else if k = 11 then 0 else byte_at P (d + k) := by
    intro k hk
    rw [byte_at_drop, byte_at_store16 _ _ _ _ (by omega)]
    by_cases h10 : k = 10
    · subst h10
      simp
    by_cases h11 : k = 11
    · subst h11
      simp
    rw [if_neg (by omega), if_neg (by omega), if_neg h10, if_neg h11]
  have hS : ∀ k, byte_at (P.set (d + i) v) (d + k) = if k = i then v else byte_at P (d + k) := by
    intro k
    rw [byte_at_set]
    by_cases hki : k = i
    · subst hki
      rw [if_pos ⟨rfl, by omega⟩, if_pos rfl, Nat.mod_eq_of_lt x1]
    · rw [if_neg (by omega), if_neg hki]
  have hl : load16 (P.set (d + i) v) (d + 10) =
      (if 10 = i then v else byte_at P (d + 10)) +
        256 * (if 11 = i then v else byte_at P (d + 11)) := by
    unfold load16
    rw [hS 10, show d + 10 + 1 = d + 11 from rfl, hS 11]
  have hl0 : load16 P (d + 10) = byte_at P (d + 10) + 256 * byte_at P (d + 11) := rfl
  have hb10 := byte_at_lt P (d + 10)
  have hb11 := byte_at_lt P (d + 11)
  by_cases hf : i = 10 ∨ i = 11
  · have e : checksum16 ((store16 (P.set (d + i) v) (d + 10) 0).drop d) 20 =
        checksum16 ((store16 P (d + 10) 0).drop d) 20 := by
      apply checksum16_congr
      intro k hk
      rw [hZ' k hk, hZ k hk]
      by_cases h10 : k = 10
      · rw [if_pos h10, if_pos h10]
      by_cases h11 : k = 11
      · rw [if_neg h10, if_neg h10, if_pos h11, if_pos h11]
      rw [if_neg h10, if_neg h10, if_neg h11, if_neg h11, if_neg (by omega)]
    rw [e, hck, hl, hl0]
    rcases hf with hf | hf
    · subst hf
      rw [if_pos rfl, if_neg (by decide)]
      omega
    · subst hf
      rw [if_neg (by decide), if_pos rfl]
      omega
  · have hl2 : load16 (P.set (d + i) v) (d + 10) = load16 P (d + 10) := by
      rw [hl, hl0, if_neg (by omega), if_neg (by omega)]
    rw [hl2, ← hck, checksum16_eq _ 20 (by decide), checksum16_eq _ 20 (by decide)]
    have hr : ∀ A, rawsum A 20 = wordsum A 10 := fun A => rfl
    rw [hr, hr]
    have hch := wordsum_byte_change ((store16 (P.set (d + i) v) (d + 10) 0).drop d)
      ((store16 P (d + 10) 0).drop d) 10 i (by omega) (by
        intro k hk hne
        rw [hZ' k hk, hZ k hk, if_neg hne])
    have n10 : ¬ i = 10 := fun h => hf (Or.inl h)
    have n11 : ¬ i = 11 := fun h => hf (Or.inr h)
    have hA' : byte_at ((store16 (P.set (d + i) v) (d + 10) 0).drop d) i = v := by
      rw [hZ' i hi, if_neg n10, if_neg n11, if_pos rfl]
    have hA : byte_at ((store16 P (d + 10) 0).drop d) i = byte_at P (d + i) := by
      rw [hZ i hi, if_neg n10, if_neg n11]
    rw [hA', hA] at hch
    have w1 := wordsum_le ((store16 (P.set (d + i) v) (d + 10) 0).drop d) 10
    have w2 := wordsum_le ((store16 P (d + 10) 0).drop d) 10
    generalize wordsum ((store16 (P.set (d + i) v) (d + 10) 0).drop d) 10 = s1 at hch w1 ⊢
    generalize wordsum ((store16 P (d + 10) 0).drop d) 10 = s2 at hch w2 ⊢
    have hne : checksum16_fold s1 ≠ checksum16_fold s2 := by
      by_cases hpar : i % 2 = 0
      · rw [if_pos hpar] at hch
        exact fold_differs s1 s2 t (by omega) (by omega) (by omega) (by omega) (by omega)
      · rw [if_neg hpar] at hch
        exact fold_differs s1 s2 (256 * t) (by omega) (by omega) (by omega) (by omega) (by omega)
    have f1 := (checksum16_fold_spec s1 (by omega)).1
    have f2 := (checksum16_fold_spec s2 (by omega)).1
    omega

/-- C11. Single-bit header corruption is detected: take a datagram whose 20 header bytes
lie in the buffer storage and carry a correct header checksum (as every datagram that
`ip_in` accepts does), and flip bit `j` of header byte `i` (one of the 160 header bits,
the checksum field included) without correcting the checksum.  Then `ip_in` drops the
datagram: it records nothing, so there is no upper-layer dispatch, no ICMP response and
no frame. -/
theorem ip_in_detects_bit_flip (s : State) (buf : buf_ref) (src_mac : List Nat) (i j : Nat)
    (hi : i < 20) (hj : j < 8)
    (hcap : (s.get buf).data + 20 ≤ (s.get buf).payload.length)
    (hck : checksum16 ((store16 (s.get buf).payload ((s.get buf).data + 10) 0).drop
        (s.get buf).data) 20 = load16 (s.get buf).payload ((s.get buf).data + 10)) :
    (ip_in (s.set buf ⟨(s.get buf).len, (s.get buf).data,
        (s.get buf).payload.set ((s.get buf).data + i)
          (byte_at (s.get buf).payload ((s.get buf).data + i) ^^^ 2 ^ j)⟩) buf src_mac).trace
      = s.trace ∧
    dispatches (ip_in (s.set buf ⟨(s.get buf).len, (s.get buf).data,
        (s.get buf).payload.set ((s.get buf).data + i)
          (byte_at (s.get buf).payload ((s.get buf).data + i) ^^^ 2 ^ j)⟩) buf src_mac).trace
      = dispatches s.trace ∧
    frames (ip_in (s.set buf ⟨(s.get buf).len, (s.get buf).data,
        (s.get buf).payload.set ((s.get buf).data + i)
          (byte_at (s.get buf).payload ((s.get buf).data + i) ^^^ 2 ^ j)⟩) buf src_mac).trace
      = frames s.trace := by
  have hd := header_flip_detected (s.get buf).payload (s.get buf).data i j hi hj hcap hck
  have h := ip_in_drop (s.set buf ⟨(s.get buf).len, (s.get buf).data,
    (s.get buf).payload.set ((s.get buf).data + i)
      (byte_at (s.get buf).payload ((s.get buf).data + i) ^^^ 2 ^ j)⟩) buf src_mac
    (Or.inr (Or.inr (Or.inr (Or.inl (by
      rw [get_set]
      exact hd)))))
  rw [set_trace] at h
  exact ⟨h.1, h.2.1, h.2.2.1⟩

/-- Witness of C11: in the datagram of `example_ip_state`, the lowest bit of the TTL byte
(header byte 8) is flipped. -/
theorem ip_in_detects_bit_flip_witness :
    (example_ip_state.get buf_ref.rxbuf).data + 20 ≤
      (example_ip_state.get buf_ref.rxbuf).payload.length ∧
    dispatches (ip_in (example_ip_state.set buf_ref.rxbuf
      ⟨(example_ip_state.get buf_ref.rxbuf).len, (example_ip_state.get buf_ref.rxbuf).data,
        (example_ip_state.get buf_ref.rxbuf).payload.set
          ((example_ip_state.get buf_ref.rxbuf).data + 8)
          (byte_at (example_ip_state.get buf_ref.rxbuf).payload
            ((example_ip_state.get buf_ref.rxbuf).data + 8) ^^^ 2 ^ 0)⟩)
      buf_ref.rxbuf []).trace = dispatches example_ip_state.trace :=
  ⟨by decide,
    (ip_in_detects_bit_flip example_ip_state buf_ref.rxbuf [] 8 0 (by decide) (by decide)
      (by decide) (by
        simp [example_ip_state, State.get, checksum16, checksum16_fold, store16, load16,
          byte_at, read16, List.range, List.range.loop, List.replicate])).2.1⟩

/-! ## arp_resp and the requests arp_in answers -/

theorem arp_sends_append (a b : List Event) : arp_sends (a ++ b) = arp_sends a ++ arp_sends b := by
  induction a with
  | nil => rfl
  | cons e t ih =>
    cases e <;> simp [arp_sends, ih]
    split <;> simp

/-- The 28 bytes that `arp_resp` builds, whatever the offset of the packet in `txbuf`. -/
theorem arp_resp_pkt_bytes (s : State) (P : List Nat) (d : Nat) (ip mac : List Nat)
    (hd : d + 28 ≤ P.length) :
    bytes_from (memcpy (memcpy (store16 (memcpy P d (arp_init_pkt s) 28) (d + 6)
      (swap16 ARP_REPLY)) (d + 24) ip NET_IP_LEN) (d + 18) mac NET_MAC_LEN) d 28 =
    [0, 1, 8, 0, 6, 4, 0, 2] ++ (bytes_from s.net_if_mac 0 6 ++ (bytes_from s.net_if_ip 0 4 ++
      (bytes_from mac 0 6 ++ bytes_from ip 0 4))) := by
  have hreloc : bytes_from (memcpy (memcpy (store16 (memcpy P d (arp_init_pkt s) 28) (d + 6)
      (swap16 ARP_REPLY)) (d + 24) ip NET_IP_LEN) (d + 18) mac NET_MAC_LEN) d 28 =
      bytes_from (memcpy (memcpy (store16 (arp_init_pkt s) 6 (swap16 ARP_REPLY)) 24 ip
        NET_IP_LEN) 18 mac NET_MAC_LEN) 0 28 := by
    have hl := length_arp_init_pkt s
    apply bytes_from_ext
    intro i hi
    simp only [NET_IP_LEN, NET_MAC_LEN, Nat.zero_add]
    by_cases h18 : 18 ≤ i ∧ i < 24
    · obtain ⟨j, rfl⟩ : ∃ j, i = 18 + j := ⟨i - 18, by omega⟩
      rw [← Nat.add_assoc,
        getD_memcpy_in _ _ _ _ _ (by simp only [length_memcpy, length_store16]; omega) (by omega),
        getD_memcpy_in _ _ _ _ _ (by simp only [length_memcpy, length_store16, hl]; omega)
          (by omega)]
    rw [getD_memcpy_out _ (d + 18) mac 6 (d + i) (by omega),
      getD_memcpy_out _ 18 mac 6 i (by omega)]
    by_cases h24 : 24 ≤ i
    · obtain ⟨j, rfl⟩ : ∃ j, i = 24 + j := ⟨i - 24, by omega⟩
      rw [← Nat.add_assoc,
        getD_memcpy_in _ _ _ _ _ (by simp only [length_memcpy, length_store16]; omega) (by omega),
        getD_memcpy_in _ _ _ _ _ (by simp only [length_store16, hl]; omega) (by omega)]
    rw [getD_memcpy_out _ (d + 24) ip 4 (d + i) (by omega),
      getD_memcpy_out _ 24 ip 4 i (by omega)]
    by_cases h6 : i = 6
    · subst h6
      rw [getD_store16_lo _ _ _ (by simp only [length_memcpy]; omega),
        getD_store16_lo _ _ _ (by omega)]
    by_cases h7 : i = 7
    · subst h7
      rw [show d + 7 = d + 6 + 1 from rfl,
        getD_store16_hi _ _ _ (by simp only [length_memcpy]; omega),
        show (7 : Nat) = 6 + 1 from rfl, getD_store16_hi _ _ _ (by omega)]
    rw [getD_store16 _ _ _ _ (by omega) (by omega), getD_store16 _ _ _ _ (by omega) (by omega),
      getD_memcpy_in P d (arp_init_pkt s) 28 i (by omega) hi]
  rw [hreloc, arp_init_pkt_eq]
  simp [bytes_from, memcpy, store16, swap16, ARP_REPLY, NET_IP_LEN, NET_MAC_LEN, List.range,
    List.range.loop]

theorem arp_resp_spec (s : State) (ip mac : List Nat) (hcap : 84 ≤ s.txbuf.payload.length) :
    (arp_resp s ip mac).trace = s.trace ++
      [Event.ethernet_out
        ([0, 1, 8, 0, 6, 4, 0, 2] ++ (bytes_from s.net_if_mac 0 6 ++
          (bytes_from s.net_if_ip 0 4 ++ (bytes_from mac 0 6 ++ bytes_from ip 0 4))))
        mac NET_PROTOCOL_ARP,
       Event.driver_send
        (bytes_from mac 0 6 ++ (bytes_from s.net_if_mac 0 6 ++ ([0x08, 0x06] ++
          (([0, 1, 8, 0, 6, 4, 0, 2] ++ (bytes_from s.net_if_mac 0 6 ++
            (bytes_from s.net_if_ip 0 4 ++ (bytes_from mac 0 6 ++ bytes_from ip 0 4))))
            ++ List.replicate 18 0))))] ∧
    (arp_resp s ip mac).arp_table = s.arp_table ∧
    (arp_resp s ip mac).arp_buf = s.arp_buf ∧
    (arp_resp s ip mac).now = s.now := by
  unfold arp_resp
  rw [buf_init_ok _ _ (by omega)]
  simp only
  refine ⟨?_, ?_, ?_, ?_⟩
  · rw [ethernet_out_trace]
    simp only [State.get]
    rw [ethernet_out_buf_frame _ _ _ _ (by simp only; omega)
      (by simp only [length_store16, length_memcpy]; omega)]
    simp only [buf_t.bytes]
    rw [arp_resp_pkt_bytes s _ _ ip mac (by omega)]
    rfl
  · rw [ethernet_out_arp_table]
  · rw [ethernet_out_arp_buf]
  · rw [ethernet_out_now]

theorem arp_in_pending_trace (s : State) (buf : buf_ref) (src_mac : List Nat) (p : buf_t)
    (hlen : 28 ≤ (s.get buf).len)
    (hhw : swap16 (load16 (s.get buf).payload (s.get buf).data) = ARP_HW_ETHER)
    (hpro : swap16 (load16 (s.get buf).payload ((s.get buf).data + 2)) = NET_PROTOCOL_IP)
    (hhl : byte_at (s.get buf).payload ((s.get buf).data + 4) = NET_MAC_LEN)
    (hpl : byte_at (s.get buf).payload ((s.get buf).data + 5) = NET_IP_LEN)
    (hop : swap16 (load16 (s.get buf).payload ((s.get buf).data + 6)) = ARP_REQUEST ∨
      swap16 (load16 (s.get buf).payload ((s.get buf).data + 6)) = ARP_REPLY)
    (hp : map_get s.arp_buf s.now
      (bytes_from (s.get buf).payload ((s.get buf).data + 14) NET_IP_LEN) = some p) :
    (arp_in s buf src_mac).trace = s.trace ++
      [Event.ethernet_out p.bytes
        (bytes_from (s.get buf).payload ((s.get buf).data + 8) NET_MAC_LEN) NET_PROTOCOL_IP,
       Event.driver_send (ethernet_out_buf s p
        (bytes_from (s.get buf).payload ((s.get buf).data + 8) NET_MAC_LEN)
        NET_PROTOCOL_IP).2.bytes] := by
  have hop' : ¬ (swap16 (load16 (s.get buf).payload ((s.get buf).data + 6)) ≠ ARP_REQUEST ∧
      swap16 (load16 (s.get buf).payload ((s.get buf).data + 6)) ≠ ARP_REPLY) := by
    intro h
    rcases hop with h0 | h0
    · exact h.1 h0
    · exact h.2 h0
  unfold arp_in
  simp only [if_neg (Nat.not_lt.mpr hlen), hhw, hpro, hhl, hpl, hop', ne_eq,
    not_true_eq_false, if_false, hp, ethernet_out_buf_state]
  rfl

theorem arp_in_no_pending_eq (s : State) (buf : buf_ref) (src_mac : List Nat)
    (hlen : 28 ≤ (s.get buf).len)
    (hhw : swap16 (load16 (s.get buf).payload (s.get buf).data) = ARP_HW_ETHER)
    (hpro : swap16 (load16 (s.get buf).payload ((s.get buf).data + 2)) = NET_PROTOCOL_IP)
    (hhl : byte_at (s.get buf).payload ((s.get buf).data + 4) = NET_MAC_LEN)
    (hpl : byte_at (s.get buf).payload ((s.get buf).data + 5) = NET_IP_LEN)
    (hop : swap16 (load16 (s.get buf).payload ((s.get buf).data + 6)) = ARP_REQUEST ∨
      swap16 (load16 (s.get buf).payload ((s.get buf).data + 6)) = ARP_REPLY)
    (hp : map_get s.arp_buf s.now
      (bytes_from (s.get buf).payload ((s.get buf).data + 14) NET_IP_LEN) = none) :
    arp_in s buf src_mac =
      if swap16 (load16 (s.get buf).payload ((s.get buf).data + 6)) = ARP_REQUEST ∧
          bytes_from (s.get buf).payload ((s.get buf).data + 24) NET_IP_LEN =
            bytes_from s.net_if_ip 0 NET_IP_LEN then
        arp_resp
          { s with
            arp_table := map_set s.arp_table s.now
              (bytes_from (s.get buf).payload ((s.get buf).data + 14) NET_IP_LEN)
              (bytes_from (s.get buf).payload ((s.get buf).data + 8) NET_MAC_LEN) }
          (bytes_from (s.get buf).payload ((s.get buf).data + 14) NET_IP_LEN)
          (bytes_from (s.get buf).payload ((s.get buf).data + 8) NET_MAC_LEN)
      else
          { s with
            arp_table := map_set s.arp_table s.now
              (bytes_from (s.get buf).payload ((s.get buf).data + 14) NET_IP_LEN)
              (bytes_from (s.get buf).payload ((s.get buf).data + 8) NET_MAC_LEN) } := by
  have hop' : ¬ (swap16 (load16 (s.get buf).payload ((s.get buf).data + 6)) ≠ ARP_REQUEST ∧
      swap16 (load16 (s.get buf).payload ((s.get buf).data + 6)) ≠ ARP_REPLY) := by
    intro h
    rcases hop with h0 | h0
    · exact h.1 h0
    · exact h.2 h0
  unfold arp_in
  simp only [if_neg (Nat.not_lt.mpr hlen), hhw, hpro, hhl, hpl, hop', ne_eq,
    not_true_eq_false, if_false, hp]
  by_cases h1 : swap16 (load16 (s.get buf).payload ((s.get buf).data + 6)) = ARP_REQUEST
  · by_cases h2 : bytes_from (s.get buf).payload ((s.get buf).data + 24) NET_IP_LEN =
        bytes_from s.net_if_ip 0 NET_IP_LEN
    · rw [if_pos h1, if_pos h2, if_pos ⟨h1, h2⟩]
    · rw [if_pos h1, if_neg h2, if_neg (fun h => h2 h.2)]
  · rw [if_neg h1, if_neg (fun h => h1 h.1)]

theorem bytes_from_idem (m : List Nat) (o n : Nat) :
    bytes_from (bytes_from m o n) 0 n = bytes_from m o n := by
  have h := bytes_from_self (bytes_from m o n)
  rw [length_bytes_from] at h
  exact h

/-- C15. `arp_in` answers exactly the requests meant for this host.  For a well-formed
ARP packet (length at least 28, hardware type Ethernet, protocol type IPv4, lengths 6 and
4, opcode request or reply) received in a buffer other than the transmit scratch buffer:
if no pending buffer exists for the sender IP, the opcode is request and the target IP
is the local IP, then `arp_in` makes exactly one call of `ethernet_out`, with the 28-byte
ARP reply (opcode 2, hardware type 1, protocol type 0x0800, lengths 6 and 4, sender =
local MAC/IP, target = the sender MAC/IP of the request), unicast to the sender MAC with
protocol code ARP, and the driver gets that one frame; in every other case `arp_in`
makes no call of `ethernet_out` with protocol code ARP. -/
theorem arp_in_answers_requests (s : State) (buf : buf_ref) (src_mac : List Nat)
    (hbuf : buf ≠ buf_ref.txbuf)
    (hlen : 28 ≤ (s.get buf).len)
    (hhw : swap16 (load16 (s.get buf).payload (s.get buf).data) = ARP_HW_ETHER)
    (hpro : swap16 (load16 (s.get buf).payload ((s.get buf).data + 2)) = NET_PROTOCOL_IP)
    (hhl : byte_at (s.get buf).payload ((s.get buf).data + 4) = NET_MAC_LEN)
    (hpl : byte_at (s.get buf).payload ((s.get buf).data + 5) = NET_IP_LEN)
    (hop : swap16 (load16 (s.get buf).payload ((s.get buf).data + 6)) = ARP_REQUEST ∨
      swap16 (load16 (s.get buf).payload ((s.get buf).data + 6)) = ARP_REPLY)
    (hcap : 84 ≤ s.txbuf.payload.length) :
    ((map_get s.arp_buf s.now
          (bytes_from (s.get buf).payload ((s.get buf).data + 14) NET_IP_LEN) = none ∧
        swap16 (load16 (s.get buf).payload ((s.get buf).data + 6)) = ARP_REQUEST ∧
        bytes_from (s.get buf).payload ((s.get buf).data + 24) NET_IP_LEN =
          bytes_from s.net_if_ip 0 NET_IP_LEN) →
      (arp_in s buf src_mac).trace = s.trace ++
        [Event.ethernet_out
          ([0, 1, 8, 0, 6, 4, 0, 2] ++ (bytes_from s.net_if_mac 0 6 ++
            (bytes_from s.net_if_ip 0 4 ++
              (bytes_from (s.get buf).payload ((s.get buf).data + 8) 6 ++
                bytes_from (s.get buf).payload ((s.get buf).data + 14) 4))))
          (bytes_from (s.get buf).payload ((s.get buf).data + 8) 6) NET_PROTOCOL_ARP,
         Event.driver_send
          (bytes_from (s.get buf).payload ((s.get buf).data + 8) 6 ++
            (bytes_from s.net_if_mac 0 6 ++ ([0x08, 0x06] ++
              (([0, 1, 8, 0, 6, 4, 0, 2] ++ (bytes_from s.net_if_mac 0 6 ++
                (bytes_from s.net_if_ip 0 4 ++
                  (bytes_from (s.get buf).payload ((s.get buf).data + 8) 6 ++
                    bytes_from (s.get buf).payload ((s.get buf).data + 14) 4))))
                ++ List.replicate 18 0))))] ∧
      arp_sends (arp_in s buf src_mac).trace = arp_sends s.trace ++
        [Event.ethernet_out
          ([0, 1, 8, 0, 6, 4, 0, 2] ++ (bytes_from s.net_if_mac 0 6 ++
            (bytes_from s.net_if_ip 0 4 ++
              (bytes_from (s.get buf).payload ((s.get buf).data + 8) 6 ++
                bytes_from (s.get buf).payload ((s.get buf).data + 14) 4))))
          (bytes_from (s.get buf).payload ((s.get buf).data + 8) 6) NET_PROTOCOL_ARP]) ∧
    (¬ (map_get s.arp_buf s.now
          (bytes_from (s.get buf).payload ((s.get buf).data + 14) NET_IP_LEN) = none ∧
        swap16 (load16 (s.get buf).payload ((s.get buf).data + 6)) = ARP_REQUEST ∧
        bytes_from (s.get buf).payload ((s.get buf).data + 24) NET_IP_LEN =
          bytes_from s.net_if_ip 0 NET_IP_LEN) →
      arp_sends (arp_in s buf src_mac).trace = arp_sends s.trace) := by
  constructor
  · rintro ⟨hp, h1, h2⟩
    have ht : (arp_in s buf src_mac).trace = s.trace ++
        [Event.ethernet_out
          ([0, 1, 8, 0, 6, 4, 0, 2] ++ (bytes_from s.net_if_mac 0 6 ++
            (bytes_from s.net_if_ip 0 4 ++
              (bytes_from (s.get buf).payload ((s.get buf).data + 8) 6 ++
                bytes_from (s.get buf).payload ((s.get buf).data + 14) 4))))
          (bytes_from (s.get buf).payload ((s.get buf).data + 8) 6) NET_PROTOCOL_ARP,
         Event.driver_send
          (bytes_from (s.get buf).payload ((s.get buf).data + 8) 6 ++
            (bytes_from s.net_if_mac 0 6 ++ ([0x08, 0x06] ++
              (([0, 1, 8, 0, 6, 4, 0, 2] ++ (bytes_from s.net_if_mac 0 6 ++
                (bytes_from s.net_if_ip 0 4 ++
                  (bytes_from (s.get buf).payload ((s.get buf).data + 8) 6 ++
                    bytes_from (s.get buf).payload ((s.get buf).data + 14) 4))))
                ++ List.replicate 18 0))))] := by
      rw [arp_in_no_pending_eq s buf src_mac hlen hhw hpro hhl hpl hop hp, if_pos ⟨h1, h2⟩]
      have hr := (arp_resp_spec
        { s with
          arp_table := map_set s.arp_table s.now
            (bytes_from (s.get buf).payload ((s.get buf).data + 14) NET_IP_LEN)
            (bytes_from (s.get buf).payload ((s.get buf).data + 8) NET_MAC_LEN) }
        (bytes_from (s.get buf).payload ((s.get buf).data + 14) NET_IP_LEN)
        (bytes_from (s.get buf).payload ((s.get buf).data + 8) NET_MAC_LEN) hcap).1
      simp only [NET_IP_LEN, NET_MAC_LEN, bytes_from_idem] at hr ⊢
      exact hr
    refine ⟨ht, ?_⟩
    rw [ht, arp_sends_append]
    simp [arp_sends]
  · intro hn
    cases hp : map_get s.arp_buf s.now
        (bytes_from (s.get buf).payload ((s.get buf).data + 14) NET_IP_LEN) with
    | some p =>
      rw [arp_in_pending_trace s buf src_mac p hlen hhw hpro hhl hpl hop hp, arp_sends_append]
      simp [arp_sends, NET_PROTOCOL_IP, NET_PROTOCOL_ARP]
    | none =>
      rw [arp_in_no_pending_eq s buf src_mac hlen hhw hpro hhl hpl hop hp,
        if_neg (fun h => hn ⟨hp, h.1, h.2⟩)]

/-- Witness of C15: the ARP request from 10.0.0.4 for the local address in the receive
buffer of the example state; no buffer is pending for 10.0.0.4, so the reply leaves. -/
theorem arp_in_answers_requests_witness :
    28 ≤ (example_arp_request_state.get buf_ref.rxbuf).len ∧
    84 ≤ example_arp_request_state.txbuf.payload.length ∧
    arp_sends (arp_in example_arp_request_state buf_ref.rxbuf []).trace =
      arp_sends example_arp_request_state.trace ++
        [Event.ethernet_out
          ([0, 1, 8, 0, 6, 4, 0, 2] ++ (bytes_from example_arp_request_state.net_if_mac 0 6 ++
            (bytes_from example_arp_request_state.net_if_ip 0 4 ++
              (bytes_from (example_arp_request_state.get buf_ref.rxbuf).payload
                  ((example_arp_request_state.get buf_ref.rxbuf).data + 8) 6 ++
                bytes_from (example_arp_request_state.get buf_ref.rxbuf).payload
                  ((example_arp_request_state.get buf_ref.rxbuf).data + 14) 4))))
          (bytes_from (example_arp_request_state.get buf_ref.rxbuf).payload
            ((example_arp_request_state.get buf_ref.rxbuf).data + 8) 6) NET_PROTOCOL_ARP] :=
  ⟨by decide, by decide,
    ((arp_in_answers_requests example_arp_request_state buf_ref.rxbuf [] (by decide)
      (by decide) (by decide) (by decide) (by decide) (by decide) (by decide) (by decide)).1
      (by decide)).2⟩

/-! ## ip_out: the identifier -/

theorem set_packet_id (s : State) (buf : buf_ref) (b : buf_t) :
    (s.set buf b).packet_id = s.packet_id := by
  cases buf <;> rfl

theorem arp_out_packet_id (S : State) (buf : buf_ref) (ip : List Nat) :
    (arp_out S buf ip).packet_id = S.packet_id := by
  cases h1 : map_get S.arp_table S.now ip with
  | some mac =>
    rw [arp_out_hit_eq S _ ip mac h1]
    unfold ethernet_out
    simp only [ethernet_out_buf_state]
    cases buf <;> rfl
  | none =>
    cases h2 : map_get S.arp_buf S.now ip with
    | some p =>
      rw [arp_out_pending_eq S _ ip p h1 h2]
      rfl
    | none =>
      rw [arp_out_miss_eq S _ ip h1 h2, arp_req_packet_id]

theorem ip_fragment_out_packet_id (s : State) (buf : buf_ref) (ip : List Nat)
    (protocol id offset mf : Nat) :
    (ip_fragment_out s buf ip protocol id offset mf).packet_id = s.packet_id := by
  obtain ⟨p, _, he⟩ := ip_fragment_out_eq s buf ip protocol id offset mf
  rw [he, arp_out_packet_id, set_packet_id]
  rfl

theorem ip_out_loop_lt (r : Nat) (hr : 0 < r) (h : r < 65536) :
    (r + 65536 - (if r > 1480 then 1480 else r)) % 65536 < r := by
  split <;> omega

theorem ip_out_loop_ids (buf : buf_ref) (ip : List Nat) (protocol id : Nat) :
    ∀ (r : Nat) (s : State) (d f : Nat), r < 65536 →
      (ip_out_loop buf ip protocol id s r d f).packet_id = s.packet_id ∧
      ∃ L, fragment_calls (ip_out_loop buf ip protocol id s r d f).trace =
          fragment_calls s.trace ++ L ∧
        ∀ e ∈ L, ∃ b o m, e = Event.ip_fragment_out b ip protocol id o m := by
  intro r
  induction r using Nat.strong_induction_on with
  | _ r ih =>
    intro s d f hr
    by_cases h0 : 0 < r
    · rw [ip_out_loop_step buf ip protocol id s r d f h0]
      have hlt := ip_out_loop_lt r h0 hr
      have key : ∀ (S1 : State) (mf r1 d1 f1 : Nat), S1.packet_id = s.packet_id →
          S1.trace = s.trace → r1 < r →
          (ip_out_loop buf ip protocol id
            (ip_fragment_out S1 buf_ref.ip_buf ip protocol id f mf) r1 d1 f1).packet_id
            = s.packet_id ∧
          ∃ L, fragment_calls (ip_out_loop buf ip protocol id
              (ip_fragment_out S1 buf_ref.ip_buf ip protocol id f mf) r1 d1 f1).trace =
              fragment_calls s.trace ++ L ∧
            ∀ e ∈ L, ∃ b o m, e = Event.ip_fragment_out b ip protocol id o m := by
        intro S1 mf r1 d1 f1 e1 e2 hr1
        obtain ⟨i1, L, i2, i3⟩ := ih r1 hr1
          (ip_fragment_out S1 buf_ref.ip_buf ip protocol id f mf) d1 f1 (by omega)
        rw [ip_fragment_out_packet_id, e1] at i1
        rw [fragment_calls_ip_fragment_out, e2] at i2
        refine ⟨i1, Event.ip_fragment_out (S1.get buf_ref.ip_buf).bytes ip protocol id f mf :: L,
          ?_, ?_⟩
        · rw [i2]
          simp
        · intro e he
          rcases List.mem_cons.mp he with he | he
          · exact ⟨_, _, _, he⟩
          · exact i3 e he
      exact key _ _ _ _ _ rfl rfl hlt
    · have : r = 0 := by omega
      subst this
      rw [ip_out_loop_done]
      exact ⟨rfl, [], by simp, by simp⟩

theorem ip_out_ids (s : State) (buf : buf_ref) (ip : List Nat) (protocol : Nat) :
    (ip_out s buf ip protocol).packet_id = s.packet_id + 1 ∧
    ∃ L, fragment_calls (ip_out s buf ip protocol).trace = fragment_calls s.trace ++ L ∧
      ∀ e ∈ L, ∃ b o m, e = Event.ip_fragment_out b ip protocol s.packet_id o m := by
  have hsingle : ∀ S1 : State, S1.packet_id = s.packet_id + 1 →
      fragment_calls S1.trace = fragment_calls s.trace →
      (ip_fragment_out S1 buf ip protocol s.packet_id 0 0).packet_id = s.packet_id + 1 ∧
      ∃ L, fragment_calls (ip_fragment_out S1 buf ip protocol s.packet_id 0 0).trace =
          fragment_calls s.trace ++ L ∧
        ∀ e ∈ L, ∃ b o m, e = Event.ip_fragment_out b ip protocol s.packet_id o m := by
    intro S1 e1 e2
    refine ⟨by rw [ip_fragment_out_packet_id, e1],
      [Event.ip_fragment_out (S1.get buf).bytes ip protocol s.packet_id 0 0],
      by rw [fragment_calls_ip_fragment_out, e2], ?_⟩
    intro e he
    exact ⟨_, _, _, List.mem_singleton.mp he⟩
  have hloop : ∀ (S1 : State) (r : Nat), S1.packet_id = s.packet_id + 1 →
      fragment_calls S1.trace = fragment_calls s.trace → r < 65536 →
      (ip_out_loop buf ip protocol s.packet_id S1 r 0 0).packet_id = s.packet_id + 1 ∧
      ∃ L, fragment_calls (ip_out_loop buf ip protocol s.packet_id S1 r 0 0).trace =
          fragment_calls s.trace ++ L ∧
        ∀ e ∈ L, ∃ b o m, e = Event.ip_fragment_out b ip protocol s.packet_id o m := by
    intro S1 r e1 e2 hr
    obtain ⟨i1, L, i2, i3⟩ := ip_out_loop_ids buf ip protocol s.packet_id r S1 0 0 hr
    exact ⟨by rw [i1, e1], L, by rw [i2, e2], i3⟩
  have htr : fragment_calls (s.trace ++ [Event.ip_out (s.get buf).bytes ip protocol]) =
      fragment_calls s.trace := by
    simp [fragment_calls_append, fragment_calls]
  unfold ip_out
  simp only []
  split
  · exact hsingle _ rfl htr
  · exact hloop _ _ rfl htr (Nat.mod_lt _ (by decide))

/-- C19. Datagram identifiers: one call of `ip_out` in a state whose counter holds `k`
(below the range of `int`) advances the counter by exactly 1, whatever the number of
fragments; every call of `ip_fragment_out` it makes carries the identifier `k`; and a call
of `ip_fragment_out` with identifier `k` on a buffer with room for the header puts
`k mod 65536`, big-endian, in the identification field (bytes 4 and 5) of the buffer handed
to `arp_out`.  Hence a sequence of calls of `ip_out` advances the counter by its length:
the `k`-th call since start-up, where the counter is 0, uses `k mod 65536`. -/
theorem ip_out_identifiers (s : State) (buf : buf_ref) (ip : List Nat) (protocol : Nat)
    (hid : s.packet_id + 1 < 2 ^ 31) :
    (ip_out s buf ip protocol).packet_id = s.packet_id + 1 ∧
    (∃ L, fragment_calls (ip_out s buf ip protocol).trace = fragment_calls s.trace ++ L ∧
      ∀ e ∈ L, ∃ b o m, e = Event.ip_fragment_out b ip protocol s.packet_id o m) ∧
    (∀ (S : State) (b : buf_ref) (o m : Nat), o < 8192 → 20 ≤ (S.get b).data →
      (S.get b).data ≤ (S.get b).payload.length →
      ∃ S1, ip_fragment_out S b ip protocol s.packet_id o m = arp_out S1 b ip ∧
        bytes_from (S1.get b).payload ((S1.get b).data + 4) 2 =
          [s.packet_id % 65536 / 256, s.packet_id % 65536 % 256]) ∧
    (∀ calls : List (buf_ref × List Nat × Nat),
      (calls.foldl (fun st c => ip_out st c.1 c.2.1 c.2.2) s).packet_id =
        s.packet_id + calls.length) := by
  refine ⟨(ip_out_ids s buf ip protocol).1, (ip_out_ids s buf ip protocol).2, ?_, ?_⟩
  · intro S b o m ho hroom hcap
    obtain ⟨p, hp, he, hfr, hb⟩ :=
      ip_fragment_out_spec S b ip protocol s.packet_id o m ho hroom hcap
    refine ⟨_, he, ?_⟩
    rw [get_set]
    simp only []
    have h4 : bytes_from p ((S.get b).data - 20 + 4) 2 =
        bytes_from (bytes_from p ((S.get b).data - 20) 20) 4 2 := by
      apply bytes_from_ext
      intro i hi
      rw [getD_bytes_from _ _ _ _ (by omega), Nat.add_assoc]
    rw [h4, hb]
    have h1 : s.packet_id % 65536 / 256 = s.packet_id / 256 % 256 := by omega
    have h2 : s.packet_id % 65536 % 256 = s.packet_id % 256 := by omega
    rw [h1, h2]
    simp [ip_header_wire, ip_header_spec, bytes_from, List.range, List.range.loop]
  · intro calls
    have key : ∀ (cs : List (buf_ref × List Nat × Nat)) (st : State),
        (cs.foldl (fun st c => ip_out st c.1 c.2.1 c.2.2) st).packet_id =
          st.packet_id + cs.length := by
      intro cs
      induction cs with
      | nil => intro st; rfl
      | cons c cs ih =>
        intro st
        rw [List.foldl_cons, ih, (ip_out_ids st c.1 c.2.1 c.2.2).1, List.length_cons]
        omega
    exact key calls s

/-- Witness of C19: a call of `ip_out` on the buffer of the caller in the example state,
where the counter is 0. -/
theorem ip_out_identifiers_witness :
    example_state.packet_id + 1 < 2 ^ 31 ∧
    (ip_out example_state buf_ref.user [10, 0, 0, 2] 17).packet_id =
      example_state.packet_id + 1 :=
  ⟨by decide, (ip_out_identifiers example_state buf_ref.user [10, 0, 0, 2] 17 (by decide)).1⟩

/-! ## ip_out: fragments for an unresolved destination -/

theorem set_now (s : State) (buf : buf_ref) (b : buf_t) : (s.set buf b).now = s.now := by
  cases buf <;> rfl

theorem ip_fragment_out_pending (S : State) (buf : buf_ref) (ip : List Nat)
    (protocol id offset mf : Nat) (p : buf_t)
    (h1 : map_get S.arp_table S.now ip = none) (h2 : map_get S.arp_buf S.now ip = some p) :
    frames (ip_fragment_out S buf ip protocol id offset mf).trace = frames S.trace ∧
    (ip_fragment_out S buf ip protocol id offset mf).arp_buf = S.arp_buf ∧
    (ip_fragment_out S buf ip protocol id offset mf).arp_table = S.arp_table ∧
    (ip_fragment_out S buf ip protocol id offset mf).now = S.now := by
  obtain ⟨q, _, he⟩ := ip_fragment_out_eq S buf ip protocol id offset mf
  rw [he, arp_out_pending_eq _ buf ip p (by rw [set_arp_table, set_now]; exact h1)
    (by rw [set_arp_buf, set_now]; exact h2)]
  refine ⟨?_, ?_, ?_, ?_⟩
  · simp [State.log, set_trace, frames_append, frames]
  · exact set_arp_buf _ _ _
  · exact set_arp_table _ _ _
  · exact set_now _ _ _

theorem ip_out_loop_pending (buf : buf_ref) (ip : List Nat) (protocol id : Nat) (p : buf_t) :
    ∀ (r : Nat) (s : State) (d f : Nat), r < 65536 →
      map_get s.arp_table s.now ip = none → map_get s.arp_buf s.now ip = some p →
      frames (ip_out_loop buf ip protocol id s r d f).trace = frames s.trace ∧
      (ip_out_loop buf ip protocol id s r d f).arp_buf = s.arp_buf ∧
      (ip_out_loop buf ip protocol id s r d f).arp_table = s.arp_table ∧
      (ip_out_loop buf ip protocol id s r d f).now = s.now ∧
      (fragment_calls (ip_out_loop buf ip protocol id s r d f).trace).length =
        (fragment_calls s.trace).length + (r + 1479) / 1480 := by
  intro r
  induction r using Nat.strong_induction_on with
  | _ r ih =>
    intro s d f hr h1 h2
    by_cases h0 : 0 < r
    · rw [ip_out_loop_step buf ip protocol id s r d f h0]
      have hlt := ip_out_loop_lt r h0 hr
      have key : ∀ (S1 : State) (mf r1 d1 f1 : Nat), S1.arp_table = s.arp_table →
          S1.arp_buf = s.arp_buf → S1.now = s.now → S1.trace = s.trace → r1 < r →
          (r1 + 1479) / 1480 + 1 = (r + 1479) / 1480 →
          frames (ip_out_loop buf ip protocol id
            (ip_fragment_out S1 buf_ref.ip_buf ip protocol id f mf) r1 d1 f1).trace
            = frames s.trace ∧
          (ip_out_loop buf ip protocol id
            (ip_fragment_out S1 buf_ref.ip_buf ip protocol id f mf) r1 d1 f1).arp_buf
            = s.arp_buf ∧
          (ip_out_loop buf ip protocol id
            (ip_fragment_out S1 buf_ref.ip_buf ip protocol id f mf) r1 d1 f1).arp_table
            = s.arp_table ∧
          (ip_out_loop buf ip protocol id
            (ip_fragment_out S1 buf_ref.ip_buf ip protocol id f mf) r1 d1 f1).now = s.now ∧
          (fragment_calls (ip_out_loop buf ip protocol id
            (ip_fragment_out S1 buf_ref.ip_buf ip protocol id f mf) r1 d1 f1).trace).length =
            (fragment_calls s.trace).length + (r + 1479) / 1480 := by
        intro S1 mf r1 d1 f1 e1 e2 e3 e4 hr1 hcount
        obtain ⟨a1, a2, a3, a4⟩ := ip_fragment_out_pending S1 buf_ref.ip_buf ip protocol id f mf p
          (by rw [e1, e3]; exact h1) (by rw [e2, e3]; exact h2)
        obtain ⟨b1, b2, b3, b4, b5⟩ := ih r1 hr1
          (ip_fragment_out S1 buf_ref.ip_buf ip protocol id f mf) d1 f1 (by omega)
          (by rw [a3, a4, e1, e3]; exact h1) (by rw [a2, a4, e2, e3]; exact h2)
        refine ⟨by rw [b1, a1, e4], by rw [b2, a2, e2], by rw [b3, a3, e1], by rw [b4, a4, e3],
          ?_⟩
        rw [b5, fragment_calls_ip_fragment_out, e4, List.length_append, List.length_singleton]
        omega
      refine key _ _ _ _ _ rfl rfl rfl rfl hlt ?_
      split <;> omega
    · have : r = 0 := by omega
      subst this
      rw [ip_out_loop_done]
      exact ⟨rfl, rfl, rfl, rfl, rfl⟩

theorem hdr_payload_bytes (p P H : List Nat) (d n : Nat) (hroom : 20 ≤ d)
    (hfr : ∀ i, i < d - 20 ∨ d ≤ i → p.getD i 0 = P.getD i 0)
    (hb : bytes_from p (d - 20) 20 = H) :
    bytes_from p (d - 20) (n + 20) = H ++ bytes_from P d n := by
  have hpay : bytes_from p (d - 20 + 20) n = bytes_from P d n := by
    apply bytes_from_ext
    intro i hi
    rw [show d - 20 + 20 = d from by omega]
    exact hfr _ (by omega)
  rw [Nat.add_comm n 20, bytes_from_append, hpay, hb]

theorem arp_out_miss_now (s : State) (buf : buf_ref) (ip : List Nat)
    (h1 : map_get s.arp_table s.now ip = none) (h2 : map_get s.arp_buf s.now ip = none)
    (hcap : 84 ≤ s.txbuf.payload.length) : (arp_out s buf ip).now = s.now := by
  rw [arp_out_miss_eq s buf ip h1 h2]
  exact (arp_req_spec _ ip hcap).2.2.2

theorem ip_fragment_out_first_miss (S : State) (buf : buf_ref) (ip : List Nat)
    (protocol id : Nat)
    (h1 : map_get S.arp_table S.now ip = none) (h2 : map_get S.arp_buf S.now ip = none)
    (hcap : 84 ≤ S.txbuf.payload.length) (hroom : 20 ≤ (S.get buf).data)
    (hwf : (S.get buf).data ≤ (S.get buf).payload.length) :
    ∃ fb : buf_t,
      fb.bytes = ip_header_wire ((S.get buf).len + 20) id 8192 IP_DEFALUT_TTL protocol
        (bytes_from S.net_if_ip 0 4) (bytes_from ip 0 4) ++ (S.get buf).bytes ∧
      (ip_fragment_out S buf ip protocol id 0 1).arp_buf = map_set S.arp_buf S.now ip fb ∧
      (ip_fragment_out S buf ip protocol id 0 1).now = S.now ∧
      (ip_fragment_out S buf ip protocol id 0 1).arp_table = S.arp_table ∧
      (ip_fragment_out S buf ip protocol id 0 1).trace = S.trace ++
        [Event.ip_fragment_out (S.get buf).bytes ip protocol id 0 1,
         Event.arp_out fb.bytes ip,
         Event.ethernet_out
          ([0, 1, 8, 0, 6, 4, 0, 1] ++ (bytes_from S.net_if_mac 0 6 ++
            (bytes_from S.net_if_ip 0 4 ++ ([0, 0, 0, 0, 0, 0] ++ bytes_from ip 0 4))))
          ether_broadcast_mac NET_PROTOCOL_ARP,
         Event.driver_send
          (ether_broadcast_mac ++ (bytes_from S.net_if_mac 0 6 ++ ([0x08, 0x06] ++
            (([0, 1, 8, 0, 6, 4, 0, 1] ++ (bytes_from S.net_if_mac 0 6 ++
              (bytes_from S.net_if_ip 0 4 ++ ([0, 0, 0, 0, 0, 0] ++ bytes_from ip 0 4))))
              ++ List.replicate 18 0))))] := by
  obtain ⟨p, hp, he, hfr, hb⟩ :=
    ip_fragment_out_spec S buf ip protocol id 0 1 (by decide) hroom hwf
  have hb2 := hdr_payload_bytes p (S.get buf).payload _ (S.get buf).data (S.get buf).len hroom
    hfr hb
  rw [he]
  generalize hS2 : (S.log (Event.ip_fragment_out (S.get buf).bytes ip protocol id 0 1)).set buf
    ⟨(S.get buf).len + 20, (S.get buf).data - 20, p⟩ = S2
  have g1 : S2.arp_table = S.arp_table := by
    rw [← hS2, set_arp_table]
    rfl
  have g2 : S2.arp_buf = S.arp_buf := by
    rw [← hS2, set_arp_buf]
    rfl
  have g3 : S2.now = S.now := by
    rw [← hS2, set_now]
    rfl
  have g4 : S2.trace = S.trace ++ [Event.ip_fragment_out (S.get buf).bytes ip protocol id 0 1] := by
    rw [← hS2, set_trace]
    rfl
  have g5 : S2.get buf = ⟨(S.get buf).len + 20, (S.get buf).data - 20, p⟩ := by
    rw [← hS2, get_set]
  have g6 : S2.txbuf.payload.length = S.txbuf.payload.length ∨ buf = buf_ref.txbuf := by
    cases buf
    · exact Or.inr rfl
    · left; rw [← hS2]; rfl
    · left; rw [← hS2]; rfl
    · left; rw [← hS2]; rfl
  have g7 : S2.net_if_ip = S.net_if_ip ∧ S2.net_if_mac = S.net_if_mac := by
    rw [← hS2]
    cases buf <;> exact ⟨rfl, rfl⟩
  have hcap2 : 84 ≤ S2.txbuf.payload.length := by
    rcases g6 with g6 | g6
    · rw [g6]
      exact hcap
    · subst g6
      have : S2.txbuf = S2.get buf_ref.txbuf := rfl
      rw [this, g5]
      simp only []
      rw [hp]
      exact hcap
  have m1 : map_get S2.arp_table S2.now ip = none := by rw [g1, g3]; exact h1
  have m2 : map_get S2.arp_buf S2.now ip = none := by rw [g2, g3]; exact h2
  obtain ⟨t1, _, t3, t4⟩ := arp_out_miss_spec S2 buf ip m1 m2 hcap2
  have t5 := arp_out_miss_now S2 buf ip m1 m2 hcap2
  refine ⟨S2.get buf, ?_, ?_, ?_, ?_, ?_⟩
  · rw [g5]
    unfold buf_t.bytes
    simp only []
    rw [hb2]
    rfl
  · rw [t1, g2, g3]
  · rw [t5, g3]
  · rw [t4, g1]
  · rw [t3, g4, g7.1, g7.2]
    simp

/-- One iteration of the loop of `ip_out`, with the placement of the fragment in
`ip_buf`. -/
theorem ip_out_loop_iter_placed (buf : buf_ref) (ip : List Nat) (protocol current_id : Nat)
    (s : State) (remaining_len data_offset fragment_offset : Nat) (hr : 0 < remaining_len)
    (hb : buf ≠ buf_ref.ip_buf)
    (hic : (if remaining_len > 1480 then 1480 else remaining_len) < s.ip_buf.payload.length / 2) :
    ∃ s1 : State, s1.trace = s.trace ∧ s1.txbuf = s.txbuf ∧ s1.arp_table = s.arp_table ∧
      s1.arp_buf = s.arp_buf ∧ s1.now = s.now ∧ s1.net_if_ip = s.net_if_ip ∧
      s1.net_if_mac = s.net_if_mac ∧
      s1.ip_buf.payload.length = s.ip_buf.payload.length ∧
      s1.ip_buf.len = (if remaining_len > 1480 then 1480 else remaining_len) ∧
      s1.ip_buf.data = s.ip_buf.payload.length / 2 -
        (if remaining_len > 1480 then 1480 else remaining_len) ∧
      (s1.get buf_ref.ip_buf).bytes =
        bytes_from (s.get buf).payload ((s.get buf).data + data_offset)
          (if remaining_len > 1480 then 1480 else remaining_len) ∧
      ip_out_loop buf ip protocol current_id s remaining_len data_offset fragment_offset =
        ip_out_loop buf ip protocol current_id
          (ip_fragment_out s1 buf_ref.ip_buf ip protocol current_id fragment_offset
            (if remaining_len > 1480 then 1 else 0))
          ((remaining_len + 65536 - (if remaining_len > 1480 then 1480 else remaining_len))
            % 65536)
          ((data_offset + (if remaining_len > 1480 then 1480 else remaining_len)) % 65536)
          ((fragment_offset + (if remaining_len > 1480 then 1480 else remaining_len) / 8)
            % 65536) := by
  refine ⟨_, ?_, ?_, ?_, ?_, ?_, ?_, ?_, ?_, ?_, ?_, ?_,
    ip_out_loop_step buf ip protocol current_id s remaining_len data_offset fragment_offset hr⟩
  · rfl
  · rfl
  · rfl
  · rfl
  · rfl
  · rfl
  · rfl
  · simp only [length_memcpy, buf_init_payload]
  · simp only []
    rw [buf_init_ok _ _ hic]
  · simp only []
    rw [buf_init_ok _ _ hic]
  · rw [get_with_ip_buf _ _ _ hb]
    exact ip_buf_chunk s.ip_buf _ _ hic (length_bytes_from _ _ _)

theorem ip_out_loop_unresolved (buf : buf_ref) (ip : List Nat) (protocol id : Nat)
    (s : State) (r : Nat) (hr : 1480 < r) (hr2 : r < 65536) (hb : buf ≠ buf_ref.ip_buf)
    (h1 : map_get s.arp_table s.now ip = none) (h2 : map_get s.arp_buf s.now ip = none)
    (hcap : 84 ≤ s.txbuf.payload.length) (hic : 3000 ≤ s.ip_buf.payload.length) :
    ∃ fb : buf_t,
      fb.bytes = ip_header_wire 1500 id 8192 IP_DEFALUT_TTL protocol
        (bytes_from s.net_if_ip 0 4) (bytes_from ip 0 4) ++
        bytes_from (s.get buf).payload (s.get buf).data 1480 ∧
      (ip_out_loop buf ip protocol id s r 0 0).arp_buf = map_set s.arp_buf s.now ip fb ∧
      map_get (ip_out_loop buf ip protocol id s r 0 0).arp_buf
        (ip_out_loop buf ip protocol id s r 0 0).now ip = some fb ∧
      (ip_out_loop buf ip protocol id s r 0 0).arp_table = s.arp_table ∧
      frames (ip_out_loop buf ip protocol id s r 0 0).trace = frames s.trace ++
        [ether_broadcast_mac ++ (bytes_from s.net_if_mac 0 6 ++ ([0x08, 0x06] ++
          (([0, 1, 8, 0, 6, 4, 0, 1] ++ (bytes_from s.net_if_mac 0 6 ++
            (bytes_from s.net_if_ip 0 4 ++ ([0, 0, 0, 0, 0, 0] ++ bytes_from ip 0 4))))
            ++ List.replicate 18 0)))] ∧
      (fragment_calls (ip_out_loop buf ip protocol id s r 0 0).trace).length =
        (fragment_calls s.trace).length + (r + 1479) / 1480 := by
  have hfs : (if r > 1480 then 1480 else r) = 1480 := if_pos hr
  have hmf : (if r > 1480 then 1 else 0) = 1 := if_pos hr
  obtain ⟨s1, e1, e2, e3, e4, e5, e6, e7, e8, e9, e10, e11, he⟩ :=
    ip_out_loop_iter_placed buf ip protocol id s r 0 0 (by omega) hb (by rw [hfs]; omega)
  rw [hfs] at e9 e10 e11
  rw [hmf] at he
  rw [he]
  obtain ⟨fb, f1, f2, f3, f4, f5⟩ := ip_fragment_out_first_miss s1 buf_ref.ip_buf ip protocol id
    (by rw [e3, e5]; exact h1) (by rw [e4, e5]; exact h2) (by rw [e2]; exact hcap)
    (by
      have : (s1.get buf_ref.ip_buf).data = s1.ip_buf.data := rfl
      rw [this, e10]
      omega)
    (by
      have h3 : (s1.get buf_ref.ip_buf).data = s1.ip_buf.data := rfl
      have h4 : (s1.get buf_ref.ip_buf).payload = s1.ip_buf.payload := rfl
      rw [h3, h4, e10, e8]
      omega)
  have hlen1 : (s1.get buf_ref.ip_buf).len = 1480 := e9
  rw [hlen1, e11, e6, Nat.add_zero] at f1
  generalize ip_fragment_out s1 buf_ref.ip_buf ip protocol id 0 1 = R at f2 f3 f4 f5 ⊢
  obtain ⟨b1, b2, b3, b4, b5⟩ := ip_out_loop_pending buf ip protocol id fb
    ((r + 65536 - (if r > 1480 then 1480 else r)) % 65536) R
    ((0 + (if r > 1480 then 1480 else r)) % 65536)
    ((0 + (if r > 1480 then 1480 else r) / 8) % 65536)
    (Nat.mod_lt _ (by decide))
    (by rw [f4, f3, e3, e5]; exact h1)
    (by rw [f2, f3]; exact map_get_set_same _ _ _ _)
  refine ⟨fb, f1, ?_, ?_, ?_, ?_, ?_⟩
  · rw [b2, f2, e4, e5]
  · rw [b2, b4, f2, f3]
    exact map_get_set_same _ _ _ _
  · rw [b3, f4, e3]
  · rw [b1, f5, e1, e6, e7]
    simp [frames_append, frames]
  · rw [b5, f5, e1]
    simp only [fragment_calls_append, List.length_append]
    have hc : (fragment_calls [Event.ip_fragment_out (s1.get buf_ref.ip_buf).bytes ip protocol id
        0 1, Event.arp_out fb.bytes ip,
        Event.ethernet_out
          ([0, 1, 8, 0, 6, 4, 0, 1] ++ (bytes_from s1.net_if_mac 0 6 ++
            (bytes_from s1.net_if_ip 0 4 ++ ([0, 0, 0, 0, 0, 0] ++ bytes_from ip 0 4))))
          ether_broadcast_mac NET_PROTOCOL_ARP,
        Event.driver_send
          (ether_broadcast_mac ++ (bytes_from s1.net_if_mac 0 6 ++ ([0x08, 0x06] ++
            (([0, 1, 8, 0, 6, 4, 0, 1] ++ (bytes_from s1.net_if_mac 0 6 ++
              (bytes_from s1.net_if_ip 0 4 ++ ([0, 0, 0, 0, 0, 0] ++ bytes_from ip 0 4))))
              ++ List.replicate 18 0))))]).length = 1 := rfl
    rw [hc, hfs]
    omega

/-- C20. A fragmented send to an unresolved destination loses all but the first fragment.
For a payload of more than 1480 and at most 65535 bytes, sent by `ip_out` from a buffer
of the caller or from the transmit scratch buffer to an address with no address-table
entry and no pending entry: the pending table gets one entry for the address, holding
the first fragment (the header with total length 1500, offset 0 and the more-fragments
bit, then the first 1480 payload bytes); the driver gets exactly one frame, the
broadcast ARP request, so no IP frame reaches the link layer; and all the
`ceil(len / 1480)` calls of `ip_fragment_out` are made, so the fragments after the first
are dropped.  The address table is unchanged. -/
theorem ip_out_unresolved_keeps_first_fragment (s : State) (buf : buf_ref) (ip : List Nat)
    (protocol : Nat) (hb : buf ≠ buf_ref.ip_buf)
    (hlen : 1480 < (s.get buf).len) (hmax : (s.get buf).len ≤ 65535)
    (h1 : map_get s.arp_table s.now ip = none) (h2 : map_get s.arp_buf s.now ip = none)
    (hcap : 84 ≤ s.txbuf.payload.length) (hic : 3000 ≤ s.ip_buf.payload.length) :
    ∃ fb : buf_t,
      fb.bytes = ip_header_wire 1500 s.packet_id IP_MORE_FRAGMENT IP_DEFALUT_TTL protocol
        (bytes_from s.net_if_ip 0 4) (bytes_from ip 0 4) ++
        bytes_from (s.get buf).payload (s.get buf).data 1480 ∧
      (ip_out s buf ip protocol).arp_buf = map_set s.arp_buf s.now ip fb ∧
      map_get (ip_out s buf ip protocol).arp_buf (ip_out s buf ip protocol).now ip = some fb ∧
      (ip_out s buf ip protocol).arp_table = s.arp_table ∧
      frames (ip_out s buf ip protocol).trace = frames s.trace ++
        [ether_broadcast_mac ++ (bytes_from s.net_if_mac 0 6 ++ ([0x08, 0x06] ++
          (([0, 1, 8, 0, 6, 4, 0, 1] ++ (bytes_from s.net_if_mac 0 6 ++
            (bytes_from s.net_if_ip 0 4 ++ ([0, 0, 0, 0, 0, 0] ++ bytes_from ip 0 4))))
            ++ List.replicate 18 0)))] ∧
      (fragment_calls (ip_out s buf ip protocol).trace).length =
        (fragment_calls s.trace).length + ((s.get buf).len + 1479) / 1480 := by
  have hg : ∀ e, ({ s.log e with packet_id := (s.log e).packet_id + 1 } : State).get buf =
      s.get buf := by
    intro e
    cases buf <;> rfl
  have heq : ip_out s buf ip protocol =
      ip_out_loop buf ip protocol s.packet_id
        { s.log (Event.ip_out (s.get buf).bytes ip protocol) with
          packet_id := (s.log (Event.ip_out (s.get buf).bytes ip protocol)).packet_id + 1 }
        (s.get buf).len 0 0 := by
    unfold ip_out
    simp only []
    rw [if_neg (by rw [hg]; omega), hg, Nat.mod_eq_of_lt (by omega)]
    rfl
  rw [heq]
  obtain ⟨fb, f1, f2, f3, f4, f5, f6⟩ := ip_out_loop_unresolved buf ip protocol s.packet_id
    { s.log (Event.ip_out (s.get buf).bytes ip protocol) with
      packet_id := (s.log (Event.ip_out (s.get buf).bytes ip protocol)).packet_id + 1 }
    (s.get buf).len hlen (by omega) hb h1 h2 hcap hic
  rw [hg] at f1
  refine ⟨fb, f1, f2, f3, f4, ?_, ?_⟩
  · rw [f5]
    simp [State.log, frames_append, frames]
  · rw [f6]
    simp [State.log, fragment_calls_append, fragment_calls]

/-- Witness of C20: the 1481-byte datagram of `alias_state`, whose tables are empty, sent
to 10.0.0.9. -/
theorem ip_out_unresolved_keeps_first_fragment_witness :
    1480 < (alias_state.get buf_ref.txbuf).len ∧
    map_get alias_state.arp_table alias_state.now [10, 0, 0, 9] = none ∧
    map_get alias_state.arp_buf alias_state.now [10, 0, 0, 9] = none ∧
    ∃ fb : buf_t,
      map_get (ip_out alias_state buf_ref.txbuf [10, 0, 0, 9] 17).arp_buf
        (ip_out alias_state buf_ref.txbuf [10, 0, 0, 9] 17).now [10, 0, 0, 9] = some fb ∧
      frames (ip_out alias_state buf_ref.txbuf [10, 0, 0, 9] 17).trace =
        frames alias_state.trace ++
        [ether_broadcast_mac ++ (bytes_from alias_state.net_if_mac 0 6 ++ ([0x08, 0x06] ++
          (([0, 1, 8, 0, 6, 4, 0, 1] ++ (bytes_from alias_state.net_if_mac 0 6 ++
            (bytes_from alias_state.net_if_ip 0 4 ++
              ([0, 0, 0, 0, 0, 0] ++ bytes_from [10, 0, 0, 9] 0 4))))
            ++ List.replicate 18 0)))] :=
  ⟨by decide, by decide, by decide,
    (ip_out_unresolved_keeps_first_fragment alias_state buf_ref.txbuf [10, 0, 0, 9] 17
      (by decide) (by decide) (by decide) (by decide) (by decide)
      (by
        rw [show alias_state.txbuf = ⟨1481, 19, List.replicate 19 0 ++
          (List.replicate 1481 1 ++ List.replicate 1500 0)⟩ from rfl]
        simp only [List.length_append, List.length_replicate]
        decide)
      (by
        rw [show alias_state.ip_buf = ⟨0, 1500, List.replicate 3000 0⟩ from rfl]
        simp only [List.length_replicate]
        decide)).elim
      fun fb h => ⟨fb, h.2.2.1, h.2.2.2.2.1⟩⟩

/-! ## Traces of the transmit path -/

theorem ip_out_calls_append (a b : List Event) :
    ip_out_calls (a ++ b) = ip_out_calls a ++ ip_out_calls b := by
  induction a with
  | nil => rfl
  | cons e t ih => cases e <;> simp [ip_out_calls, ih]

theorem link_trace (t : List Event) (h : ∀ e ∈ t, e.is_link = true) :
    ip_out_calls t = [] ∧ icmp_unreachable_calls t = [] ∧ dispatches t = [] ∧
      fragment_calls t = [] := by
  induction t with
  | nil => exact ⟨rfl, rfl, rfl, rfl⟩
  | cons e t ih =>
    have he := h e (List.mem_cons_self _ _)
    have ht := ih (fun x hx => h x (List.mem_cons_of_mem _ hx))
    cases e <;> simp [Event.is_link] at he <;>
      simp [ip_out_calls, icmp_unreachable_calls, dispatches, fragment_calls, ht]

theorem arp_out_link (S : State) (buf : buf_ref) (ip : List Nat) :
    ∃ t, (arp_out S buf ip).trace = S.trace ++ t ∧ ∀ e ∈ t, e.is_link = true := by
  cases h1 : map_get S.arp_table S.now ip with
  | some mac =>
    rw [arp_out_hit_eq S buf ip mac h1, ethernet_out_trace]
    refine ⟨[Event.arp_out (S.get buf).bytes ip,
      Event.ethernet_out ((S.log (Event.arp_out (S.get buf).bytes ip)).get buf).bytes mac
        NET_PROTOCOL_IP,
      Event.driver_send (ethernet_out_buf (S.log (Event.arp_out (S.get buf).bytes ip))
        ((S.log (Event.arp_out (S.get buf).bytes ip)).get buf) mac NET_PROTOCOL_IP).2.bytes],
      ?_, ?_⟩
    · simp [State.log]
    · intro e he
      simp at he
      rcases he with he | he | he <;> subst he <;> rfl
  | none =>
    cases h2 : map_get S.arp_buf S.now ip with
    | some p =>
      rw [arp_out_pending_eq S buf ip p h1 h2]
      refine ⟨[Event.arp_out (S.get buf).bytes ip], rfl, ?_⟩
      intro e he
      simp at he
      subst he
      rfl
    | none =>
      rw [arp_out_miss_eq S buf ip h1 h2]
      obtain ⟨b, f, ht⟩ := arp_req_trace
        { S with trace := S.trace ++ [Event.arp_out (S.get buf).bytes ip],
                 arp_buf := map_set S.arp_buf S.now ip (S.get buf) } ip
      rw [ht]
      refine ⟨[Event.arp_out (S.get buf).bytes ip,
        Event.ethernet_out b ether_broadcast_mac NET_PROTOCOL_ARP, Event.driver_send f], ?_, ?_⟩
      · simp
      · intro e he
        simp at he
        rcases he with he | he | he <;> subst he <;> rfl

theorem ip_out_small_trace (S : State) (buf : buf_ref) (ip : List Nat) (protocol : Nat)
    (hlen : (S.get buf).len ≤ 1480) :
    ∃ t, (ip_out S buf ip protocol).trace = S.trace ++
        [Event.ip_out (S.get buf).bytes ip protocol,
         Event.ip_fragment_out (S.get buf).bytes ip protocol S.packet_id 0 0] ++ t ∧
      ∀ e ∈ t, e.is_link = true := by
  have hg : ∀ e, ({ S.log e with packet_id := (S.log e).packet_id + 1 } : State).get buf =
      S.get buf := by
    intro e
    cases buf <;> rfl
  have heq : ip_out S buf ip protocol =
      ip_fragment_out
        { S.log (Event.ip_out (S.get buf).bytes ip protocol) with
          packet_id := (S.log (Event.ip_out (S.get buf).bytes ip protocol)).packet_id + 1 }
        buf ip protocol S.packet_id 0 0 := by
    unfold ip_out
    simp only []
    rw [if_pos (by rw [hg]; omega)]
    rfl
  rw [heq]
  obtain ⟨p, _, he⟩ := ip_fragment_out_eq
    { S.log (Event.ip_out (S.get buf).bytes ip protocol) with
      packet_id := (S.log (Event.ip_out (S.get buf).bytes ip protocol)).packet_id + 1 }
    buf ip protocol S.packet_id 0 0
  rw [he]
  obtain ⟨t, ht, hl⟩ := arp_out_link
    (({ S.log (Event.ip_out (S.get buf).bytes ip protocol) with
      packet_id := (S.log (Event.ip_out (S.get buf).bytes ip protocol)).packet_id + 1 }
      : State).log (Event.ip_fragment_out (({ S.log (Event.ip_out (S.get buf).bytes ip protocol)
        with packet_id := (S.log (Event.ip_out (S.get buf).bytes ip protocol)).packet_id + 1 }
        : State).get buf).bytes ip protocol S.packet_id 0 0) |>.set buf
      ⟨(buf_add_header (({ S.log (Event.ip_out (S.get buf).bytes ip protocol) with
          packet_id := (S.log (Event.ip_out (S.get buf).bytes ip protocol)).packet_id + 1 }
          : State).get buf) 20).len,
        (buf_add_header (({ S.log (Event.ip_out (S.get buf).bytes ip protocol) with
          packet_id := (S.log (Event.ip_out (S.get buf).bytes ip protocol)).packet_id + 1 }
          : State).get buf) 20).data, p⟩) buf ip
  refine ⟨t, ?_, hl⟩
  rw [ht, set_trace, hg]
  simp [State.log]

theorem icmp_unreachable_unfold (S : State) (recv : buf_ref) (src : List Nat) (code : Nat)
    (hne : recv ≠ buf_ref.txbuf) :
    icmp_unreachable S recv src code =
      ip_out
        { S with
          trace := S.trace ++ [Event.icmp_unreachable (S.get recv).bytes src code]
          txbuf := ⟨(buf_init S.txbuf 36).len, (buf_init S.txbuf 36).data,
            (store16 (memcpy (memcpy (store16 (store16 (store16 (store8 (store8 (buf_init
              S.txbuf 36).payload (buf_init S.txbuf 36).data ICMP_TYPE_UNREACH) ((buf_init
              S.txbuf 36).data + 1) code) ((buf_init S.txbuf 36).data + 2) 0) ((buf_init S.txbuf
              36).data + 4) 0) ((buf_init S.txbuf 36).data + 6) 0) ((buf_init S.txbuf 36).data +
              8) (bytes_from (S.get recv).payload (S.get recv).data 20) 20) ((buf_init S.txbuf
              36).data + 8 + 20) (bytes_from (S.get recv).payload ((S.get recv).data + 20) 8) 8)
              ((buf_init S.txbuf 36).data + 2) (checksum16 ((memcpy (memcpy (store16 (store16
              (store16 (store8 (store8 (buf_init S.txbuf 36).payload (buf_init S.txbuf 36).data
              ICMP_TYPE_UNREACH) ((buf_init S.txbuf 36).data + 1) code) ((buf_init S.txbuf
              36).data + 2) 0) ((buf_init S.txbuf 36).data + 4) 0) ((buf_init S.txbuf 36).data +
              6) 0) ((buf_init S.txbuf 36).data + 8) (bytes_from (S.get recv).payload (S.get
              recv).data 20) 20) ((buf_init S.txbuf 36).data + 8 + 20) (bytes_from (S.get
              recv).payload ((S.get recv).data + 20) 8) 8).drop (buf_init S.txbuf 36).data)
              (buf_init S.txbuf 36).len))⟩ }
        buf_ref.txbuf src NET_PROTOCOL_ICMP := by
  cases recv
  · exact absurd rfl hne
  · rfl
  · rfl
  · rfl

theorem icmp_unreach_mem (TP : List Nat) (t code : Nat) (H D : List Nat)
    (hcap : t + 36 ≤ TP.length) (hH : H.length = 20) (hD : D.length = 8) :
    bytes_from (store16 (memcpy (memcpy (store16 (store16 (store16 (store8 (store8 TP t
        ICMP_TYPE_UNREACH) (t + 1) code) (t + 2) 0) (t + 4) 0) (t + 6) 0) (t + 8) H 20) (t + 8 +
        20) D 8)
      (t + 2) (checksum16 (List.drop t (memcpy (memcpy (store16 (store16 (store16 (store8 (store8 TP t ICMP_TYPE_UNREACH) (t + 1) code) (t + 2) 0) (t + 4) 0) (t + 6) 0) (t + 8) H 20) (t + 8 + 20) D 8)) 36)) t 36 = icmp_unreach_wire code H D := by
  generalize hq : memcpy (memcpy (store16 (store16 (store16 (store8 (store8 TP t
      ICMP_TYPE_UNREACH) (t + 1) code) (t + 2) 0) (t + 4) 0) (t + 6) 0) (t + 8) H 20) (t + 8 +
      20) D 8 = q
  have hl : q.length = TP.length := by
    rw [← hq]
    simp only [length_memcpy, length_store16, length_store8]
  have hA : bytes_from q t 2 = [3, code % 256] := by
    rw [bytes_from_two, ← hq,
      getD_memcpy_out _ _ _ _ _ (by omega), getD_memcpy_out _ _ _ _ _ (by omega),
      getD_store16 _ _ _ _ (by omega) (by omega), getD_store16 _ _ _ _ (by omega) (by omega),
      getD_store16 _ _ _ _ (by omega) (by omega), getD_store8 _ _ _ _ (by omega),
      getD_store8_at _ _ _ (by omega),
      getD_memcpy_out _ _ _ _ _ (by omega), getD_memcpy_out _ _ _ _ _ (by omega),
      getD_store16 _ _ _ _ (by omega) (by omega), getD_store16 _ _ _ _ (by omega) (by omega),
      getD_store16 _ _ _ _ (by omega) (by omega),
      getD_store8_at _ _ _ (by simp only [length_store8]; omega)]
    rfl
  have hB : bytes_from q (t + 2) 2 = [0, 0] := by
    rw [bytes_from_two, ← hq,
      getD_memcpy_out _ _ _ _ _ (by omega), getD_memcpy_out _ _ _ _ _ (by omega),
      getD_store16 _ _ _ _ (by omega) (by omega), getD_store16 _ _ _ _ (by omega) (by omega),
      getD_store16_lo _ _ _ (by simp only [length_store8]; omega),
      getD_memcpy_out _ _ _ _ _ (by omega), getD_memcpy_out _ _ _ _ _ (by omega),
      getD_store16 _ _ _ _ (by omega) (by omega), getD_store16 _ _ _ _ (by omega) (by omega),
      getD_store16_hi _ _ _ (by simp only [length_store8]; omega)]
  have hC : bytes_from q (t + 4) 4 = [0, 0, 0, 0] := by
    rw [bytes_from_four, ← hq,
      getD_memcpy_out _ _ _ _ _ (by omega), getD_memcpy_out _ _ _ _ _ (by omega),
      getD_store16 _ _ _ _ (by omega) (by omega),
      getD_store16_lo _ _ _ (by simp only [length_store16, length_store8]; omega),
      getD_memcpy_out _ _ _ _ _ (by omega), getD_memcpy_out _ _ _ _ _ (by omega),
      getD_store16 _ _ _ _ (by omega) (by omega),
      getD_store16_hi _ _ _ (by simp only [length_store16, length_store8]; omega),
      show t + 4 + 2 = t + 6 from rfl,
      getD_memcpy_out _ _ _ _ _ (by omega), getD_memcpy_out _ _ _ _ _ (by omega),
      getD_store16_lo _ _ _ (by simp only [length_store16, length_store8]; omega),
      show t + 4 + 3 = t + 6 + 1 from rfl,
      getD_memcpy_out _ _ _ _ _ (by omega), getD_memcpy_out _ _ _ _ _ (by omega),
      getD_store16_hi _ _ _ (by simp only [length_store16, length_store8]; omega)]
  have hH2 : bytes_from q (t + 8) 20 = H := by
    have h1 : bytes_from q (t + 8) 20 = bytes_from H 0 20 := by
      apply bytes_from_ext
      intro i hi
      rw [← hq, getD_memcpy_out _ _ _ _ _ (by omega),
        getD_memcpy_in _ _ _ _ _ (by simp only [length_store16, length_store8]; omega) hi,
        Nat.zero_add]
    rw [h1, ← hH]
    exact bytes_from_self H
  have hD2 : bytes_from q (t + 8 + 20) 8 = D := by
    have h1 : bytes_from q (t + 8 + 20) 8 = bytes_from D 0 8 := by
      apply bytes_from_ext
      intro i hi
      rw [← hq, getD_memcpy_in _ _ _ _ _
        (by simp only [length_memcpy, length_store16, length_store8]; omega) hi, Nat.zero_add]
    rw [h1, ← hD]
    exact bytes_from_self D
  have h0 : bytes_from q t 36 = icmp_unreach_spec code [0, 0] H D := by
    rw [show (36 : Nat) = 2 + (2 + (4 + (20 + 8))) from rfl, bytes_from_append,
      bytes_from_append, bytes_from_append, bytes_from_append, hA, hB,
      show t + 2 + 2 = t + 4 from rfl, hC, show t + 4 + 4 = t + 8 from rfl, hH2, hD2]
    simp [icmp_unreach_spec]
  rw [checksum16_drop, h0]
  unfold icmp_unreach_wire
  simp only []
  generalize checksum16 (icmp_unreach_spec code [0, 0] H D) 36 = c
  rw [show (36 : Nat) = 2 + (2 + (4 + (20 + 8))) from rfl, bytes_from_append,
    bytes_from_append, bytes_from_append, bytes_from_append,
    bytes_from_store16_other _ _ _ _ _ (Or.inl (by omega)),
    show t + 2 + 2 = t + 4 from rfl,
    bytes_from_store16_other _ _ _ (t + 4) _ (Or.inr (by omega)),
    show t + 4 + 4 = t + 8 from rfl,
    bytes_from_store16_other _ _ _ (t + 8) _ (Or.inr (by omega)),
    bytes_from_store16_other _ _ _ (t + 8 + 20) _ (Or.inr (by omega)),
    hA, hC, hH2, hD2, bytes_from_two, getD_store16_lo _ _ _ (by omega),
    getD_store16_hi _ _ _ (by omega)]
  simp [icmp_unreach_spec]

theorem icmp_unreachable_spec (S : State) (recv : buf_ref) (src : List Nat) (code : Nat)
    (hne : recv ≠ buf_ref.txbuf) (hcap : 74 ≤ S.txbuf.payload.length) :
    ∃ t, (icmp_unreachable S recv src code).trace = S.trace ++
        [Event.icmp_unreachable (S.get recv).bytes src code,
         Event.ip_out (icmp_unreach_wire code
            (bytes_from (S.get recv).payload (S.get recv).data 20)
            (bytes_from (S.get recv).payload ((S.get recv).data + 20) 8)) src NET_PROTOCOL_ICMP,
         Event.ip_fragment_out (icmp_unreach_wire code
            (bytes_from (S.get recv).payload (S.get recv).data 20)
            (bytes_from (S.get recv).payload ((S.get recv).data + 20) 8)) src NET_PROTOCOL_ICMP
            S.packet_id 0 0] ++ t ∧
      ∀ e ∈ t, e.is_link = true := by
  have key : ∀ S1 : State,
      S1.trace = S.trace ++ [Event.icmp_unreachable (S.get recv).bytes src code] →
      S1.packet_id = S.packet_id → (S1.get buf_ref.txbuf).len ≤ 1480 →
      (S1.get buf_ref.txbuf).bytes = icmp_unreach_wire code
        (bytes_from (S.get recv).payload (S.get recv).data 20)
        (bytes_from (S.get recv).payload ((S.get recv).data + 20) 8) →
      ∃ t, (ip_out S1 buf_ref.txbuf src NET_PROTOCOL_ICMP).trace = S.trace ++
        [Event.icmp_unreachable (S.get recv).bytes src code,
         Event.ip_out (icmp_unreach_wire code
            (bytes_from (S.get recv).payload (S.get recv).data 20)
            (bytes_from (S.get recv).payload ((S.get recv).data + 20) 8)) src NET_PROTOCOL_ICMP,
         Event.ip_fragment_out (icmp_unreach_wire code
            (bytes_from (S.get recv).payload (S.get recv).data 20)
            (bytes_from (S.get recv).payload ((S.get recv).data + 20) 8)) src NET_PROTOCOL_ICMP
            S.packet_id 0 0] ++ t ∧
      ∀ e ∈ t, e.is_link = true := by
    intro S1 e1 e2 e3 e4
    obtain ⟨t, ht, hl⟩ := ip_out_small_trace S1 buf_ref.txbuf src NET_PROTOCOL_ICMP e3
    refine ⟨t, ?_, hl⟩
    rw [ht, e1, e2, e4]
    simp
  have hbi := buf_init_ok S.txbuf 36 (by omega)
  rw [icmp_unreachable_unfold S recv src code hne, hbi]
  simp only []
  refine key _ rfl rfl ?_ ?_
  · show (36 : Nat) ≤ 1480
    decide
  · simp only [State.get, buf_t.bytes]
    exact icmp_unreach_mem S.txbuf.payload (S.txbuf.payload.length / 2 - 36) code
      (bytes_from (S.get recv).payload (S.get recv).data 20)
      (bytes_from (S.get recv).payload ((S.get recv).data + 20) 8) (by omega)
      (length_bytes_from _ _ _) (length_bytes_from _ _ _)

/-! ## ip_in: the accepted datagram -/

theorem list_ext_getD (a b : List Nat) (hl : a.length = b.length)
    (h : ∀ i, i < a.length → a.getD i 0 = b.getD i 0) : a = b := by
  apply List.ext_getElem hl
  intro i h1 h2
  have := h i h1
  rw [List.getD_eq_getElem?_getD, List.getD_eq_getElem?_getD, List.getElem?_eq_getElem h1,
    List.getElem?_eq_getElem h2] at this
  exact this

theorem store16_restore (P : List Nat) (o : Nat) (h0 : P.getD o 0 < 256)
    (h1 : P.getD (o + 1) 0 < 256) (hin : o + 1 < P.length) :
    store16 (store16 P o 0) o (load16 P o) = P := by
  apply list_ext_getD
  · simp only [length_store16]
  · intro i _
    have hb0 : byte_at P o = P.getD o 0 := Nat.mod_eq_of_lt h0
    have hb1 : byte_at P (o + 1) = P.getD (o + 1) 0 := Nat.mod_eq_of_lt h1
    by_cases e0 : i = o
    · subst e0
      rw [getD_store16_lo _ _ _ (by simp only [length_store16]; omega)]
      unfold load16
      rw [hb0, hb1]
      omega
    by_cases e1 : i = o + 1
    · subst e1
      rw [getD_store16_hi _ _ _ (by simp only [length_store16]; omega)]
      unfold load16
      rw [hb0, hb1]
      omega
    rw [getD_store16 _ _ _ _ e0 e1, getD_store16 _ _ _ _ e0 e1]

theorem set_set (s : State) (buf : buf_ref) (a b : buf_t) :
    (s.set buf a).set buf b = s.set buf b := by
  cases buf <;> rfl

theorem buf_remove_header_payload (b : buf_t) (n : Nat) :
    (buf_remove_header b n).payload = b.payload := by
  unfold buf_remove_header
  split <;> rfl

theorem ip_in_accept_eq (s : State) (buf : buf_ref) (src_mac : List Nat)
    (hlen : 20 ≤ (s.get buf).len)
    (hver : byte_at (s.get buf).payload (s.get buf).data / 16 = IP_VERSION_4)
    (htot : swap16 (load16 (s.get buf).payload ((s.get buf).data + 2)) ≤ (s.get buf).len)
    (hck : checksum16 ((store16 (s.get buf).payload ((s.get buf).data + 10) 0).drop
        (s.get buf).data) 20 = load16 (s.get buf).payload ((s.get buf).data + 10))
    (hdst : bytes_from (s.get buf).payload ((s.get buf).data + 16) NET_IP_LEN =
        bytes_from s.net_if_ip 0 NET_IP_LEN)
    (hwf : (s.get buf).data + (s.get buf).len ≤ (s.get buf).payload.length)
    (hb0 : (s.get buf).payload.getD ((s.get buf).data + 10) 0 < 256)
    (hb1 : (s.get buf).payload.getD ((s.get buf).data + 10 + 1) 0 < 256) :
    ip_in s buf src_mac =
      if (net_in_transport
          (s.set buf (buf_remove_header
            ⟨swap16 (load16 (s.get buf).payload ((s.get buf).data + 2)), (s.get buf).data,
              (s.get buf).payload⟩ 20))
          buf (byte_at (s.get buf).payload ((s.get buf).data + 9))
          (bytes_from (s.get buf).payload ((s.get buf).data + 12) NET_IP_LEN)).2 < 0 then
        icmp_unreachable
          ((net_in_transport
            (s.set buf (buf_remove_header
              ⟨swap16 (load16 (s.get buf).payload ((s.get buf).data + 2)), (s.get buf).data,
                (s.get buf).payload⟩ 20))
            buf (byte_at (s.get buf).payload ((s.get buf).data + 9))
            (bytes_from (s.get buf).payload ((s.get buf).data + 12) NET_IP_LEN)).1.set buf
            (buf_add_header ((net_in_transport
              (s.set buf (buf_remove_header
                ⟨swap16 (load16 (s.get buf).payload ((s.get buf).data + 2)), (s.get buf).data,
                  (s.get buf).payload⟩ 20))
              buf (byte_at (s.get buf).payload ((s.get buf).data + 9))
              (bytes_from (s.get buf).payload ((s.get buf).data + 12) NET_IP_LEN)).1.get buf)
              20))
          buf
          (bytes_from (((net_in_transport
            (s.set buf (buf_remove_header
              ⟨swap16 (load16 (s.get buf).payload ((s.get buf).data + 2)), (s.get buf).data,
                (s.get buf).payload⟩ 20))
            buf (byte_at (s.get buf).payload ((s.get buf).data + 9))
            (bytes_from (s.get buf).payload ((s.get buf).data + 12) NET_IP_LEN)).1.set buf
            (buf_add_header ((net_in_transport
              (s.set buf (buf_remove_header
                ⟨swap16 (load16 (s.get buf).payload ((s.get buf).data + 2)), (s.get buf).data,
                  (s.get buf).payload⟩ 20))
              buf (byte_at (s.get buf).payload ((s.get buf).data + 9))
              (bytes_from (s.get buf).payload ((s.get buf).data + 12) NET_IP_LEN)).1.get buf)
              20)).get buf).payload ((s.get buf).data + 12) NET_IP_LEN)
          ICMP_CODE_PROTOCOL_UNREACH
      else
        (net_in_transport
          (s.set buf (buf_remove_header
            ⟨swap16 (load16 (s.get buf).payload ((s.get buf).data + 2)), (s.get buf).data,
              (s.get buf).payload⟩ 20))
          buf (byte_at (s.get buf).payload ((s.get buf).data + 9))
          (bytes_from (s.get buf).payload ((s.get buf).data + 12) NET_IP_LEN)).1 := by
  have hre := store16_restore (s.get buf).payload ((s.get buf).data + 10) hb0 hb1 (by omega)
  have hpad : (if (s.get buf).len > swap16 (load16 (s.get buf).payload ((s.get buf).data + 2))
      then buf_remove_padding ⟨(s.get buf).len, (s.get buf).data, (s.get buf).payload⟩
        ((s.get buf).len - swap16 (load16 (s.get buf).payload ((s.get buf).data + 2)))
      else ⟨(s.get buf).len, (s.get buf).data, (s.get buf).payload⟩) =
      (⟨swap16 (load16 (s.get buf).payload ((s.get buf).data + 2)), (s.get buf).data,
        (s.get buf).payload⟩ : buf_t) := by
    split
    · unfold buf_remove_padding
      rw [if_neg (by simp only []; omega)]
      simp only []
      congr 1
      omega
    · congr 1
      omega
  unfold ip_in
  simp only [if_neg (Nat.not_lt.mpr hlen), hver, if_neg (Nat.not_lt.mpr htot), hck, ne_eq,
    not_true_eq_false, if_false, hre, set_set, set_net_if_ip, hdst, hpad,
    buf_remove_header_payload]

theorem set_net_table (s : State) (buf : buf_ref) (b : buf_t) :
    (s.set buf b).net_table = s.net_table := by
  cases buf <;> rfl

theorem set_txbuf_other (s : State) (buf : buf_ref) (b : buf_t) (h : buf ≠ buf_ref.txbuf) :
    (s.set buf b).txbuf = s.txbuf := by
  cases buf
  · exact absurd rfl h
  · rfl
  · rfl
  · rfl

theorem getD_lt_of_bytes (P : List Nat) (h : ∀ x ∈ P, x < 256) (i : Nat) : P.getD i 0 < 256 := by
  by_cases hi : i < P.length
  · rw [List.getD_eq_getElem?_getD, List.getElem?_eq_getElem hi]
    exact h _ (List.getElem_mem _)
  · rw [getD_oob _ _ (by omega)]
    decide

/-- C13, failing input.  The datagram of `short_total_state` passes every check of
`ip_in` (length 28, version 4, declared total length 10 at most the buffer length,
correct header checksum, local destination) and its protocol, ICMP, has a registered
handler.  Bytes `[20, 10)` of the received buffer are no bytes, yet the handler is called
with the first 10 bytes of the IP header as payload: the truncation to the declared length
leaves 10 bytes, `buf_remove_header(buf, 20)` is refused on them and its result is not
looked at. -/
theorem ip_in_short_total_length_passes_header :
    20 ≤ (short_total_state.get buf_ref.rxbuf).len ∧
    byte_at (short_total_state.get buf_ref.rxbuf).payload
      (short_total_state.get buf_ref.rxbuf).data / 16 = 4 ∧
    swap16 (load16 (short_total_state.get buf_ref.rxbuf).payload
      ((short_total_state.get buf_ref.rxbuf).data + 2)) = 10 ∧
    checksum16 ((store16 (short_total_state.get buf_ref.rxbuf).payload
      ((short_total_state.get buf_ref.rxbuf).data + 10) 0).drop
        (short_total_state.get buf_ref.rxbuf).data) 20 =
      load16 (short_total_state.get buf_ref.rxbuf).payload
        ((short_total_state.get buf_ref.rxbuf).data + 10) ∧
    bytes_from (short_total_state.get buf_ref.rxbuf).payload
      ((short_total_state.get buf_ref.rxbuf).data + 16) 4 =
      bytes_from short_total_state.net_if_ip 0 4 ∧
    byte_at (short_total_state.get buf_ref.rxbuf).payload
      ((short_total_state.get buf_ref.rxbuf).data + 9) ∈ short_total_state.net_table ∧
    bytes_from (short_total_state.get buf_ref.rxbuf).payload
      ((short_total_state.get buf_ref.rxbuf).data + 20) (10 - 20) = [] ∧
    dispatches (ip_in short_total_state buf_ref.rxbuf []).trace =
      [Event.handler NET_PROTOCOL_ICMP [0x45, 0, 0, 10, 0, 0, 0, 0, 64, 1] [10, 0, 0, 2]] := by
  have hck : checksum16 ((store16 (short_total_state.get buf_ref.rxbuf).payload
      ((short_total_state.get buf_ref.rxbuf).data + 10) 0).drop
        (short_total_state.get buf_ref.rxbuf).data) 20 =
      load16 (short_total_state.get buf_ref.rxbuf).payload
        ((short_total_state.get buf_ref.rxbuf).data + 10) := by
    simp [short_total_state, State.get, checksum16, checksum16_fold, store16, load16,
      byte_at, read16, List.range, List.range.loop, List.replicate]
  refine ⟨by decide, by decide, by decide, hck, by decide, by decide, by decide, ?_⟩
  rw [ip_in_accept_eq short_total_state buf_ref.rxbuf [] (by decide) (by decide) (by decide)
    hck (by decide) (by decide) (by decide) (by decide)]
  decide

/-! ## udp_in: the closed port -/

theorem set_udp_table (s : State) (buf : buf_ref) (b : buf_t) :
    (s.set buf b).udp_table = s.udp_table := by
  cases buf <;> rfl

theorem load16_congr (a b : List Nat) (o : Nat) (h0 : a.getD o 0 = b.getD o 0)
    (h1 : a.getD (o + 1) 0 = b.getD (o + 1) 0) : load16 a o = load16 b o := by
  unfold load16 byte_at
  rw [h0, h1]

theorem udp_in_closed_port (s : State) (buf : buf_ref) (src_ip : List Nat)
    (hbuf : buf ≠ buf_ref.txbuf)
    (hlen : 8 ≤ (s.get buf).len)
    (htot : swap16 (load16 (s.get buf).payload ((s.get buf).data + 4)) ≤ (s.get buf).len)
    (hroom : 20 ≤ (s.get buf).data)
    (hpad : (s.get buf).data + (s.get buf).len + 1 ≤ (s.get buf).payload.length)
    (hck : load16 (s.get buf).payload ((s.get buf).data + 6) =
      (transport_checksum NET_PROTOCOL_UDP
        ⟨(s.get buf).len, (s.get buf).data,
          store16 (s.get buf).payload ((s.get buf).data + 6) 0⟩ src_ip s.net_if_ip).1)
    (hport : swap16 (load16 (s.get buf).payload ((s.get buf).data + 2)) ∉ s.udp_table)
    (hcap : 74 ≤ s.txbuf.payload.length) :
    ∃ t, (udp_in s buf src_ip).trace = s.trace ++
        [Event.icmp_unreachable
          (bytes_from (store16 (s.get buf).payload ((s.get buf).data + 6) 0)
            ((s.get buf).data - 20) ((s.get buf).len + 20)) src_ip ICMP_CODE_PORT_UNREACH,
         Event.ip_out (icmp_unreach_wire ICMP_CODE_PORT_UNREACH
            (bytes_from (s.get buf).payload ((s.get buf).data - 20) 20)
            (bytes_from (store16 (s.get buf).payload ((s.get buf).data + 6) 0)
              (s.get buf).data 8)) src_ip NET_PROTOCOL_ICMP,
         Event.ip_fragment_out (icmp_unreach_wire ICMP_CODE_PORT_UNREACH
            (bytes_from (s.get buf).payload ((s.get buf).data - 20) 20)
            (bytes_from (store16 (s.get buf).payload ((s.get buf).data + 6) 0)
              (s.get buf).data 8)) src_ip NET_PROTOCOL_ICMP s.packet_id 0 0] ++ t ∧
      ∀ e ∈ t, e.is_link = true := by
  obtain ⟨r1, r2, r3, r4⟩ := transport_checksum_buf NET_PROTOCOL_UDP
    ⟨(s.get buf).len, (s.get buf).data, store16 (s.get buf).payload ((s.get buf).data + 6) 0⟩
    src_ip s.net_if_ip hroom (by simp only [length_store16]; exact hpad)
  simp only [] at r1 r2 r3 r4
  generalize hR : transport_checksum NET_PROTOCOL_UDP
    ⟨(s.get buf).len, (s.get buf).data, store16 (s.get buf).payload ((s.get buf).data + 6) 0⟩
    src_ip s.net_if_ip = R at hck r1 r2 r3 r4
  have hport2 : swap16 (load16 R.2.payload ((s.get buf).data + 2)) ∉ s.udp_table := by
    rw [load16_congr R.2.payload (s.get buf).payload ((s.get buf).data + 2)
      (by rw [r4 _ (by omega), getD_store16 _ _ _ _ (by omega) (by omega)])
      (by rw [r4 _ (by omega), getD_store16 _ _ _ _ (by omega) (by omega)])]
    exact hport
  have hadd : buf_add_header R.2 20 =
      ⟨(s.get buf).len + 20, (s.get buf).data - 20, R.2.payload⟩ := by
    unfold buf_add_header
    rw [if_neg (by rw [r2]; omega), r1, r2]
  have heq : udp_in s buf src_ip =
      icmp_unreachable
        (s.set buf ⟨(s.get buf).len + 20, (s.get buf).data - 20, R.2.payload⟩)
        buf src_ip ICMP_CODE_PORT_UNREACH := by
    unfold udp_in
    simp only [if_neg (Nat.not_lt.mpr hlen), if_neg (Nat.not_lt.mpr htot), hR, hck, ne_eq,
      not_true_eq_false, if_false, set_udp_table, hport2, not_false_eq_true, if_true, set_set,
      hadd]
  rw [heq]
  obtain ⟨t, ht, hl⟩ := icmp_unreachable_spec
    (s.set buf ⟨(s.get buf).len + 20, (s.get buf).data - 20, R.2.payload⟩)
    buf src_ip ICMP_CODE_PORT_UNREACH hbuf (by rw [set_txbuf_other _ _ _ hbuf]; exact hcap)
  rw [get_set, set_trace, set_packet_id] at ht
  simp only [buf_t.bytes] at ht
  have e1 : bytes_from R.2.payload ((s.get buf).data - 20) ((s.get buf).len + 20) =
      bytes_from (store16 (s.get buf).payload ((s.get buf).data + 6) 0)
        ((s.get buf).data - 20) ((s.get buf).len + 20) := by
    apply bytes_from_ext
    intro i hi
    exact r4 _ (by omega)
  have e2 : bytes_from R.2.payload ((s.get buf).data - 20) 20 =
      bytes_from (s.get buf).payload ((s.get buf).data - 20) 20 := by
    apply bytes_from_ext
    intro i hi
    rw [r4 _ (by omega), getD_store16 _ _ _ _ (by omega) (by omega)]
  have e3 : bytes_from R.2.payload ((s.get buf).data - 20 + 20) 8 =
      bytes_from (store16 (s.get buf).payload ((s.get buf).data + 6) 0) (s.get buf).data 8 := by
    rw [show (s.get buf).data - 20 + 20 = (s.get buf).data from by omega]
    apply bytes_from_ext
    intro i hi
    exact r4 _ (by omega)
  rw [e1, e2, e3] at ht
  exact ⟨t, ht, hl⟩

theorem net_in_transport_udp (S : State) (buf : buf_ref) (protocol : Nat) (src : List Nat)
    (h : protocol = NET_PROTOCOL_UDP) (hreg : NET_PROTOCOL_UDP ∈ S.net_table) :
    net_in_transport S buf protocol src =
      (udp_in (S.log (Event.handler NET_PROTOCOL_UDP (S.get buf).bytes src)) buf src, 0) := by
  subst h
  unfold net_in_transport
  rw [if_pos hreg, if_neg (by decide), if_pos rfl]

/-- C16, failing input.  The UDP datagram of `udp_closed_port_state` passes the length and
checksum checks of `udp_in` and its destination port 9999 is closed.  Its UDP header was
received with the checksum bytes `87, 141`; the ICMP port-unreachable message handed to
`ip_out` embeds, after the IP header of the datagram, that UDP header with the checksum
bytes `0, 0`: `udp_in` zeroes the field to verify the checksum and never restores it. -/
theorem udp_port_unreachable_embeds_zeroed_checksum :
    bytes_from (udp_closed_port_state.get buf_ref.rxbuf).payload
      ((udp_closed_port_state.get buf_ref.rxbuf).data + 20) 8 =
      [0x04, 0xD2, 0x27, 0x0F, 0, 10, 87, 141] ∧
    ip_out_calls (ip_in udp_closed_port_state buf_ref.rxbuf []).trace =
      [Event.ip_out
        (icmp_unreach_wire ICMP_CODE_PORT_UNREACH
          [0x45, 0, 0, 30, 0, 0, 0, 0, 64, 17, 102, 205, 10, 0, 0, 2, 10, 0, 0, 1]
          [0x04, 0xD2, 0x27, 0x0F, 0, 10, 0, 0])
        [10, 0, 0, 2] NET_PROTOCOL_ICMP] := by
  refine ⟨by decide, ?_⟩
  have hck : checksum16 ((store16 (udp_closed_port_state.get buf_ref.rxbuf).payload
      ((udp_closed_port_state.get buf_ref.rxbuf).data + 10) 0).drop
        (udp_closed_port_state.get buf_ref.rxbuf).data) 20 =
      load16 (udp_closed_port_state.get buf_ref.rxbuf).payload
        ((udp_closed_port_state.get buf_ref.rxbuf).data + 10) := by
    simp [udp_closed_port_state, State.get, checksum16, checksum16_fold, store16, load16,
      byte_at, read16, List.range, List.range.loop, List.replicate]
  rw [ip_in_accept_eq udp_closed_port_state buf_ref.rxbuf [] (by decide) (by decide)
    (by decide) hck (by decide) (by decide) (by decide) (by decide)]
  rw [net_in_transport_udp _ _ _ _ (by decide) (by decide)]
  simp only []
  rw [if_neg (by decide)]
  rw [show bytes_from (udp_closed_port_state.get buf_ref.rxbuf).payload
    ((udp_closed_port_state.get buf_ref.rxbuf).data + 12) NET_IP_LEN = [10, 0, 0, 2] from
    by decide]
  generalize hS2 : (udp_closed_port_state.set buf_ref.rxbuf
    (buf_remove_header
      ⟨swap16 (load16 (udp_closed_port_state.get buf_ref.rxbuf).payload
        ((udp_closed_port_state.get buf_ref.rxbuf).data + 2)),
        (udp_closed_port_state.get buf_ref.rxbuf).data,
        (udp_closed_port_state.get buf_ref.rxbuf).payload⟩ 20)).log
    (Event.handler NET_PROTOCOL_UDP
      ((udp_closed_port_state.set buf_ref.rxbuf
        (buf_remove_header
          ⟨swap16 (load16 (udp_closed_port_state.get buf_ref.rxbuf).payload
            ((udp_closed_port_state.get buf_ref.rxbuf).data + 2)),
            (udp_closed_port_state.get buf_ref.rxbuf).data,
            (udp_closed_port_state.get buf_ref.rxbuf).payload⟩ 20)).get buf_ref.rxbuf).bytes
      [10, 0, 0, 2]) = S2
  have g1 : S2.get buf_ref.rxbuf = ⟨10, 34, udp_closed_port_state.rxbuf.payload⟩ := by
    rw [← hS2]
    rfl
  have g2 : ip_out_calls S2.trace = [] := by
    rw [← hS2]
    rfl
  have g3 : S2.net_if_ip = [10, 0, 0, 1] := by
    rw [← hS2]
    rfl
  have g4 : S2.udp_table = [53] := by
    rw [← hS2]
    rfl
  have g5 : S2.txbuf = ⟨4, 56, List.replicate 120 0⟩ := by
    rw [← hS2]
    rfl
  have hb : buf_t.bytes ⟨10, 34, store16 udp_closed_port_state.rxbuf.payload (34 + 6) 0⟩ =
      [0x04, 0xD2, 0x27, 0x0F, 0, 10, 0, 0, 0x68, 0x69] := by decide
  have hld : load16 udp_closed_port_state.rxbuf.payload (34 + 6) = 36183 := by decide
  have hsum : checksum16 [10, 0, 0, 2, 10, 0, 0, 1, 0, 17, 0, 10, 0x04, 0xD2, 0x27, 0x0F, 0, 10,
      0, 0, 0x68, 0x69] 22 = 36183 := by
    have hraw : rawsum [10, 0, 0, 2, 10, 0, 0, 1, 0, 17, 0, 10, 0x04, 0xD2, 0x27, 0x0F, 0, 10,
        0, 0, 0x68, 0x69] 22 = 94887 := by decide
    rw [checksum16_eq _ _ (by decide), hraw, checksum16_fold, if_pos (by decide),
      checksum16_fold, if_neg (by decide)]
    decide
  obtain ⟨t, ht, hl⟩ := udp_in_closed_port S2 buf_ref.rxbuf [10, 0, 0, 2] (by decide)
    (by rw [g1]; decide) (by rw [g1]; decide) (by rw [g1]; decide) (by rw [g1]; decide)
    (by
      rw [g1, g3]
      simp only []
      rw [transport_checksum_eq _ _ _ _ (by decide) (by decide) (by decide), hb, hld]
      exact hsum.symm)
    (by rw [g1, g4]; decide) (by rw [g5]; decide)
  obtain ⟨l1, _, _, _⟩ := link_trace t hl
  rw [ht, g1]
  simp only []
  rw [show bytes_from udp_closed_port_state.rxbuf.payload (34 - 20) 20 =
      [0x45, 0, 0, 30, 0, 0, 0, 0, 64, 17, 102, 205, 10, 0, 0, 2, 10, 0, 0, 1] from by decide,
    show bytes_from (store16 udp_closed_port_state.rxbuf.payload (34 + 6) 0) 34 8 =
      [0x04, 0xD2, 0x27, 0x0F, 0, 10, 0, 0] from by decide]
  simp [ip_out_calls_append, ip_out_calls, g2, l1]

/-! ## ip_in: the dispatch -/

theorem handler_calls_append (a b : List Event) :
    handler_calls (a ++ b) = handler_calls a ++ handler_calls b := by
  induction a with
  | nil => rfl
  | cons e t ih => cases e <;> simp [handler_calls, ih]

theorem handler_calls_link (t : List Event) (h : ∀ e ∈ t, e.is_link = true) :
    handler_calls t = [] := by
  induction t with
  | nil => rfl
  | cons e t ih =>
    have he := h e (List.mem_cons_self _ _)
    have ht := ih (fun x hx => h x (List.mem_cons_of_mem _ hx))
    cases e <;> simp [Event.is_link] at he <;> simp [handler_calls, ht]

theorem handler_calls_arp_out (S : State) (buf : buf_ref) (ip : List Nat) :
    handler_calls (arp_out S buf ip).trace = handler_calls S.trace := by
  obtain ⟨t, ht, hl⟩ := arp_out_link S buf ip
  rw [ht, handler_calls_append, handler_calls_link t hl, List.append_nil]

theorem handler_calls_ip_fragment_out (s : State) (buf : buf_ref) (ip : List Nat)
    (protocol id offset mf : Nat) :
    handler_calls (ip_fragment_out s buf ip protocol id offset mf).trace =
      handler_calls s.trace := by
  obtain ⟨p, _, he⟩ := ip_fragment_out_eq s buf ip protocol id offset mf
  rw [he, handler_calls_arp_out, set_trace]
  simp [State.log, handler_calls_append, handler_calls]

theorem handler_calls_ip_out_loop (buf : buf_ref) (ip : List Nat) (protocol id : Nat) :
    ∀ (r : Nat) (s : State) (d f : Nat), r < 65536 →
      handler_calls (ip_out_loop buf ip protocol id s r d f).trace = handler_calls s.trace := by
  intro r
  induction r using Nat.strong_induction_on with
  | _ r ih =>
    intro s d f hr
    by_cases h0 : 0 < r
    · rw [ip_out_loop_step buf ip protocol id s r d f h0]
      have hlt := ip_out_loop_lt r h0 hr
      have key : ∀ (S1 : State) (mf r1 d1 f1 : Nat), S1.trace = s.trace → r1 < r →
          handler_calls (ip_out_loop buf ip protocol id
            (ip_fragment_out S1 buf_ref.ip_buf ip protocol id f mf) r1 d1 f1).trace =
            handler_calls s.trace := by
        intro S1 mf r1 d1 f1 e1 hr1
        rw [ih r1 hr1 _ d1 f1 (by omega), handler_calls_ip_fragment_out, e1]
      exact key _ _ _ _ _ rfl hlt
    · have : r = 0 := by omega
      subst this
      rw [ip_out_loop_done]

theorem handler_calls_ip_out (s : State) (buf : buf_ref) (ip : List Nat) (protocol : Nat) :
    handler_calls (ip_out s buf ip protocol).trace = handler_calls s.trace := by
  have htr : handler_calls (s.trace ++ [Event.ip_out (s.get buf).bytes ip protocol]) =
      handler_calls s.trace := by
    simp [handler_calls_append, handler_calls]
  have h1 : ∀ S1 : State, handler_calls S1.trace = handler_calls s.trace →
      handler_calls (ip_fragment_out S1 buf ip protocol s.packet_id 0 0).trace =
        handler_calls s.trace := by
    intro S1 e
    rw [handler_calls_ip_fragment_out, e]
  have h2 : ∀ (S1 : State) (r : Nat), handler_calls S1.trace = handler_calls s.trace →
      r < 65536 →
      handler_calls (ip_out_loop buf ip protocol s.packet_id S1 r 0 0).trace =
        handler_calls s.trace := by
    intro S1 r e hr
    rw [handler_calls_ip_out_loop buf ip protocol s.packet_id r S1 0 0 hr, e]
  unfold ip_out
  simp only []
  split
  · exact h1 _ htr
  · exact h2 _ _ htr (Nat.mod_lt _ (by decide))

theorem icmp_resp_eq (S : State) (req : buf_ref) (src : List Nat) :
    ∃ S1 : State, S1.trace = S.trace ∧
      icmp_resp S req src = ip_out S1 buf_ref.txbuf src NET_PROTOCOL_ICMP := by
  refine ⟨?S1, ?tr, ?eq⟩
  case eq =>
    unfold icmp_resp
    exact rfl
  case tr => rfl

theorem handler_calls_icmp_in (S : State) (buf : buf_ref) (src : List Nat) :
    handler_calls (icmp_in S buf src).trace = handler_calls S.trace := by
  unfold icmp_in
  simp only []
  split
  · rfl
  split
  · obtain ⟨S1, e1, e2⟩ := icmp_resp_eq S buf src
    rw [e2, handler_calls_ip_out, e1]
  · rfl

theorem icmp_unreachable_eq (S : State) (recv : buf_ref) (src : List Nat) (code : Nat) :
    ∃ S1 : State, S1.trace = S.trace ++ [Event.icmp_unreachable (S.get recv).bytes src code] ∧
      icmp_unreachable S recv src code = ip_out S1 buf_ref.txbuf src NET_PROTOCOL_ICMP := by
  refine ⟨?S1, ?tr, ?eq⟩
  case eq =>
    unfold icmp_unreachable
    exact rfl
  case tr => rfl

theorem handler_calls_icmp_unreachable (S : State) (recv : buf_ref) (src : List Nat)
    (code : Nat) :
    handler_calls (icmp_unreachable S recv src code).trace = handler_calls S.trace := by
  obtain ⟨S1, e1, e2⟩ := icmp_unreachable_eq S recv src code
  rw [e2, handler_calls_ip_out, e1]
  simp [handler_calls_append, handler_calls]

theorem handler_calls_udp_in (S : State) (buf : buf_ref) (src : List Nat) :
    handler_calls (udp_in S buf src).trace = handler_calls S.trace := by
  unfold udp_in
  simp only []
  split
  · rfl
  split
  · rfl
  split
  · rw [set_trace]
  split
  · rw [handler_calls_icmp_unreachable, set_trace, set_trace]
  · simp [State.log, set_trace, handler_calls_append, handler_calls]

theorem net_in_transport_registered (S : State) (buf : buf_ref) (protocol : Nat)
    (src : List Nat) (hreg : protocol ∈ S.net_table) :
    (net_in_transport S buf protocol src).2 = 0 ∧
    handler_calls (net_in_transport S buf protocol src).1.trace =
      handler_calls S.trace ++ [Event.handler protocol (S.get buf).bytes src] := by
  have hlog : handler_calls (S.log (Event.handler protocol (S.get buf).bytes src)).trace =
      handler_calls S.trace ++ [Event.handler protocol (S.get buf).bytes src] := by
    simp [State.log, handler_calls_append, handler_calls]
  unfold net_in_transport
  rw [if_pos hreg]
  simp only []
  split
  · exact ⟨rfl, by rw [handler_calls_icmp_in, hlog]⟩
  split
  · exact ⟨rfl, by rw [handler_calls_udp_in, hlog]⟩
  · exact ⟨rfl, hlog⟩

/-- The dispatch of an accepted datagram whose declared total length is at least 20: the
handler registered for the protocol of the header is called exactly once, with bytes
`[20, total length)` of the received buffer and the source address of the header. -/
theorem ip_in_dispatch (s : State) (buf : buf_ref) (src_mac : List Nat)
    (hlen : 20 ≤ (s.get buf).len)
    (hver : byte_at (s.get buf).payload (s.get buf).data / 16 = IP_VERSION_4)
    (hmin : 20 ≤ swap16 (load16 (s.get buf).payload ((s.get buf).data + 2)))
    (htot : swap16 (load16 (s.get buf).payload ((s.get buf).data + 2)) ≤ (s.get buf).len)
    (hck : checksum16 ((store16 (s.get buf).payload ((s.get buf).data + 10) 0).drop
        (s.get buf).data) 20 = load16 (s.get buf).payload ((s.get buf).data + 10))
    (hdst : bytes_from (s.get buf).payload ((s.get buf).data + 16) NET_IP_LEN =
        bytes_from s.net_if_ip 0 NET_IP_LEN)
    (hwf : (s.get buf).data + (s.get buf).len ≤ (s.get buf).payload.length)
    (hbytes : ∀ x ∈ (s.get buf).payload, x < 256)
    (hreg : byte_at (s.get buf).payload ((s.get buf).data + 9) ∈ s.net_table) :
    handler_calls (ip_in s buf src_mac).trace = handler_calls s.trace ++
      [Event.handler (byte_at (s.get buf).payload ((s.get buf).data + 9))
        (bytes_from (s.get buf).payload ((s.get buf).data + 20)
          (swap16 (load16 (s.get buf).payload ((s.get buf).data + 2)) - 20))
        (bytes_from (s.get buf).payload ((s.get buf).data + 12) NET_IP_LEN)] := by
  rw [ip_in_accept_eq s buf src_mac hlen hver htot hck hdst hwf
    (getD_lt_of_bytes _ hbytes _) (getD_lt_of_bytes _ hbytes _)]
  have hrm : buf_remove_header
      ⟨swap16 (load16 (s.get buf).payload ((s.get buf).data + 2)), (s.get buf).data,
        (s.get buf).payload⟩ 20 =
      ⟨swap16 (load16 (s.get buf).payload ((s.get buf).data + 2)) - 20, (s.get buf).data + 20,
        (s.get buf).payload⟩ := by
    unfold buf_remove_header
    rw [if_neg (by simp only []; omega)]
  rw [hrm]
  obtain ⟨n1, n2⟩ := net_in_transport_registered
    (s.set buf ⟨swap16 (load16 (s.get buf).payload ((s.get buf).data + 2)) - 20,
      (s.get buf).data + 20, (s.get buf).payload⟩)
    buf (byte_at (s.get buf).payload ((s.get buf).data + 9))
    (bytes_from (s.get buf).payload ((s.get buf).data + 12) NET_IP_LEN)
    (by rw [set_net_table]; exact hreg)
  rw [if_neg (by rw [n1]; decide), n2, set_trace, get_set]
  rfl

/-! ## UDP: send and receive round trip -/

theorem bytes_from_eight (m : List Nat) (o : Nat) :
    bytes_from m o 8 = [m.getD o 0, m.getD (o + 1) 0, m.getD (o + 2) 0, m.getD (o + 3) 0,
      m.getD (o + 4) 0, m.getD (o + 5) 0, m.getD (o + 6) 0, m.getD (o + 7) 0] := by
  simp [bytes_from, List.range, List.range.loop]

theorem checksum16_lt (data : List Nat) (len : Nat) : checksum16 data len < 65536 := by
  unfold checksum16
  exact Nat.mod_lt _ (by decide)

theorem udp_segment_spec_length (sp dp L : Nat) (c0 c1 : Nat) (data : List Nat) :
    (udp_segment_spec sp dp L [c0, c1] data).length = data.length + 8 := by
  simp [udp_segment_spec]

/-- The bytes of a buffer whose first eight bytes are a UDP header and whose rest is the
data. -/
theorem udp_segment_bytes (Q : List Nat) (u n sp dp L c0 c1 : Nat) (data : List Nat)
    (h0 : Q.getD u 0 = sp / 256 % 256) (h1 : Q.getD (u + 1) 0 = sp % 256)
    (h2 : Q.getD (u + 2) 0 = dp / 256 % 256) (h3 : Q.getD (u + 3) 0 = dp % 256)
    (h4 : Q.getD (u + 4) 0 = L / 256 % 256) (h5 : Q.getD (u + 5) 0 = L % 256)
    (h6 : Q.getD (u + 6) 0 = c0) (h7 : Q.getD (u + 7) 0 = c1)
    (hd : bytes_from Q (u + 8) n = data) :
    bytes_from Q u (n + 8) = udp_segment_spec sp dp L [c0, c1] data := by
  rw [show n + 8 = 8 + n from Nat.add_comm _ _, bytes_from_append, hd, bytes_from_eight,
    h0, h1, h2, h3, h4, h5, h6, h7]
  rfl

theorem udp_segment_spec_getD (sp dp L a b c0 c1 : Nat) (data : List Nat) (i : Nat)
    (h6 : i ≠ 6) (h7 : i ≠ 7) :
    (udp_segment_spec sp dp L [a, b] data).getD i 0 =
      (udp_segment_spec sp dp L [c0, c1] data).getD i 0 := by
  unfold udp_segment_spec
  rcases i with _ | _ | _ | _ | _ | _ | _ | _ | i <;> simp at h6 h7 ⊢

/-- Replacing the two checksum bytes of a segment held in memory. -/
theorem udp_segment_set_ck (Q Q2 : List Nat) (u n sp dp L a b c0 c1 : Nat) (data : List Nat)
    (hlen : data.length = n)
    (h : bytes_from Q u (n + 8) = udp_segment_spec sp dp L [a, b] data)
    (hfr : ∀ i, i < n + 8 → i ≠ 6 → i ≠ 7 → Q2.getD (u + i) 0 = Q.getD (u + i) 0)
    (h6 : Q2.getD (u + 6) 0 = c0) (h7 : Q2.getD (u + 7) 0 = c1) :
    bytes_from Q2 u (n + 8) = udp_segment_spec sp dp L [c0, c1] data := by
  apply list_ext_getD
  · rw [length_bytes_from, udp_segment_spec_length, hlen]
  · intro i hi
    rw [length_bytes_from] at hi
    rw [getD_bytes_from _ _ _ _ hi]
    by_cases e6 : i = 6
    · subst e6
      rw [h6]
      simp [udp_segment_spec]
    · by_cases e7 : i = 7
      · subst e7
        rw [h7]
        simp [udp_segment_spec]
      · rw [hfr i hi e6 e7, ← getD_bytes_from Q u (n + 8) i hi, h]
        exact udp_segment_spec_getD sp dp L a b c0 c1 data i e6 e7

theorem load16_bytes (m : List Nat) (o v : Nat) (hv : v < 65536)
    (h0 : m.getD o 0 = v % 256) (h1 : m.getD (o + 1) 0 = v / 256 % 256) : load16 m o = v := by
  unfold load16 byte_at
  rw [h0, h1]
  omega

theorem load16_be (m : List Nat) (o v : Nat) (hv : v < 65536)
    (h0 : m.getD o 0 = v / 256 % 256) (h1 : m.getD (o + 1) 0 = v % 256) :
    swap16 (load16 m o) = v := by
  have hl : load16 m o = v / 256 % 256 + 256 * (v % 256) := by
    unfold load16 byte_at
    rw [h0, h1]
    omega
  have e1 : (v / 256 % 256 + 256 * (v % 256)) % 256 = v / 256 % 256 := by omega
  have e2 : (v / 256 % 256 + 256 * (v % 256)) / 256 % 256 = v % 256 := by omega
  rw [hl]
  unfold swap16
  rw [e1, e2]
  omega

/-- The segment `udp_out` builds in the buffer before it calls `ip_out`. -/
theorem udp_out_eq (s : State) (buf : buf_ref) (sp dp : Nat) (B : List Nat)
    (hfit : (s.get buf).len + 20 ≤ 65535)
    (hroom : 28 ≤ (s.get buf).data)
    (hcap : (s.get buf).data + (s.get buf).len + 1 ≤ (s.get buf).payload.length) :
    ∃ Pf, udp_out s buf sp B dp =
        ip_out (s.set buf ⟨(s.get buf).len + 8, (s.get buf).data - 8, Pf⟩) buf B
          NET_PROTOCOL_UDP ∧
      bytes_from Pf ((s.get buf).data - 8) ((s.get buf).len + 8) =
        udp_segment_wire (bytes_from s.net_if_ip 0 4) (bytes_from B 0 4) sp dp
          (s.get buf).bytes := by
  generalize hb : s.get buf = b at hfit hroom hcap
  obtain ⟨n, d, P⟩ := b
  simp only [] at hfit hroom hcap
  have hadd : buf_add_header ⟨n, d, P⟩ 8 = ⟨n + 8, d - 8, P⟩ := by
    unfold buf_add_header
    rw [if_neg (by simp only []; omega)]
  have hQ : ∃ Q, Q = store16 (store16 (store16 (store16 P (d - 8) (swap16 sp)) (d - 8 + 2)
      (swap16 dp)) (d - 8 + 4) (swap16 (n + 8))) (d - 8 + 6) 0 := ⟨_, rfl⟩
  obtain ⟨Q, hQd⟩ := hQ
  have hQl : Q.length = P.length := by rw [hQd]; simp only [length_store16]
  obtain ⟨r1, r2, r3, r4⟩ := transport_checksum_buf NET_PROTOCOL_UDP ⟨n + 8, d - 8, Q⟩
    s.net_if_ip B (by simp only []; omega) (by simp only []; omega)
  have r0 := transport_checksum_eq NET_PROTOCOL_UDP ⟨n + 8, d - 8, Q⟩ s.net_if_ip B
    (by simp only []; omega) (by simp only []; omega) (by simp only []; omega)
  simp only [] at r0 r1 r2 r3 r4
  have hdata : bytes_from Q (d - 8 + 8) n = bytes_from P d n := by
    rw [hQd, bytes_from_store16_other _ _ _ _ _ (by omega),
      bytes_from_store16_other _ _ _ _ _ (by omega),
      bytes_from_store16_other _ _ _ _ _ (by omega),
      bytes_from_store16_other _ _ _ _ _ (by omega), show d - 8 + 8 = d from by omega]
  have hseg0 : bytes_from Q (d - 8) (n + 8) =
      udp_segment_spec sp dp (n + 8) [0, 0] (bytes_from P d n) := by
    refine udp_segment_bytes Q (d - 8) n sp dp (n + 8) 0 0 _ ?_ ?_ ?_ ?_ ?_ ?_ ?_ ?_ hdata
    · rw [hQd, getD_store16 _ _ _ _ (by omega) (by omega),
        getD_store16 _ _ _ _ (by omega) (by omega), getD_store16 _ _ _ _ (by omega) (by omega),
        getD_store16_lo _ _ _ (by omega), swap16_lo]
    · rw [hQd, getD_store16 _ _ _ _ (by omega) (by omega),
        getD_store16 _ _ _ _ (by omega) (by omega), getD_store16 _ _ _ _ (by omega) (by omega),
        getD_store16_hi _ _ _ (by omega), swap16_hi]
    · rw [hQd, getD_store16 _ _ _ _ (by omega) (by omega),
        getD_store16 _ _ _ _ (by omega) (by omega),
        getD_store16_lo _ _ _ (by simp only [length_store16]; omega), swap16_lo]
    · rw [hQd, getD_store16 _ _ _ _ (by omega) (by omega),
        getD_store16 _ _ _ _ (by omega) (by omega),
        show d - 8 + 3 = d - 8 + 2 + 1 from rfl,
        getD_store16_hi _ _ _ (by simp only [length_store16]; omega), swap16_hi]
    · rw [hQd, getD_store16 _ _ _ _ (by omega) (by omega),
        getD_store16_lo _ _ _ (by simp only [length_store16]; omega), swap16_lo]
    · rw [hQd, getD_store16 _ _ _ _ (by omega) (by omega),
        show d - 8 + 5 = d - 8 + 4 + 1 from rfl,
        getD_store16_hi _ _ _ (by simp only [length_store16]; omega), swap16_hi]
    · rw [hQd, getD_store16_lo _ _ _ (by simp only [length_store16]; omega)]
    · rw [hQd, show d - 8 + 7 = d - 8 + 6 + 1 from rfl,
        getD_store16_hi _ _ _ (by simp only [length_store16]; omega)]
  generalize hR : transport_checksum NET_PROTOCOL_UDP ⟨n + 8, d - 8, Q⟩ s.net_if_ip B = R
    at r0 r1 r2 r3 r4
  refine ⟨store16 R.2.payload (d - 8 + 6) R.1, ?_, ?_⟩
  · unfold udp_out
    simp only [hb, hadd, ← hQd, hR, r1, r2]
  · have hc : R.1 = udp_checksum_spec (bytes_from s.net_if_ip 0 4) (bytes_from B 0 4)
        (udp_segment_spec sp dp (n + 8) [0, 0] (bytes_from P d n)) := by
      rw [r0]
      unfold udp_checksum_spec
      simp only [buf_t.bytes, hseg0, udp_segment_spec_length, length_bytes_from]
      rfl
    unfold udp_segment_wire
    simp only [buf_t.bytes, length_bytes_from]
    rw [← hc]
    refine udp_segment_set_ck Q _ (d - 8) n sp dp (n + 8) 0 0 _ _ _ (length_bytes_from _ _ _)
      hseg0 ?_ ?_ ?_
    · intro i hi e6 e7
      rw [getD_store16 _ _ _ _ (by omega) (by omega), r4 _ (by omega)]
    · rw [getD_store16_lo _ _ _ (by omega)]
    · rw [show d - 8 + 7 = d - 8 + 6 + 1 from rfl, getD_store16_hi _ _ _ (by omega)]

/-- Receiving a well-formed segment: `udp_in` on a buffer that holds the wire segment for
the pair (source address presented, local address) hands the data to the port handler. -/
theorem udp_in_wire (r : State) (rbuf : buf_ref) (src : List Nat) (sp dp : Nat)
    (data : List Nat)
    (hb : (r.get rbuf).bytes =
      udp_segment_wire (bytes_from src 0 4) (bytes_from r.net_if_ip 0 4) sp dp data)
    (hsp : sp < 65536) (hdp : dp < 65536) (hfit : data.length + 20 ≤ 65535)
    (hroom : 20 ≤ (r.get rbuf).data)
    (hpad : (r.get rbuf).data + (r.get rbuf).len + 1 ≤ (r.get rbuf).payload.length)
    (hport : dp ∈ r.udp_table) :
    (udp_in r rbuf src).trace =
      r.trace ++ [Event.udp_handler dp data data.length src sp] := by
  generalize hget : r.get rbuf = b at hb hroom hpad
  obtain ⟨len, d, P⟩ := b
  simp only [buf_t.bytes] at hb hroom hpad
  have hlen : len = data.length + 8 := by
    have := congrArg List.length hb
    rw [length_bytes_from] at this
    rw [this]
    unfold udp_segment_wire
    simp only [udp_segment_spec_length]
  subst hlen
  have hc : ∃ c, c = udp_checksum_spec (bytes_from src 0 4) (bytes_from r.net_if_ip 0 4)
      (udp_segment_spec sp dp (data.length + 8) [0, 0] data) := ⟨_, rfl⟩
  obtain ⟨c, hcd⟩ := hc
  have hclt : c < 65536 := by rw [hcd]; exact checksum16_lt _ _
  have hb2 : bytes_from P d (data.length + 8) =
      udp_segment_spec sp dp (data.length + 8) [c % 256, c / 256 % 256] data := by
    rw [hb, hcd]
    rfl
  have hg : ∀ i, i < data.length + 8 → P.getD (d + i) 0 =
      (udp_segment_spec sp dp (data.length + 8) [c % 256, c / 256 % 256] data).getD i 0 := by
    intro i hi
    rw [← hb2, getD_bytes_from _ _ _ _ hi]
  have g0 : P.getD d 0 = sp / 256 % 256 := by
    have := hg 0 (by omega)
    simpa [udp_segment_spec] using this
  have g1 : P.getD (d + 1) 0 = sp % 256 := by
    have := hg 1 (by omega)
    simpa [udp_segment_spec] using this
  have g2 : P.getD (d + 2) 0 = dp / 256 % 256 := by
    have := hg 2 (by omega)
    simpa [udp_segment_spec] using this
  have g3 : P.getD (d + 3) 0 = dp % 256 := by
    have := hg 3 (by omega)
    simpa [udp_segment_spec] using this
  have g4 : P.getD (d + 4) 0 = (data.length + 8) / 256 % 256 := by
    have := hg 4 (by omega)
    simpa [udp_segment_spec] using this
  have g5 : P.getD (d + 5) 0 = (data.length + 8) % 256 := by
    have := hg 5 (by omega)
    simpa [udp_segment_spec] using this
  have g6 : P.getD (d + 6) 0 = c % 256 := by
    have := hg 6 (by omega)
    simpa [udp_segment_spec] using this
  have g7 : P.getD (d + 7) 0 = c / 256 % 256 := by
    have := hg 7 (by omega)
    simpa [udp_segment_spec] using this
  have hdat : bytes_from P (d + 8) data.length = data := by
    have h1 := hb2
    rw [show data.length + 8 = 8 + data.length from Nat.add_comm _ _, bytes_from_append] at h1
    have h2 : udp_segment_spec sp dp (8 + data.length) [c % 256, c / 256 % 256] data =
        [sp / 256 % 256, sp % 256, dp / 256 % 256, dp % 256, (8 + data.length) / 256 % 256,
          (8 + data.length) % 256, c % 256, c / 256 % 256] ++ data := rfl
    rw [h2] at h1
    exact (List.append_inj h1 (by rw [length_bytes_from]; rfl)).2
  -- the fields the function reads
  have hrecv : load16 P (d + 6) = c := load16_bytes P (d + 6) c hclt g6 g7
  have htot : swap16 (load16 P (d + 4)) = data.length + 8 :=
    load16_be P (d + 4) _ (by omega) g4 g5
  -- the checksum recomputed over the segment with the field zeroed
  have hseg0 : bytes_from (store16 P (d + 6) 0) d (data.length + 8) =
      udp_segment_spec sp dp (data.length + 8) [0, 0] data := by
    refine udp_segment_set_ck P _ d data.length sp dp (data.length + 8) _ _ 0 0 data rfl
      hb2 ?_ ?_ ?_
    · intro i hi e6 e7
      rw [getD_store16 _ _ _ _ (by omega) (by omega)]
    · rw [getD_store16_lo _ _ _ (by omega)]
    · rw [show d + 7 = d + 6 + 1 from rfl, getD_store16_hi _ _ _ (by omega)]
  obtain ⟨r1, r2, r3, r4⟩ := transport_checksum_buf NET_PROTOCOL_UDP
    ⟨data.length + 8, d, store16 P (d + 6) 0⟩ src r.net_if_ip hroom
    (by simp only [length_store16]; exact hpad)
  have r0 := transport_checksum_eq NET_PROTOCOL_UDP
    ⟨data.length + 8, d, store16 P (d + 6) 0⟩ src r.net_if_ip (by simp only []; omega) hroom
    (by simp only [length_store16]; exact hpad)
  simp only [] at r0 r1 r2 r3 r4
  have hcalc : (transport_checksum NET_PROTOCOL_UDP
      ⟨data.length + 8, d, store16 P (d + 6) 0⟩ src r.net_if_ip).1 = c := by
    rw [r0, hcd]
    unfold udp_checksum_spec
    simp only [buf_t.bytes, hseg0, udp_segment_spec_length]
    rfl
  generalize hR : transport_checksum NET_PROTOCOL_UDP
    ⟨data.length + 8, d, store16 P (d + 6) 0⟩ src r.net_if_ip = R at r0 r1 r2 r3 r4 hcalc
  have hport2 : swap16 (load16 R.2.payload (d + 2)) = dp :=
    load16_be _ (d + 2) dp hdp
      (by rw [r4 _ (by omega), getD_store16 _ _ _ _ (by omega) (by omega), g2])
      (by rw [r4 _ (by omega), getD_store16 _ _ _ _ (by omega) (by omega), g3])
  have hsport : swap16 (load16 R.2.payload d) = sp :=
    load16_be _ d sp hsp
      (by rw [r4 _ (by omega), getD_store16 _ _ _ _ (by omega) (by omega), g0])
      (by rw [r4 _ (by omega), getD_store16 _ _ _ _ (by omega) (by omega), g1])
  have hrem : buf_remove_header R.2 8 = ⟨data.length, d + 8, R.2.payload⟩ := by
    unfold buf_remove_header
    rw [if_neg (by rw [r1]; omega), r1, r2]
    rfl
  have hout : bytes_from R.2.payload (d + 8) data.length = data := by
    refine Eq.trans (bytes_from_ext _ P _ (d + 8) _ ?_) hdat
    intro i hi
    rw [r4 _ (by omega), getD_store16 _ _ _ _ (by omega) (by omega)]
  unfold udp_in
  simp only [hget, if_neg (show ¬ data.length + 8 < 8 from by omega), htot,
    if_neg (Nat.lt_irrefl _), hR, hrecv, hcalc, ne_eq, not_true_eq_false, if_false,
    set_udp_table, hport2, hport, not_true_eq_false, if_false, hrem, buf_t.bytes, hout, hsport,
    State.log, set_trace]

theorem udp_segment_wire_eq (src dst : List Nat) (sp dp : Nat) (data : List Nat) (c : Nat)
    (hc : udp_checksum_spec src dst (udp_segment_spec sp dp (data.length + 8) [0, 0] data) = c) :
    udp_segment_wire src dst sp dp data =
      udp_segment_spec sp dp (data.length + 8) [c % 256, c / 256 % 256] data := by
  subst hc
  rfl

theorem example_udp_checksum :
    udp_checksum_spec [10, 0, 0, 1] [10, 0, 0, 2]
      (udp_segment_spec 1234 53 12 [0, 0] [7, 7, 7, 7]) = 48856 := by
  have hraw : rawsum ([10, 0, 0, 1] ++ [10, 0, 0, 2] ++ [0, 17, 0, 12] ++
      [4, 210, 0, 53, 0, 12, 0, 0, 7, 7, 7, 7] ++ []) 24 = 82214 := by decide
  unfold udp_checksum_spec
  rw [show udp_segment_spec 1234 53 12 [0, 0] [7, 7, 7, 7] =
    [4, 210, 0, 53, 0, 12, 0, 0, 7, 7, 7, 7] from by decide]
  simp only [List.length_cons, List.length_nil, Nat.reduceAdd, Nat.reduceMod, Nat.reduceDiv,
    show ¬ (0 = 1) from by decide, if_false]
  rw [checksum16_eq _ _ (by decide), hraw, checksum16_fold, if_pos (by decide),
    checksum16_fold, if_neg (by decide)]
  decide

theorem example_udp_segment :
    udp_segment_wire [10, 0, 0, 1] [10, 0, 0, 2] 1234 53 [7, 7, 7, 7] =
      [4, 210, 0, 53, 0, 12, 216, 190, 7, 7, 7, 7] := by
  rw [udp_segment_wire_eq _ _ _ _ _ 48856 example_udp_checksum]
  decide

/-- C22. UDP send/receive round trip.  Sender: a host with local address `s.net_if_ip`
calls `udp_out` on a buffer holding a data block (the segment fits in one fragment, there
is room for the UDP header and the pseudo-header in front of the data and for one padding
byte behind it), with 16-bit ports `sp` and `dp` and destination address `B`.  The segment
it hands to `ip_out` is the wire segment: ports and length big-endian, the checksum over
the pseudo-header of the pair (sender, `B`), then the data.  Receiver: a host whose local
address is `B` and where port `dp` is open runs `udp_in` on a buffer holding that segment,
presented with the sender address as source: the length and checksum checks pass and the
only event is one call of the handler of `dp` with the original data bytes, their length,
the source address and the source port `sp`. -/
theorem udp_round_trip (s : State) (buf : buf_ref) (sp dp : Nat) (B : List Nat)
    (r : State) (rbuf : buf_ref) (src : List Nat)
    (hsp : sp < 65536) (hdp : dp < 65536)
    (hfit : (s.get buf).len + 8 ≤ 1480)
    (hroom : 28 ≤ (s.get buf).data)
    (hcap : (s.get buf).data + (s.get buf).len + 1 ≤ (s.get buf).payload.length)
    (hlocal : bytes_from r.net_if_ip 0 4 = bytes_from B 0 4)
    (hsrc : bytes_from src 0 4 = bytes_from s.net_if_ip 0 4)
    (hrx : (r.get rbuf).bytes =
      udp_segment_wire (bytes_from s.net_if_ip 0 4) (bytes_from B 0 4) sp dp (s.get buf).bytes)
    (hrroom : 20 ≤ (r.get rbuf).data)
    (hrpad : (r.get rbuf).data + (r.get rbuf).len + 1 ≤ (r.get rbuf).payload.length)
    (hport : dp ∈ r.udp_table) :
    ip_out_calls (udp_out s buf sp B dp).trace = ip_out_calls s.trace ++
      [Event.ip_out
        (udp_segment_wire (bytes_from s.net_if_ip 0 4) (bytes_from B 0 4) sp dp
          (s.get buf).bytes) B NET_PROTOCOL_UDP] ∧
    (udp_in r rbuf src).trace = r.trace ++
      [Event.udp_handler dp (s.get buf).bytes (s.get buf).len src sp] := by
  constructor
  · obtain ⟨Pf, h1, h2⟩ := udp_out_eq s buf sp dp B (by omega) hroom hcap
    obtain ⟨t, ht, hl⟩ := ip_out_small_trace
      (s.set buf ⟨(s.get buf).len + 8, (s.get buf).data - 8, Pf⟩) buf B NET_PROTOCOL_UDP
      (by rw [get_set]; exact hfit)
    rw [get_set, set_trace] at ht
    simp only [buf_t.bytes] at ht
    rw [h2] at ht
    rw [h1, ht]
    simp [ip_out_calls_append, ip_out_calls, (link_trace t hl).1]
  · have h := udp_in_wire r rbuf src sp dp (s.get buf).bytes
      (by rw [hrx, hsrc, hlocal]) hsp hdp
      (by simp only [buf_t.bytes, length_bytes_from]; omega) hrroom hrpad hport
    rw [h]
    simp only [buf_t.bytes, length_bytes_from]

/-- Witness of C22: `example_state` (local address 10.0.0.1) sends the four data bytes of
its user buffer from port 1234 to port 53 of 10.0.0.2; `example_udp_rx_state` is the peer
with the segment in its receive buffer. -/
theorem udp_round_trip_witness :
    (example_udp_rx_state.get buf_ref.rxbuf).bytes =
      udp_segment_wire (bytes_from example_state.net_if_ip 0 4) (bytes_from [10, 0, 0, 2] 0 4)
        1234 53 (example_state.get buf_ref.user).bytes ∧
    53 ∈ example_udp_rx_state.udp_table ∧
    ip_out_calls (udp_out example_state buf_ref.user 1234 [10, 0, 0, 2] 53).trace =
      ip_out_calls example_state.trace ++
      [Event.ip_out
        (udp_segment_wire (bytes_from example_state.net_if_ip 0 4)
          (bytes_from [10, 0, 0, 2] 0 4) 1234 53 (example_state.get buf_ref.user).bytes)
        [10, 0, 0, 2] NET_PROTOCOL_UDP] ∧
    (udp_in example_udp_rx_state buf_ref.rxbuf [10, 0, 0, 1]).trace =
      example_udp_rx_state.trace ++
      [Event.udp_handler 53 (example_state.get buf_ref.user).bytes
        (example_state.get buf_ref.user).len [10, 0, 0, 1] 1234] :=
  ⟨example_udp_segment.symm, by decide,
    udp_round_trip example_state buf_ref.user 1234 53 [10, 0, 0, 2] example_udp_rx_state
      buf_ref.rxbuf [10, 0, 0, 1] (by decide) (by decide) (by decide) (by decide) (by decide)
      (by decide) (by decide) example_udp_segment.symm (by decide) (by decide) (by decide)⟩

/-! ## IP over Ethernet: send and receive round trip -/

/-- The frame of an unfragmented datagram: on an ARP cache hit, `ip_fragment_out` with
offset 0 and no more fragments gives the driver one frame, the Ethernet header followed by
the IP header, the payload and the padding to the 46-byte minimum. -/
theorem ip_fragment_out_wire_frame (s : State) (buf : buf_ref) (ip mac : List Nat)
    (protocol id : Nat)
    (hroom : 34 ≤ (s.get buf).data)
    (hcap : (s.get buf).data + (s.get buf).len + (46 - ((s.get buf).len + 20)) ≤
      (s.get buf).payload.length)
    (hhit : map_get s.arp_table s.now ip = some mac) :
    frames (ip_fragment_out s buf ip protocol id 0 0).trace = frames s.trace ++
      [bytes_from mac 0 6 ++ (bytes_from s.net_if_mac 0 6 ++ ([8, 0] ++
        ((ip_header_wire ((s.get buf).len + 20) id 0 IP_DEFALUT_TTL protocol
            (bytes_from s.net_if_ip 0 4) (bytes_from ip 0 4) ++ (s.get buf).bytes) ++
          List.replicate (46 - ((s.get buf).len + 20)) 0)))] := by
  obtain ⟨p, hp, he, hfr, hb⟩ :=
    ip_fragment_out_spec s buf ip protocol id 0 0 (by decide) (by omega) (by omega)
  simp only [ne_eq, not_true_eq_false, if_false, Nat.add_zero] at hb
  have hbytes := hdr_payload_bytes p (s.get buf).payload _ (s.get buf).data (s.get buf).len
    (by omega) hfr hb
  have key : ∀ S1 : State, S1.trace = s.trace ++
        [Event.ip_fragment_out (s.get buf).bytes ip protocol id 0 0] →
      S1.get buf = ⟨(s.get buf).len + 20, (s.get buf).data - 20, p⟩ →
      map_get S1.arp_table S1.now ip = some mac → S1.net_if_mac = s.net_if_mac →
      frames (arp_out S1 buf ip).trace = frames s.trace ++
        [bytes_from mac 0 6 ++ (bytes_from s.net_if_mac 0 6 ++ ([8, 0] ++
          ((ip_header_wire ((s.get buf).len + 20) id 0 IP_DEFALUT_TTL protocol
              (bytes_from s.net_if_ip 0 4) (bytes_from ip 0 4) ++ (s.get buf).bytes) ++
            List.replicate (46 - ((s.get buf).len + 20)) 0)))] := by
    intro S1 h1 h2 h3 h4
    rw [arp_out_hit_eq S1 buf ip mac h3, ethernet_out_trace, get_log, h2,
      ethernet_out_buf_frame _ _ mac NET_PROTOCOL_IP (by simp only []; omega)
        (by simp only []; rw [hp]; omega)]
    simp only [buf_t.bytes, hbytes, State.log, h1, h4, frames_append, frames, List.append_nil]
    rfl
  rw [he]
  refine key _ ?_ ?_ ?_ ?_
  · rw [set_trace]
    rfl
  · rw [get_set]
  · rw [set_arp_table, set_now]
    exact hhit
  · cases buf <;> rfl

/-- Receiving a well-formed datagram: `ip_in` on a buffer that holds a wire header with
total length 20 plus the payload length and the local address as destination, the payload
and any trailing padding, hands the payload and the source address of the header to the
handler registered for the protocol of the header. -/
theorem ip_in_wire (s : State) (buf : buf_ref) (src_mac : List Nat) (I F t p : Nat)
    (src dst pay pad : List Nat)
    (hb : (s.get buf).bytes =
      (ip_header_wire (pay.length + 20) I F t p src dst ++ pay) ++ pad)
    (hs : src.length = 4) (hd : dst.length = 4) (hT : pay.length + 20 < 65536)
    (hdst : dst = bytes_from s.net_if_ip 0 4)
    (hwf : (s.get buf).data + (s.get buf).len ≤ (s.get buf).payload.length)
    (hreg : p % 256 ∈ s.net_table) :
    handler_calls (ip_in s buf src_mac).trace =
      handler_calls s.trace ++ [Event.handler (p % 256) pay src] := by
  have hacc := ip_in_accept_eq s buf src_mac
  generalize hget : s.get buf = b at hb hwf hacc
  obtain ⟨len, d, P⟩ := b
  simp only [buf_t.bytes] at hb hwf hacc
  obtain ⟨a0, a1, a2, a3, rfl⟩ := list_len4 src hs
  obtain ⟨e0, e1, e2, e3, rfl⟩ := list_len4 dst hd
  have hc : ∃ c, c = checksum16 (ip_header_spec (pay.length + 20) I F t p [0, 0]
      [a0, a1, a2, a3] [e0, e1, e2, e3]) 20 := ⟨_, rfl⟩
  obtain ⟨c, hcd⟩ := hc
  have hclt : c < 65536 := by rw [hcd]; exact checksum16_lt _ _
  have hH : ip_header_wire (pay.length + 20) I F t p [a0, a1, a2, a3] [e0, e1, e2, e3] =
      [0x45, 0, (pay.length + 20) / 256 % 256, (pay.length + 20) % 256, I / 256 % 256,
        I % 256, F / 256 % 256, F % 256, t % 256, p % 256, c % 256, c / 256 % 256,
        a0, a1, a2, a3, e0, e1, e2, e3] := by
    rw [hcd]
    rfl
  have hlen : len = 20 + (pay.length + pad.length) := by
    have := congrArg List.length hb
    rw [length_bytes_from, hH] at this
    simp only [List.length_append, List.length_cons, List.length_nil] at this
    omega
  subst hlen
  rw [bytes_from_append, List.append_assoc] at hb
  obtain ⟨h20, hrest⟩ := List.append_inj hb (by rw [length_bytes_from, hH]; rfl)
  rw [bytes_from_append] at hrest
  have hpay : bytes_from P (d + 20) pay.length = pay :=
    (List.append_inj hrest (length_bytes_from _ _ _)).1
  rw [bytes_from_twenty, hH] at h20
  simp only [List.cons.injEq, and_true] at h20
  obtain ⟨g0, g1, g2, g3, g4, g5, g6, g7, g8, g9, g10, g11, g12, g13, g14, g15, g16, g17, g18,
    g19⟩ := h20
  have hz : bytes_from (store16 P (d + 10) 0) d 20 =
      ip_header_spec (pay.length + 20) I F t p [0, 0] [a0, a1, a2, a3] [e0, e1, e2, e3] := by
    rw [bytes_from_twenty, getD_store16 _ _ _ d (by omega) (by omega), g0,
      getD_store16 _ _ _ (d + 1) (by omega) (by omega), g1,
      getD_store16 _ _ _ (d + 2) (by omega) (by omega), g2,
      getD_store16 _ _ _ (d + 3) (by omega) (by omega), g3,
      getD_store16 _ _ _ (d + 4) (by omega) (by omega), g4,
      getD_store16 _ _ _ (d + 5) (by omega) (by omega), g5,
      getD_store16 _ _ _ (d + 6) (by omega) (by omega), g6,
      getD_store16 _ _ _ (d + 7) (by omega) (by omega), g7,
      getD_store16 _ _ _ (d + 8) (by omega) (by omega), g8,
      getD_store16 _ _ _ (d + 9) (by omega) (by omega), g9,
      getD_store16_lo _ _ _ (by omega),
      show d + 11 = d + 10 + 1 from rfl, getD_store16_hi _ _ _ (by omega),
      getD_store16 _ _ _ (d + 12) (by omega) (by omega), g12,
      getD_store16 _ _ _ (d + 13) (by omega) (by omega), g13,
      getD_store16 _ _ _ (d + 14) (by omega) (by omega), g14,
      getD_store16 _ _ _ (d + 15) (by omega) (by omega), g15,
      getD_store16 _ _ _ (d + 16) (by omega) (by omega), g16,
      getD_store16 _ _ _ (d + 17) (by omega) (by omega), g17,
      getD_store16 _ _ _ (d + 18) (by omega) (by omega), g18,
      getD_store16 _ _ _ (d + 19) (by omega) (by omega), g19]
    rfl
  have hck : checksum16 ((store16 P (d + 10) 0).drop d) 20 = load16 P (d + 10) := by
    rw [checksum16_drop, hz, ← hcd]
    exact (load16_bytes P (d + 10) c hclt g10 g11).symm
  have htot : swap16 (load16 P (d + 2)) = pay.length + 20 :=
    load16_be P (d + 2) _ hT g2 g3
  have hver : byte_at P d / 16 = IP_VERSION_4 := by
    unfold byte_at
    rw [g0]
    decide
  have hdst2 : bytes_from P (d + 16) NET_IP_LEN = bytes_from s.net_if_ip 0 NET_IP_LEN := by
    show bytes_from P (d + 16) 4 = bytes_from s.net_if_ip 0 4
    rw [← hdst, bytes_from_four, g16, g17, g18, g19]
  have hsrc : bytes_from P (d + 12) NET_IP_LEN = [a0, a1, a2, a3] := by
    show bytes_from P (d + 12) 4 = _
    rw [bytes_from_four, g12, g13, g14, g15]
  have hpr : byte_at P (d + 9) = p % 256 := by
    unfold byte_at
    rw [g9, Nat.mod_mod]
  have h := hacc (by omega) hver (by rw [htot]; omega) hck hdst2 hwf
    (by rw [g10]; omega) (by rw [show d + 10 + 1 = d + 11 from rfl, g11]; omega)
  rw [h, htot, hsrc, hpr]
  have hrm : buf_remove_header ⟨pay.length + 20, d, P⟩ 20 = ⟨pay.length, d + 20, P⟩ := by
    unfold buf_remove_header
    rw [if_neg (by simp only []; omega)]
    simp only [Nat.add_sub_cancel]
  rw [hrm]
  obtain ⟨n1, n2⟩ := net_in_transport_registered (s.set buf ⟨pay.length, d + 20, P⟩) buf
    (p % 256) [a0, a1, a2, a3] (by rw [set_net_table]; exact hreg)
  rw [if_neg (by rw [n1]; decide), n2, set_trace, get_set]
  simp only [buf_t.bytes, hpay]

/-- Receiving a frame with protocol code IP: `ethernet_in` strips the 14-byte header and
hands the rest, with the source MAC address of the frame, to `ip_in`. -/
theorem ethernet_in_ip_frame (r : State) (rbuf : buf_ref) (dm sm D : List Nat)
    (hb : (r.get rbuf).bytes = dm ++ (sm ++ ([8, 0] ++ D)))
    (hdm : dm.length = 6) (hsm : sm.length = 6)
    (hip : NET_PROTOCOL_IP ∈ r.net_table) :
    ethernet_in r rbuf =
      ip_in (r.set rbuf ⟨D.length, (r.get rbuf).data + 14, (r.get rbuf).payload⟩) rbuf sm ∧
    bytes_from (r.get rbuf).payload ((r.get rbuf).data + 14) D.length = D ∧
    (r.get rbuf).len = D.length + 14 := by
  generalize hget : r.get rbuf = b at hb
  obtain ⟨len, d, P⟩ := b
  simp only [buf_t.bytes] at hb ⊢
  have hlen : len = 6 + (6 + (2 + D.length)) := by
    have := congrArg List.length hb
    rw [length_bytes_from] at this
    simp only [List.length_append, List.length_cons, List.length_nil, hdm, hsm] at this
    omega
  subst hlen
  rw [bytes_from_append] at hb
  obtain ⟨h1, hb1⟩ := List.append_inj hb (by rw [length_bytes_from, hdm])
  rw [bytes_from_append] at hb1
  obtain ⟨h2, hb2⟩ := List.append_inj hb1 (by rw [length_bytes_from, hsm])
  rw [bytes_from_append] at hb2
  obtain ⟨h3, h4⟩ := List.append_inj hb2 (by rw [length_bytes_from]; rfl)
  rw [bytes_from_two] at h3
  simp only [List.cons.injEq, and_true] at h3
  obtain ⟨p0, p1⟩ := h3
  have hproto : swap16 (load16 P (d + 12)) = NET_PROTOCOL_IP :=
    load16_be P (d + 12) 2048 (by decide) p0 p1
  have hrm : buf_remove_header ⟨6 + (6 + (2 + D.length)), d, P⟩ 14 =
      ⟨D.length, d + 14, P⟩ := by
    unfold buf_remove_header
    rw [if_neg (by simp only []; omega)]
    simp only [buf_t.mk.injEq, and_true]
    omega
  refine ⟨?_, h4, by omega⟩
  unfold ethernet_in
  simp only [hget, if_neg (show ¬ 6 + (6 + (2 + D.length)) < 14 from by omega), hproto, hrm,
    get_set]
  unfold net_in
  rw [if_pos (Or.inr rfl), if_pos (by rw [set_net_table]; exact hip), if_neg (by decide)]
  show ip_in _ rbuf (bytes_from P (d + 6) 6) = _
  rw [h2]

theorem example_ip_header :
    ip_header_wire 24 7 0 64 17 [10, 0, 0, 1] [10, 0, 0, 1] =
      [69, 0, 0, 24, 0, 7, 0, 0, 64, 17, 102, 205, 10, 0, 0, 1, 10, 0, 0, 1] := by
  have hraw : rawsum (ip_header_spec 24 7 0 64 17 [0, 0] [10, 0, 0, 1] [10, 0, 0, 1]) 20 =
      12953 := by decide
  have hc : checksum16 (ip_header_spec 24 7 0 64 17 [0, 0] [10, 0, 0, 1] [10, 0, 0, 1]) 20 =
      52582 := by
    rw [checksum16_eq _ _ (by decide), hraw, checksum16_fold, if_neg (by decide)]
  unfold ip_header_wire
  simp only [hc]
  decide

/-- C21. Send/receive round trip through IP and Ethernet.  Sender: a host calls
`ip_fragment_out` with offset 0 and no more fragments on a buffer holding a payload of at
most 1480 bytes (with room for the IP and Ethernet headers in front and for the padding
behind), for a one-byte protocol number, with its own address as destination, and the
address table resolves that address to `mac`.  The one frame it gives the driver is the
Ethernet header (`mac`, the local MAC address, protocol code `0x0800`), the IP header of
the wire format, the payload, and zero bytes up to the 46-byte minimum.  Receiver: a host
with the same local address, with handlers registered for IP and for the protocol, runs
`ethernet_in` on a buffer holding that frame: the frame passes `ethernet_in` and every
check of `ip_in`, and the handler of the protocol is called exactly once, with exactly the
original payload bytes (the padding is removed) and the local address as source. -/
theorem ip_ethernet_round_trip (s : State) (buf : buf_ref) (protocol id : Nat)
    (mac : List Nat) (r : State) (rbuf : buf_ref)
    (hlen : (s.get buf).len ≤ 1480)
    (hproto : protocol < 256)
    (hroom : 34 ≤ (s.get buf).data)
    (hcap : (s.get buf).data + (s.get buf).len + (46 - ((s.get buf).len + 20)) ≤
      (s.get buf).payload.length)
    (hhit : map_get s.arp_table s.now s.net_if_ip = some mac)
    (hrx : (r.get rbuf).bytes =
      bytes_from mac 0 6 ++ (bytes_from s.net_if_mac 0 6 ++ ([8, 0] ++
        ((ip_header_wire ((s.get buf).len + 20) id 0 IP_DEFALUT_TTL protocol
            (bytes_from s.net_if_ip 0 4) (bytes_from s.net_if_ip 0 4) ++ (s.get buf).bytes) ++
          List.replicate (46 - ((s.get buf).len + 20)) 0))))
    (hrwf : (r.get rbuf).data + (r.get rbuf).len ≤ (r.get rbuf).payload.length)
    (hlocal : bytes_from r.net_if_ip 0 4 = bytes_from s.net_if_ip 0 4)
    (hip : NET_PROTOCOL_IP ∈ r.net_table) (hreg : protocol ∈ r.net_table) :
    frames (ip_fragment_out s buf s.net_if_ip protocol id 0 0).trace = frames s.trace ++
      [bytes_from mac 0 6 ++ (bytes_from s.net_if_mac 0 6 ++ ([8, 0] ++
        ((ip_header_wire ((s.get buf).len + 20) id 0 IP_DEFALUT_TTL protocol
            (bytes_from s.net_if_ip 0 4) (bytes_from s.net_if_ip 0 4) ++ (s.get buf).bytes) ++
          List.replicate (46 - ((s.get buf).len + 20)) 0)))] ∧
    handler_calls (ethernet_in r rbuf).trace = handler_calls r.trace ++
      [Event.handler protocol (s.get buf).bytes (bytes_from s.net_if_ip 0 4)] := by
  refine ⟨ip_fragment_out_wire_frame s buf s.net_if_ip mac protocol id hroom hcap hhit, ?_⟩
  obtain ⟨e1, e2, e3⟩ := ethernet_in_ip_frame r rbuf _ _ _ hrx (length_bytes_from _ _ _)
    (length_bytes_from _ _ _) hip
  rw [e1]
  have hlenb : (s.get buf).bytes.length = (s.get buf).len := length_bytes_from _ _ _
  have h := ip_in_wire
    (r.set rbuf ⟨((ip_header_wire ((s.get buf).len + 20) id 0 IP_DEFALUT_TTL protocol
        (bytes_from s.net_if_ip 0 4) (bytes_from s.net_if_ip 0 4) ++ (s.get buf).bytes) ++
          List.replicate (46 - ((s.get buf).len + 20)) 0).length,
      (r.get rbuf).data + 14, (r.get rbuf).payload⟩) rbuf
    (bytes_from s.net_if_mac 0 6) id 0 IP_DEFALUT_TTL protocol (bytes_from s.net_if_ip 0 4)
    (bytes_from s.net_if_ip 0 4) (s.get buf).bytes
    (List.replicate (46 - ((s.get buf).len + 20)) 0)
    (by rw [get_set, hlenb]; exact e2) (length_bytes_from _ _ _) (length_bytes_from _ _ _)
    (by rw [hlenb]; omega)
    (by rw [set_net_if_ip]; exact hlocal.symm)
    (by rw [get_set]; simp only []; omega)
    (by rw [set_net_table, Nat.mod_eq_of_lt hproto]; exact hreg)
  rw [h, set_trace, Nat.mod_eq_of_lt hproto]

/-- Witness of C21: `example_loopback_state` sends the four bytes of its user buffer to
its own address as a UDP datagram with identifier 7, and holds the resulting 60-byte frame
in its receive buffer. -/
theorem ip_ethernet_round_trip_witness :
    map_get example_loopback_state.arp_table example_loopback_state.now
      example_loopback_state.net_if_ip = some [2, 0, 0, 0, 0, 1] ∧
    17 ∈ example_loopback_state.net_table ∧
    frames (ip_fragment_out example_loopback_state buf_ref.user
        example_loopback_state.net_if_ip 17 7 0 0).trace =
      frames example_loopback_state.trace ++
        [(example_loopback_state.get buf_ref.rxbuf).bytes] ∧
    handler_calls (ethernet_in example_loopback_state buf_ref.rxbuf).trace =
      handler_calls example_loopback_state.trace ++
        [Event.handler 17 [7, 7, 7, 7] [10, 0, 0, 1]] :=
  have hrx : (example_loopback_state.get buf_ref.rxbuf).bytes =
      bytes_from [2, 0, 0, 0, 0, 1] 0 6 ++ (bytes_from example_loopback_state.net_if_mac 0 6 ++
        ([8, 0] ++ ((ip_header_wire ((example_loopback_state.get buf_ref.user).len + 20) 7 0
            IP_DEFALUT_TTL 17 (bytes_from example_loopback_state.net_if_ip 0 4)
            (bytes_from example_loopback_state.net_if_ip 0 4) ++
              (example_loopback_state.get buf_ref.user).bytes) ++
          List.replicate (46 - ((example_loopback_state.get buf_ref.user).len + 20)) 0))) := by
    show _ = _ ++ (_ ++ ([8, 0] ++
      ((ip_header_wire 24 7 0 64 17 [10, 0, 0, 1] [10, 0, 0, 1] ++ _) ++ _)))
    rw [example_ip_header]
    decide
  have h := ip_ethernet_round_trip example_loopback_state buf_ref.user 17 7
    [2, 0, 0, 0, 0, 1] example_loopback_state buf_ref.rxbuf (by decide) (by decide)
    (by decide) (by decide) (by decide) hrx (by decide) rfl (by decide) (by decide)
  ⟨by decide, by decide, hrx ▸ h.1, h.2⟩

/-! ## ip_out: a length beyond the 16-bit counter -/

/-- A buffer length that is a positive multiple of 65536: the `uint16_t` counter
`remaining_len` of `ip_out` starts at 0, the loop body never runs, and the call only
advances the identifier counter. -/
theorem ip_out_len_wraps (s : State) (buf : buf_ref) (ip : List Nat) (protocol : Nat)
    (hlen : 1480 < (s.get buf).len) (hmod : (s.get buf).len % 65536 = 0) :
    ip_out s buf ip protocol =
      { s.log (Event.ip_out (s.get buf).bytes ip protocol) with
        packet_id := s.packet_id + 1 } := by
  have hg : ∀ e, ({ s.log e with packet_id := (s.log e).packet_id + 1 } : State).get buf =
      s.get buf := by
    intro e
    cases buf <;> rfl
  unfold ip_out
  simp only []
  rw [if_neg (by rw [hg]; omega), hg, hmod, ip_out_loop_done]
  rfl

/-- C20, counterexample.  `oversize_state` holds a 65536-byte payload in the buffer of
the caller, and 10.0.0.4 has no entry in the address table and none in the pending table.
The payload is longer than 1480 bytes, yet `ip_out` transmits no ARP request (the driver
gets no frame), makes no call of `ip_fragment_out` and stores nothing in the pending
table: the only event is the call of `ip_out` itself. -/
theorem ip_out_unresolved_65536_sends_nothing :
    1480 < (oversize_state.get buf_ref.user).len ∧
    map_get oversize_state.arp_table oversize_state.now [10, 0, 0, 4] = none ∧
    map_get oversize_state.arp_buf oversize_state.now [10, 0, 0, 4] = none ∧
    (ip_out oversize_state buf_ref.user [10, 0, 0, 4] 17).trace =
      oversize_state.trace ++
        [Event.ip_out (oversize_state.get buf_ref.user).bytes [10, 0, 0, 4] 17] ∧
    frames (ip_out oversize_state buf_ref.user [10, 0, 0, 4] 17).trace = [] ∧
    fragment_calls (ip_out oversize_state buf_ref.user [10, 0, 0, 4] 17).trace = [] ∧
    (ip_out oversize_state buf_ref.user [10, 0, 0, 4] 17).arp_buf = oversize_state.arp_buf ∧
    map_get (ip_out oversize_state buf_ref.user [10, 0, 0, 4] 17).arp_buf
      (ip_out oversize_state buf_ref.user [10, 0, 0, 4] 17).now [10, 0, 0, 4] = none := by
  have h := ip_out_len_wraps oversize_state buf_ref.user [10, 0, 0, 4] 17 (by decide)
    (by decide)
  rw [h]
  refine ⟨by decide, by decide, by decide, rfl, ?_, ?_, rfl, by decide⟩
  · simp [State.log, frames_append, frames]
  · simp [State.log, fragment_calls_append, fragment_calls]

end NetLab
